import Mathlib

/-!
# youtube-chat: a shallow embedding of the parser, the URL builder and the
polling engine

Go values are embedded as follows.

* `string` is `String`; the pages and payloads handled here are text, and a
  byte slice of an ASCII string (`hex[2:]`) is a character slice.
* A pointer that may be `nil` is an `Option`; a slice is a `List` (a `nil`
  slice and an empty slice are both `[]`, the code only ranges over them and
  takes their length).
* `int` is `Int`; where the code multiplies into an `int64` the product is
  wrapped with `wrapInt64`.
* `error` is `Option String` (`none` is `nil`, `some msg` an error whose
  message is `msg`).
* `time.Now()` is an explicit argument: the reading `now` of the clock, or
  a function `clock` giving the reading made at each step of a loop.
* A buffered channel is a `Chan`: its capacity, the pending values, and
  whether it has been closed.
* A method of the engine is a function on an `Engine`, the record together
  with the number of workers launched and the state the fetch hooks act on;
  it returns `none` where the Go code panics.
-/

namespace YoutubeChat

/-! ## types/data.go -/

/-- Go `time.Time`, as seconds and nanoseconds since the Unix epoch. -/
structure Time where
  sec : Int
  nsec : Int
deriving DecidableEq, Repr, Inhabited

/-- Go `types.ImageItem`. -/
structure ImageItem where
  URL : String := ""
  Alt : String := ""
deriving DecidableEq, Repr, Inhabited

/-- Go `types.EmojiItem` (the embedded `ImageItem` is the field `ImageItem`). -/
structure EmojiItem where
  ImageItem : ImageItem := {}
  EmojiText : String := ""
  IsCustomEmoji : Bool := false
deriving DecidableEq, Repr, Inhabited

/-- Go `types.MessageItem`. -/
structure MessageItem where
  Text : String := ""
  EmojiItem : Option EmojiItem := none
deriving DecidableEq, Repr, Inhabited

/-- Go `types.SuperChat`. -/
structure SuperChat where
  Amount : String := ""
  Color : String := ""
  Sticker : Option ImageItem := none
deriving DecidableEq, Repr, Inhabited

/-- Go `types.Badge`. -/
structure Badge where
  Thumbnail : ImageItem := {}
  Label : String := ""
deriving DecidableEq, Repr, Inhabited

/-- Go `types.Author`. -/
structure Author where
  Name : String := ""
  Thumbnail : Option ImageItem := none
  ChannelID : String := ""
  Badge : Option Badge := none
deriving DecidableEq, Repr, Inhabited

/-- Go `types.ChatItem`. -/
structure ChatItem where
  ID : String := ""
  Author : Author := {}
  Message : List MessageItem := []
  SuperChat : Option SuperChat := none
  IsMembership : Bool := false
  IsVerified : Bool := false
  IsOwner : Bool := false
  IsModerator : Bool := false
  Timestamp : Time := ⟨0, 0⟩
deriving DecidableEq, Repr, Inhabited

/-- Go `types.YoutubeId`. -/
structure YoutubeId where
  ChannelID : String := ""
  LiveID : String := ""
  Handle : String := ""
deriving DecidableEq, Repr, Inhabited

/-! ## types/yt_response.go

Fields that no function of the package reads (tracking parameters, context
menu endpoints, display sizes) are left out of the records. -/

/-- Go `types.FetchOptions`. -/
structure FetchOptions where
  ApiKey : String := ""
  ClientVersion : String := ""
  Continuation : String := ""
  LiveID : String := ""
deriving DecidableEq, Repr, Inhabited

/-- Go `types.Thumbnail`. -/
structure Thumbnail where
  URL : String := ""
  Width : Int := 0
  Height : Int := 0
deriving DecidableEq, Repr, Inhabited

/-- The anonymous struct behind `InvalidationContinuationData`. -/
structure InvalidationContinuationData where
  TimeoutMs : Int := 0
  Continuation : String := ""
deriving DecidableEq, Repr, Inhabited

/-- The anonymous struct behind `TimedContinuationData`. -/
structure TimedContinuationData where
  TimeoutMs : Int := 0
  Continuation : String := ""
  ClickTrackingParams : String := ""
deriving DecidableEq, Repr, Inhabited

/-- Go `types.Continuation`: two optional shapes. -/
structure Continuation where
  InvalidationContinuationData : Option InvalidationContinuationData := none
  TimedContinuationData : Option TimedContinuationData := none
deriving DecidableEq, Repr, Inhabited

/-- The `Image` field of `types.MessageEmoji`. -/
structure EmojiImage where
  Thumbnails : List Thumbnail := []
  Label : String := ""
deriving DecidableEq, Repr, Inhabited

/-- Go `types.MessageEmoji`. -/
structure MessageEmoji where
  EmojiId : String := ""
  Shortcuts : List String := []
  SearchTerms : List String := []
  SupportsSkinTone : Bool := false
  Image : EmojiImage := {}
  VariantIds : List String := []
  IsCustomEmoji : Bool := false
deriving DecidableEq, Repr, Inhabited

/-- Go `types.MessageRun`. -/
structure MessageRun where
  Text : String := ""
  Emoji : Option MessageEmoji := none
deriving DecidableEq, Repr, Inhabited

/-- The `LiveChatAuthorBadgeRenderer` struct of `types.AuthorBadge`:
`CustomThumbnail` is the thumbnail list of the optional custom thumbnail,
`Icon` the icon type of the optional icon. -/
structure LiveChatAuthorBadgeRenderer where
  CustomThumbnail : Option (List Thumbnail) := none
  Icon : Option String := none
  Tooltip : String := ""
  Label : String := ""
deriving DecidableEq, Repr, Inhabited

/-- Go `types.AuthorBadge`. -/
structure AuthorBadge where
  LiveChatAuthorBadgeRenderer : LiveChatAuthorBadgeRenderer := {}
deriving DecidableEq, Repr, Inhabited

/-- Go `types.MessageRendererBase`: `AuthorName` is the `SimpleText` of the
optional author name, `AuthorPhoto` the thumbnail list of the photo. -/
structure MessageRendererBase where
  AuthorName : Option String := none
  AuthorPhoto : List Thumbnail := []
  AuthorBadges : List AuthorBadge := []
  ID : String := ""
  TimestampUsec : String := ""
  AuthorExternalChannelId : String := ""
deriving DecidableEq, Repr, Inhabited

/-- Go `types.LiveChatTextMessageRenderer`; `Message` is `Message.Runs`. -/
structure LiveChatTextMessageRenderer where
  MessageRendererBase : MessageRendererBase := {}
  Message : List MessageRun := []
deriving DecidableEq, Repr, Inhabited

/-- Go `types.LiveChatPaidMessageRenderer`; it embeds the text renderer, so
its `MessageRendererBase` and `Message` are those of the embedded record. -/
structure LiveChatPaidMessageRenderer where
  LiveChatTextMessageRenderer : LiveChatTextMessageRenderer := {}
  PurchaseAmountText : String := ""
  HeaderBackgroundColor : Int := 0
  HeaderTextColor : Int := 0
  BodyBackgroundColor : Int := 0
  BodyTextColor : Int := 0
  AuthorNameTextColor : Int := 0
deriving DecidableEq, Repr, Inhabited

/-- The `Sticker` field of `types.LiveChatPaidStickerRenderer`. -/
structure Sticker where
  Thumbnails : List Thumbnail := []
  Label : String := ""
deriving DecidableEq, Repr, Inhabited

/-- Go `types.LiveChatPaidStickerRenderer`. -/
structure LiveChatPaidStickerRenderer where
  MessageRendererBase : MessageRendererBase := {}
  PurchaseAmountText : String := ""
  Sticker : Sticker := {}
  MoneyChipBackgroundColor : Int := 0
  MoneyChipTextColor : Int := 0
  BackgroundColor : Int := 0
  AuthorNameTextColor : Int := 0
deriving DecidableEq, Repr, Inhabited

/-- Go `types.LiveChatMembershipItemRenderer`; `HeaderSubtext` is
`HeaderSubtext.Runs`. -/
structure LiveChatMembershipItemRenderer where
  MessageRendererBase : MessageRendererBase := {}
  HeaderSubtext : List MessageRun := []
deriving DecidableEq, Repr, Inhabited

/-- Go `types.ActionItem`. The viewer-engagement renderer is an untyped
value of which only the presence matters. -/
structure ActionItem where
  LiveChatTextMessageRenderer : Option LiveChatTextMessageRenderer := none
  LiveChatPaidMessageRenderer : Option LiveChatPaidMessageRenderer := none
  LiveChatMembershipItemRenderer : Option LiveChatMembershipItemRenderer := none
  LiveChatPaidStickerRenderer : Option LiveChatPaidStickerRenderer := none
  LiveChatViewerEngagementMessageRenderer : Bool := false
deriving DecidableEq, Repr, Inhabited

/-- Go `types.AddChatItemAction`. -/
structure AddChatItemAction where
  Item : ActionItem := {}
  ClientId : String := ""
deriving DecidableEq, Repr, Inhabited

/-- Go `types.Action`. The ticker action is an untyped value of which only
the presence matters. -/
structure Action where
  AddChatItemAction : Option AddChatItemAction := none
  AddLiveChatTickerItemAction : Bool := false
deriving DecidableEq, Repr, Inhabited

/-- Go `types.GetLiveChatResponse`, flattened to the two lists of
`ContinuationContents.LiveChatContinuation`. -/
structure GetLiveChatResponse where
  Continuations : List Continuation := []
  Actions : List Action := []
deriving DecidableEq, Repr, Inhabited

/-! ## live_chat.go: the engine record and its constructor -/

/-- A Go channel: capacity, pending values (oldest first), closed flag. -/
structure Chan (α : Type) where
  cap : Nat
  buf : List α := []
  closed : Bool := false
deriving DecidableEq, Repr

/-- Go `make(chan T, n)`. -/
def makeChan (α : Type) (n : Nat) : Chan α := { cap := n }

/-- Two's complement wrap-around of an integer into the `int64` range. -/
def wrapInt64 (x : Int) : Int := (x + 2 ^ 63) % 2 ^ 64 - 2 ^ 63

/-- Go `time.Millisecond`, in nanoseconds. -/
def Millisecond : Int := 1000000

/-- Go `*time.Ticker`: its period in nanoseconds, and whether its `Stop` has
been called. -/
structure Ticker where
  d : Int
  stopped : Bool := false
deriving DecidableEq, Repr

/-- Go `LiveChat`. `observer` is the ticker, `stopChan` the unbuffered stop
channel. The two fetch hooks perform network I/O; they are not part of the
record, they are supplied to the operations that call them. -/
structure LiveChat where
  ChatChan : Chan ChatItem
  ErrorChan : Chan String
  StartChan : Chan String
  EndChan : Chan String
  liveID : String := ""
  observer : Option Ticker := none
  options : Option FetchOptions := none
  interval : Int := 0
  id : YoutubeId := {}
  stopChan : Chan Unit
  running : Bool := false
deriving DecidableEq, Repr

/-- Go `NewLiveChat`: the engine (or `nil`) and the error (or `nil`). -/
def NewLiveChat (id : YoutubeId) (intervalMs : Int) : Option LiveChat × Option String :=
  if id.ChannelID = "" ∧ id.LiveID = "" ∧ id.Handle = "" then
    (none, some "Required channelId or liveId or handle.")
  else
    let lc : LiveChat :=
      { ChatChan := makeChan ChatItem 100
        ErrorChan := makeChan String 10
        StartChan := makeChan String 1
        EndChan := makeChan String 1
        id := id
        interval := wrapInt64 (intervalMs * Millisecond)
        stopChan := makeChan Unit 0 }
    let lc := if lc.interval = 0 then { lc with interval := 1000 * Millisecond } else lc
    let lc := if id.LiveID ≠ "" then { lc with liveID := id.LiveID } else lc
    (some lc, none)

/-! ## parser.go: thumbnails, colours, message runs -/

/-- Go `parseThumbnailToImageItem`; the returned pointer is never `nil`, so
the image itself is returned. `data[len(data)-1]` is the last element. -/
def parseThumbnailToImageItem (data : List Thumbnail) (alt : String) : ImageItem :=
  if data.length = 0 then
    { URL := "", Alt := "" }
  else
    let formattedThumb := data.getD (data.length - 1) {}
    { URL := formattedThumb.URL, Alt := alt }

/-- The digit table of Go `fmt` for the `X` verb. -/
def udigits : List Char :=
  ['0', '1', '2', '3', '4', '5', '6', '7', '8', '9', 'A', 'B', 'C', 'D', 'E', 'F']

/-- One upper-case hexadecimal digit, `udigits[d]`. -/
def hexDigitUpper (d : Nat) : Char := udigits.getD d '0'

/-- The digit loop of Go `fmt` for base 16: while `u >= 16` emit the low
digit and shift, then emit the last digit. The first argument bounds the
number of iterations; a 64-bit magnitude needs at most 15. -/
def fmtHexUpperAux : Nat → Nat → List Char → List Char
  | 0, u, acc => hexDigitUpper u :: acc
  | fuel + 1, u, acc =>
    if u ≥ 16 then fmtHexUpperAux fuel (u / 16) (hexDigitUpper (u % 16) :: acc)
    else hexDigitUpper u :: acc

/-- Go `fmt.Sprintf("%08X", v)` for an `int`: the magnitude in upper-case
hexadecimal, zero-padded on the left to width 8, one column of which is
taken by the sign of a negative number. -/
def sprintf08X (v : Int) : List Char :=
  let negative : Bool := decide (v < 0)
  let u := v.natAbs
  let prec := if negative then 7 else 8
  let ds := fmtHexUpperAux 16 u []
  let padded := List.replicate (prec - ds.length) '0' ++ ds
  if negative then '-' :: padded else padded

/-- Go `convertColorToHex6`. -/
def convertColorToHex6 (colorNum : Int) : String :=
  let hex := sprintf08X colorNum
  if hex.length ≥ 2 then
    "#" ++ String.mk ((hex.drop 2).map Char.toUpper)
  else
    "#" ++ String.mk hex

/-- The body of the loop of `parseMessages`: what one run appends. -/
def parseMessagesStep (items : List MessageItem) (run : MessageRun) : List MessageItem :=
  if run.Text ≠ "" then
    items ++ [{ Text := run.Text }]
  else
    match run.Emoji with
    | some emoji =>
      let thumb : ImageItem :=
        if emoji.Image.Thumbnails.length > 0 then
          { URL := (emoji.Image.Thumbnails.getD 0 {}).URL }
        else
          { URL := "", Alt := "" }
      let isCustom := emoji.IsCustomEmoji
      let shortcut := if emoji.Shortcuts.length > 0 then emoji.Shortcuts.getD 0 "" else ""
      let thumb := { thumb with Alt := shortcut }
      let emojiItem : EmojiItem :=
        { ImageItem := thumb
          EmojiText := if isCustom then shortcut else emoji.EmojiId
          IsCustomEmoji := isCustom }
      items ++ [{ EmojiItem := some emojiItem }]
    | none => items

/-- Go `parseMessages`. -/
def parseMessages (runs : List MessageRun) : List MessageItem :=
  runs.foldl parseMessagesStep []

/-! ## parser.go: timestamps -/

/-- The digits of Go `strconv.ParseUint(s, 10, 64)`: a non-empty string of
decimal digits, read as a natural number. -/
def parseUintDigits (cs : List Char) : Option Nat :=
  if cs = [] then none
  else cs.foldl
    (fun acc c => acc.bind fun n => if c.isDigit then some (n * 10 + (c.toNat - 48)) else none)
    (some 0)

/-- Go `strconv.ParseInt(s, 10, 64)`; `none` when it returns an error
(empty, not an optionally signed decimal, or out of the `int64` range). -/
def parseInt64 (s : String) : Option Int :=
  match s.toList with
  | [] => none
  | c :: cs =>
    let neg : Bool := c = '-'
    let ds := if c = '+' ∨ c = '-' then cs else c :: cs
    match parseUintDigits ds with
    | none => none
    | some un =>
      if ¬ neg ∧ un ≥ 2 ^ 63 then none
      else if neg ∧ un > 2 ^ 63 then none
      else some (if neg then -(un : Int) else (un : Int))

/-- Go `time.Unix(sec, nsec)`: a nanosecond count outside `[0, 1e9)` is
carried into the seconds. -/
def timeUnix (sec nsec : Int) : Time :=
  if nsec < 0 ∨ nsec ≥ 1000000000 then
    let n := Int.tdiv nsec 1000000000
    let sec := sec + n
    let nsec := nsec - n * 1000000000
    if nsec < 0 then ⟨sec - 1, nsec + 1000000000⟩ else ⟨sec, nsec⟩
  else ⟨sec, nsec⟩

/-! ## parser.go: one action -/

/-- The renderer whose shared base fields `parseActionToChatItem` reads:
the first populated one of text, paid message, paid sticker, membership. -/
def selectRenderer (item : ActionItem) : Option MessageRendererBase :=
  match item.LiveChatTextMessageRenderer with
  | some r => some r.MessageRendererBase
  | none =>
    match item.LiveChatPaidMessageRenderer with
    | some r => some r.LiveChatTextMessageRenderer.MessageRendererBase
    | none =>
      match item.LiveChatPaidStickerRenderer with
      | some r => some r.MessageRendererBase
      | none =>
        match item.LiveChatMembershipItemRenderer with
        | some r => some r.MessageRendererBase
        | none => none

/-- The message runs `parseActionToChatItem` reads: those of the first
populated one of text, membership, paid message, else none. -/
def selectRuns (item : ActionItem) : List MessageRun :=
  match item.LiveChatTextMessageRenderer with
  | some r => r.Message
  | none =>
    match item.LiveChatMembershipItemRenderer with
    | some r => r.HeaderSubtext
    | none =>
      match item.LiveChatPaidMessageRenderer with
      | some r => r.LiveChatTextMessageRenderer.Message
      | none => []

/-- The body of the badge loop of `parseActionToChatItem`. -/
def badgeStep (idx : ChatItem) (entry : AuthorBadge) : ChatItem :=
  let badge := entry.LiveChatAuthorBadgeRenderer
  match badge.CustomThumbnail with
  | some thumbnails =>
    let newBadge : Badge :=
      { Thumbnail := parseThumbnailToImageItem thumbnails badge.Tooltip
        Label := badge.Tooltip }
    { idx with
      Author := { idx.Author with Badge := some newBadge }
      IsMembership := true }
  | none =>
    match badge.Icon with
    | some iconType =>
      if iconType = "OWNER" then { idx with IsOwner := true }
      else if iconType = "VERIFIED" then { idx with IsVerified := true }
      else if iconType = "MODERATOR" then { idx with IsModerator := true }
      else idx
    | none => idx

/-- The "Superchat logic" of `parseActionToChatItem`: paid sticker first,
then paid message. -/
def superChatOf (item : ActionItem) : Option SuperChat :=
  match item.LiveChatPaidStickerRenderer with
  | some r =>
    let sc : SuperChat :=
      { Amount := r.PurchaseAmountText
        Color := convertColorToHex6 r.BackgroundColor
        Sticker := some (parseThumbnailToImageItem r.Sticker.Thumbnails r.Sticker.Label) }
    some sc
  | none =>
    match item.LiveChatPaidMessageRenderer with
    | some r =>
      let sc : SuperChat :=
        { Amount := r.PurchaseAmountText
          Color := convertColorToHex6 r.BodyBackgroundColor }
      some sc
    | none => none

/-- Go `parseActionToChatItem`; `now` is the value of `time.Now()`. The
result is `none` where the Go function returns `nil`. -/
def parseActionToChatItem (now : Time) (data : Action) : Option ChatItem :=
  match data.AddChatItemAction with
  | none => none
  | some action =>
    let item := action.Item
    match selectRenderer item with
    | none => none
    | some messageRenderer =>
      let messageRuns := selectRuns item
      let authorNameText :=
        match messageRenderer.AuthorName with
        | some simpleText => simpleText
        | none => ""
      let authorThumb := parseThumbnailToImageItem messageRenderer.AuthorPhoto authorNameText
      let timestamp :=
        match parseInt64 messageRenderer.TimestampUsec with
        | some ts => timeUnix (Int.tdiv ts 1000000) (Int.tmod ts 1000000 * 1000)
        | none => now
      let idx : ChatItem :=
        { ID := messageRenderer.ID
          Author :=
            { Name := authorNameText
              Thumbnail := some authorThumb
              ChannelID := messageRenderer.AuthorExternalChannelId }
          Message := parseMessages messageRuns
          Timestamp := timestamp
          IsMembership := false
          IsOwner := false
          IsVerified := false
          IsModerator := false }
      let idx := messageRenderer.AuthorBadges.foldl badgeStep idx
      let idx :=
        match superChatOf item with
        | some sc => { idx with SuperChat := some sc }
        | none => idx
      some idx

/-! ## parser.go: one response -/

/-- The action loop of `ParseChatData`. Each call of
`parseActionToChatItem` reads the clock anew: `clock i` is the reading made
while the action at index `i` is parsed. -/
def parseChatLoop (clock : Nat → Time) : Nat → List Action → List ChatItem → List ChatItem
  | _, [], chatItems => chatItems
  | i, action :: rest, chatItems =>
    match parseActionToChatItem (clock i) action with
    | some item => parseChatLoop clock (i + 1) rest (chatItems ++ [item])
    | none => parseChatLoop clock (i + 1) rest chatItems

/-- Go `ParseChatData`: the chat items and the continuation. -/
def ParseChatData (clock : Nat → Time) (data : GetLiveChatResponse) : List ChatItem × String :=
  let chatItems := parseChatLoop clock 0 data.Actions []
  let continuation :=
    if data.Continuations.length > 0 then
      let contData := data.Continuations.getD 0 {}
      match contData.InvalidationContinuationData with
      | some inv => inv.Continuation
      | none =>
        match contData.TimedContinuationData with
        | some timed => timed.Continuation
        | none => ""
    else ""
  (chatItems, continuation)

/-! ## parser.go: the page patterns

Go's `regexp` returns the leftmost match and, among the matches starting
there, the one a backtracking search finds first. The five patterns of the
package use literals, one-character classes, a greedy `\s*`, a lazy `+?` over
a class, and one capture group each; `Regex` is that fragment and `Regex.run`
the backtracking search, written with a continuation for what follows. -/

/-- The fragment of the regular-expression syntax used by the patterns. -/
inductive Regex where
  | lit (s : List Char)
  | cls (p : Char → Bool)
  | star (p : Char → Bool)
  | plusLazy (p : Char → Bool)
  | cap (r : Regex)
  | seq (r s : Regex)

/-- Match a literal at the head of the input; the rest of the input. -/
def matchLit : List Char → List Char → Option (List Char)
  | [], input => some input
  | _ :: _, [] => none
  | c :: cs, d :: ds => if c = d then matchLit cs ds else none

/-- Greedy `p*` followed by `k`: the longest run is tried first. -/
def matchStar {α : Type} (p : Char → Bool) (k : List Char → Option α) :
    List Char → Option α
  | [] => k []
  | c :: cs =>
    if p c then
      match matchStar p k cs with
      | some r => some r
      | none => k (c :: cs)
    else k (c :: cs)

/-- Lazy `p+?` followed by `k`: the shortest non-empty run is tried first. -/
def matchPlusLazy {α : Type} (p : Char → Bool) (k : List Char → Option α) :
    List Char → Option α
  | [] => none
  | c :: cs =>
    if p c then
      match k cs with
      | some r => some r
      | none => matchPlusLazy p k cs
    else none

/-- Backtracking match of a pattern at the head of the input. `caps` are
the groups captured so far; `k` continues with the captures and the rest of
the input, and a `none` from it makes the search backtrack. -/
def Regex.run {α : Type} : Regex → List (List Char) → List Char →
    (List (List Char) → List Char → Option α) → Option α
  | .lit s, caps, input, k =>
    match matchLit s input with
    | some rest => k caps rest
    | none => none
  | .cls p, caps, input, k =>
    match input with
    | c :: cs => if p c then k caps cs else none
    | [] => none
  | .star p, caps, input, k => matchStar p (k caps) input
  | .plusLazy p, caps, input, k => matchPlusLazy p (k caps) input
  | .cap r, caps, input, k =>
    r.run caps input
      (fun caps1 rest => k (caps1 ++ [input.take (input.length - rest.length)]) rest)
  | .seq r s, caps, input, k =>
    r.run caps input (fun caps1 rest => s.run caps1 rest k)

/-- The leftmost match: the input from the start of the match, the captured
groups, and the input after the match. -/
def Regex.find (re : Regex) : List Char → Option (List Char × List (List Char) × List Char)
  | [] =>
    match re.run [] [] (fun caps rest => some (caps, rest)) with
    | some (caps, rest) => some ([], caps, rest)
    | none => none
  | c :: cs =>
    match re.run [] (c :: cs) (fun caps rest => some (caps, rest)) with
    | some (caps, rest) => some (c :: cs, caps, rest)
    | none => Regex.find re cs

/-- Go `(*Regexp).FindStringSubmatch`: `[]` (nil) without a match, else the
text of the match followed by the text of each group. -/
def FindStringSubmatch (re : Regex) (s : String) : List String :=
  match re.find s.toList with
  | none => []
  | some (start, caps, rest) =>
    String.mk (start.take (start.length - rest.length)) :: caps.map String.mk

/-- Go `(*Regexp).MatchString`. -/
def MatchString (re : Regex) (s : String) : Bool :=
  (re.find s.toList).isSome

/-- Concatenation of patterns. -/
def Regex.cat : List Regex → Regex
  | [] => .lit []
  | [r] => r
  | r :: rs => .seq r (Regex.cat rs)

/-- The class `.`: any character but a newline. -/
def isDot (c : Char) : Bool := c != '\n'

/-- The class `['"]`. -/
def isQuote (c : Char) : Bool := c == Char.ofNat 39 || c == '"'

/-- The class `\s`: tab, newline, form feed, carriage return, space. -/
def isSpaceClass (c : Char) : Bool :=
  c == '\t' || c == '\n' || c == Char.ofNat 12 || c == '\r' || c == ' '

/-- The class `[\d.]`. -/
def isDigitOrDot (c : Char) : Bool := ('0' ≤ c && c ≤ '9') || c == '.'

/-- The pattern
`<link rel="canonical" href="https:\/\/www.youtube.com\/watch\?v=(.+?)">`;
the two dots of the host name are unescaped. -/
def regexCanonical : Regex :=
  Regex.cat
    [ .lit "<link rel=\"canonical\" href=\"https://www".toList, .cls isDot,
      .lit "youtube".toList, .cls isDot, .lit "com/watch?v=".toList,
      .cap (.plusLazy isDot), .lit "\">".toList ]

/-- The pattern `['"]isReplay['"]:\s*(true)`. -/
def regexIsReplay : Regex :=
  Regex.cat
    [ .cls isQuote, .lit "isReplay".toList, .cls isQuote, .lit ":".toList,
      .star isSpaceClass, .cap (.lit "true".toList) ]

/-- The pattern `['"]INNERTUBE_API_KEY['"]:\s*['"](.+?)['"]`. -/
def regexAPIKey : Regex :=
  Regex.cat
    [ .cls isQuote, .lit "INNERTUBE_API_KEY".toList, .cls isQuote, .lit ":".toList,
      .star isSpaceClass, .cls isQuote, .cap (.plusLazy isDot), .cls isQuote ]

/-- The pattern `['"]clientVersion['"]:\s*['"]([\d.]+?)['"]`. -/
def regexClientVer : Regex :=
  Regex.cat
    [ .cls isQuote, .lit "clientVersion".toList, .cls isQuote, .lit ":".toList,
      .star isSpaceClass, .cls isQuote, .cap (.plusLazy isDigitOrDot), .cls isQuote ]

/-- The pattern `['"]continuation['"]:\s*['"](.+?)['"]`. -/
def regexContinuation : Regex :=
  Regex.cat
    [ .cls isQuote, .lit "continuation".toList, .cls isQuote, .lit ":".toList,
      .star isSpaceClass, .cls isQuote, .cap (.plusLazy isDot), .cls isQuote ]

/-- Go `GetOptionsFromLivePage`: the options filled so far and the error. -/
def GetOptionsFromLivePage (data : String) : FetchOptions × Option String :=
  let opts : FetchOptions := {}
  let liveIDMatch := FindStringSubmatch regexCanonical data
  if liveIDMatch.length > 1 then
    let opts := { opts with LiveID := liveIDMatch.getD 1 "" }
    if MatchString regexIsReplay data then
      (opts, some (opts.LiveID ++ " is finished live"))
    else
      let apiKeyMatch := FindStringSubmatch regexAPIKey data
      if apiKeyMatch.length > 1 then
        let opts := { opts with ApiKey := apiKeyMatch.getD 1 "" }
        let clientVerMatch := FindStringSubmatch regexClientVer data
        if clientVerMatch.length > 1 then
          let opts := { opts with ClientVersion := clientVerMatch.getD 1 "" }
          let continuationMatch := FindStringSubmatch regexContinuation data
          if continuationMatch.length > 1 then
            let opts := { opts with Continuation := continuationMatch.getD 1 "" }
            (opts, none)
          else
            (opts, some "Continuation was not found")
        else
          (opts, some "Client Version was not found")
      else
        (opts, some "API Key was not found")
  else
    (opts, some "Live Stream was not found")

/-! ## requests.go: the watch URL -/

/-- Go `strings.HasPrefix`. -/
def HasPrefix (s pre : String) : Bool := pre.toList.isPrefixOf s.toList

/-- Go `generateLiveUrl`. The package variable `YoutubeBaseURL` is an
argument; `fmt.Sprintf` with `%s` verbs is concatenation. -/
def generateLiveUrl (YoutubeBaseURL : String) (id : YoutubeId) : String :=
  if id.ChannelID ≠ "" then
    YoutubeBaseURL ++ "/channel/" ++ id.ChannelID ++ "/live"
  else if id.LiveID ≠ "" then
    YoutubeBaseURL ++ "/watch?v=" ++ id.LiveID
  else if id.Handle ≠ "" then
    let handle := id.Handle
    let handle := if ! HasPrefix handle "@" then "@" ++ handle else handle
    YoutubeBaseURL ++ "/" ++ handle ++ "/live"
  else ""

/-! ## live_chat.go: Start, Stop and the poll cycle

An `Engine` is what the methods of `LiveChat` act on: the record itself, the
number of `loop` goroutines launched so far, and the state `world` of
whatever the two fetch hooks act on. A hook is a function of its argument and
the world, returning its results and the new world; a method that does not
call a hook leaves the world as it is. A method returns `none` where the Go
code panics. The hooks do not reach into the engine. -/

/-- The state the methods of `LiveChat` act on. -/
structure Engine (σ : Type) where
  lc : LiveChat
  loops : Nat := 0
  world : σ
deriving DecidableEq, Repr

/-- The type of the hook `FetchLivePageFunc`: the options and the error. -/
abbrev LivePageHook (σ : Type) := YoutubeId → σ → (FetchOptions × Option String) × σ

/-- The type of the hook `FetchChatFunc`: the items, the continuation and the
error. -/
abbrev ChatHook (σ : Type) :=
  FetchOptions → σ → (List ChatItem × String × Option String) × σ

/-- A send in a `select` with a `default` branch, on a channel that is not
closed: the value is queued when the buffer has room (a receiver that is
waiting has emptied it), and dropped otherwise. -/
def trySend {α : Type} (ch : Chan α) (v : α) : Chan α :=
  if ch.buf.length < ch.cap then { ch with buf := ch.buf ++ [v] } else ch

/-- A receive by a consumer on a channel with a pending value: the oldest
value leaves the buffer. -/
def recv {α : Type} (ch : Chan α) : Chan α := { ch with buf := ch.buf.tail }

/-- Go `(*LiveChat).emitError`. -/
def emitError (lc : LiveChat) (err : String) : LiveChat :=
  { lc with ErrorChan := trySend lc.ErrorChan err }

/-- Go `(*LiveChat).Start`: the returned flag and the new state. The call
`time.NewTicker(lc.interval)` panics for a non-positive interval. -/
def Start {σ : Type} (FetchLivePageFunc : LivePageHook σ) (s : Engine σ) :
    Option (Bool × Engine σ) :=
  if s.lc.running then
    some (false, s)
  else
    let ((options, err), world) := FetchLivePageFunc s.lc.id s.world
    match err with
    | some e => some (false, { s with lc := emitError s.lc e, world := world })
    | none =>
      let lc : LiveChat := { s.lc with liveID := options.LiveID }
      let lc : LiveChat := { lc with options := some options }
      let lc : LiveChat := { lc with running := true }
      let lc : LiveChat := { lc with stopChan := makeChan Unit 0 }
      if lc.interval ≤ 0 then
        none
      else
        let lc : LiveChat := { lc with observer := some { d := lc.interval } }
        let lc : LiveChat := { lc with StartChan := trySend lc.StartChan lc.liveID }
        some (true, { lc := lc, loops := s.loops + 1, world := world })

/-- Go `(*LiveChat).Stop`. Closing a channel that is already closed panics. -/
def Stop {σ : Type} (reason : String) (s : Engine σ) : Option (Engine σ) :=
  if s.lc.running then
    let lc : LiveChat := { s.lc with running := false }
    let lc : LiveChat :=
      match lc.observer with
      | some ticker => { lc with observer := some { ticker with stopped := true } }
      | none => lc
    if lc.stopChan.closed then
      none
    else
      let lc : LiveChat := { lc with stopChan := { lc.stopChan with closed := true } }
      let lc : LiveChat := { lc with EndChan := trySend lc.EndChan reason }
      some { s with lc := lc }
  else
    some s

/-- The item loop of `execute`: each item is offered to the chat channel. -/
def sendItems (lc : LiveChat) (items : List ChatItem) : LiveChat :=
  items.foldl (fun lc item => { lc with ChatChan := trySend lc.ChatChan item }) lc

/-- Go `(*LiveChat).execute`, one poll cycle. -/
def execute {σ : Type} (FetchChatFunc : ChatHook σ) (s : Engine σ) : Option (Engine σ) :=
  match s.lc.options with
  | none =>
    let msg := "Not found options"
    Stop msg { s with lc := emitError s.lc msg }
  | some options =>
    let ((items, continuation, err), world) := FetchChatFunc options s.world
    match err with
    | some e => some { s with lc := emitError s.lc e, world := world }
    | none =>
      let lc : LiveChat := sendItems s.lc items
      let lc : LiveChat := { lc with options := some { options with Continuation := continuation } }
      some { s with lc := lc, world := world }

/-! ## Specification-side definitions

What follows is not code of the package: readings of the patterns and of the
formatted digits that the statements below are phrased with, and the
fixtures the statements are instantiated at. -/

/-- The `k` low hexadecimal digits of `u`, most significant first. -/
def hexFixed : Nat → Nat → List Char
  | 0, _ => []
  | k + 1, u => hexFixed k (u / 16) ++ [hexDigitUpper (u % 16)]

/-- Whether a badge carries a custom thumbnail. -/
def AuthorBadge.isCustom (b : AuthorBadge) : Bool :=
  b.LiveChatAuthorBadgeRenderer.CustomThumbnail.isSome

/-- Whether a badge has no custom thumbnail and the given icon type. -/
def AuthorBadge.hasIcon (t : String) (b : AuthorBadge) : Bool :=
  b.LiveChatAuthorBadgeRenderer.CustomThumbnail.isNone &&
    decide (b.LiveChatAuthorBadgeRenderer.Icon = some t)

/-- The number of capture groups of a pattern. -/
def Regex.numCaps : Regex → Nat
  | .lit _ => 0
  | .cls _ => 0
  | .star _ => 0
  | .plusLazy _ => 0
  | .cap r => r.numCaps + 1
  | .seq r s => r.numCaps + s.numCaps

/-- Whether every match of the pattern takes at least one character. -/
def Regex.consumes : Regex → Bool
  | .lit s => !s.isEmpty
  | .cls _ => true
  | .star _ => false
  | .plusLazy _ => true
  | .cap r => r.consumes
  | .seq r s => r.consumes || s.consumes

/-- Whether every capture group of the pattern takes at least one character. -/
def Regex.capsConsume : Regex → Bool
  | .lit _ => true
  | .cls _ => true
  | .star _ => true
  | .plusLazy _ => true
  | .cap r => r.capsConsume && r.consumes
  | .seq r s => r.capsConsume && s.capsConsume

/-- The texts a pattern matches, read off its syntax. -/
def Regex.Matches : Regex → List Char → Prop
  | .lit s, m => m = s
  | .cls p, m => ∃ c, m = [c] ∧ p c = true
  | .star p, m => ∀ c ∈ m, p c = true
  | .plusLazy p, m => m ≠ [] ∧ ∀ c ∈ m, p c = true
  | .cap r, m => r.Matches m
  | .seq r s, m => ∃ m1 m2, m = m1 ++ m2 ∧ r.Matches m1 ∧ s.Matches m2

/-- A member badge (custom thumbnail) and a verified badge (icon). -/
def memberVerifiedBadges : List AuthorBadge :=
  [ { LiveChatAuthorBadgeRenderer :=
        { CustomThumbnail := some [{ URL := "https://badge.url" }], Tooltip := "Member" } },
    { LiveChatAuthorBadgeRenderer := { Icon := some "VERIFIED", Tooltip := "Verified" } } ]

/-- The shared base fields of a message whose author holds
`memberVerifiedBadges`. -/
def memberVerifiedBase : MessageRendererBase :=
  { ID := "id", AuthorName := some "authorName", AuthorBadges := memberVerifiedBadges }

/-- A text message of an author holding `memberVerifiedBadges`. -/
def memberVerifiedAdd : AddChatItemAction :=
  { Item := { LiveChatTextMessageRenderer := some { MessageRendererBase := memberVerifiedBase } } }

/-- A watch page of a running broadcast: the canonical link and the three
embedded values. -/
def livePage : String :=
  "<link rel=\"canonical\" href=\"https://www.youtube.com/watch?v=liveId\">" ++
  "<script>\"INNERTUBE_API_KEY\":\"apiKey\",\"clientVersion\":\"2.2021\"," ++
  "\"continuation\":\"token\"</script>"

/-- A watch page of a finished broadcast: the canonical link and a replay
marker, and none of the three embedded values. -/
def replayPage : String :=
  "<link rel=\"canonical\" href=\"https://www.youtube.com/watch?v=liveId\">" ++
  "<script>\"isReplay\": true</script>"

/-- A custom emoji with two shortcuts. -/
def customEmoji : MessageEmoji :=
  { EmojiId := "UCxxx/custom", Shortcuts := [":customEmoji:", ":other:"], IsCustomEmoji := true }

/-- A global emoji, identified by its glyph. -/
def globalEmoji : MessageEmoji :=
  { EmojiId := "👏🏿", Shortcuts := [":clapping_hands:"], IsCustomEmoji := false }

/-- A paid sticker with two thumbnails. -/
def superSticker : LiveChatPaidStickerRenderer :=
  { MessageRendererBase := { ID := "id" }
    PurchaseAmountText := "￥90"
    Sticker := { Thumbnails := [{ URL := "small" }, { URL := "large" }], Label := "sticker" }
    BackgroundColor := 4294953512 }

/-- An action item whose only renderer is `superSticker`. -/
def superStickerAdd : AddChatItemAction :=
  { Item := { LiveChatPaidStickerRenderer := some superSticker } }

/-- The states of an engine: a freshly constructed one, and what `Start`,
`Stop`, a poll cycle of a launched worker and the receives of a consumer on
the four channels make of a state, with any hooks. -/
inductive Reachable {σ : Type} : Engine σ → Prop
  | init (id : YoutubeId) (intervalMs : Int) (lc : LiveChat) (world : σ) :
      NewLiveChat id intervalMs = (some lc, none) →
      Reachable { lc := lc, loops := 0, world := world }
  | start (hook : LivePageHook σ) (s : Engine σ) (b : Bool) (s1 : Engine σ) :
      Reachable s → Start hook s = some (b, s1) → Reachable s1
  | stop (reason : String) (s s1 : Engine σ) :
      Reachable s → Stop reason s = some s1 → Reachable s1
  | tick (hook : ChatHook σ) (s s1 : Engine σ) :
      Reachable s → 0 < s.loops → execute hook s = some s1 → Reachable s1
  | recvChat (s : Engine σ) :
      Reachable s → Reachable { s with lc := { s.lc with ChatChan := recv s.lc.ChatChan } }
  | recvError (s : Engine σ) :
      Reachable s → Reachable { s with lc := { s.lc with ErrorChan := recv s.lc.ErrorChan } }
  | recvStart (s : Engine σ) :
      Reachable s → Reachable { s with lc := { s.lc with StartChan := recv s.lc.StartChan } }
  | recvEnd (s : Engine σ) :
      Reachable s → Reachable { s with lc := { s.lc with EndChan := recv s.lc.EndChan } }

/-- The capacities of the four queues, their bounds, and the stop channel of
a running engine being open. -/
def LiveChat.Inv (lc : LiveChat) : Prop :=
  (lc.ChatChan.cap = 100 ∧ lc.ErrorChan.cap = 10 ∧ lc.StartChan.cap = 1 ∧ lc.EndChan.cap = 1) ∧
  (lc.ChatChan.buf.length ≤ 100 ∧ lc.ErrorChan.buf.length ≤ 10 ∧
    lc.StartChan.buf.length ≤ 1 ∧ lc.EndChan.buf.length ≤ 1) ∧
  (lc.running = true → lc.stopChan.closed = false)

/-- The digits of a natural number in base ten, most significant first; the
first argument bounds the number of digits after the first. -/
def decimalDigits : Nat → Nat → List Char
  | 0, n => [Char.ofNat (48 + n % 10)]
  | fuel + 1, n =>
    if n < 10 then [Char.ofNat (48 + n)]
    else decimalDigits fuel (n / 10) ++ [Char.ofNat (48 + n % 10)]

/-- The decimal representation of a 64-bit integer. -/
def decimalRepr (t : Int) : String :=
  if t < 0 then String.mk ('-' :: decimalDigits 19 t.natAbs)
  else String.mk (decimalDigits 19 t.natAbs)

/-- The engine of the tests, with polling interval 100 ms. -/
def testLiveChat : LiveChat :=
  { ChatChan := makeChan ChatItem 100
    ErrorChan := makeChan String 10
    StartChan := makeChan String 1
    EndChan := makeChan String 1
    id := { ChannelID := "channelId" }
    interval := 100000000
    stopChan := makeChan Unit 0 }

/-- The state of the engine of the tests after construction; the world is
the list of the calls made to the hooks. -/
def testEngine : Engine (List String) := { lc := testLiveChat, world := [] }

/-- A session locator that logs its call and returns the parameters of a
broadcast. -/
def locatorOk (liveID : String) : LivePageHook (List String) := fun _ world =>
  (({ ApiKey := "apiKey", ClientVersion := "clientVersion", Continuation := "continuation",
      LiveID := liveID }, none), world ++ ["FetchLivePage"])

/-- A session locator that logs its call and fails. -/
def locatorErr (e : String) : LivePageHook (List String) := fun _ world =>
  (({}, some e), world ++ ["FetchLivePage"])

/-- A feed fetcher that logs the continuation it is called with and fails. -/
def fetchErr (e : String) : ChatHook (List String) := fun options world =>
  (([], "", some e), world ++ ["FetchChat " ++ options.Continuation])

/-- A feed fetcher that logs the continuation it is called with and returns
items and a continuation. -/
def fetchOk (items : List ChatItem) (continuation : String) : ChatHook (List String) :=
  fun options world =>
    ((items, continuation, none), world ++ ["FetchChat " ++ options.Continuation])

/-- The state of the test engine after `n` failed starts with no consumer:
the error queue holds the first ten errors. -/
def afterFailedStarts (n : Nat) : Engine (List String) :=
  { lc := { testLiveChat with
      ErrorChan := { cap := 10, buf := List.replicate (min n 10) "ERROR" } }
    world := List.replicate n "FetchLivePage" }

/-- The state of the test engine after `Start` for broadcast `a` and
`Stop("first")`, with no consumer. -/
def stoppedEngine : Engine (List String) :=
  { lc := { testLiveChat with
      StartChan := { cap := 1, buf := ["a"] }
      EndChan := { cap := 1, buf := ["first"] }
      liveID := "a"
      observer := some { d := 100000000, stopped := true }
      options := some { ApiKey := "apiKey", ClientVersion := "clientVersion",
                        Continuation := "continuation", LiveID := "a" }
      stopChan := { cap := 0, closed := true } }
    loops := 1
    world := ["FetchLivePage"] }

/-- The state of the test engine after ten failed starts and a successful
one, with no consumer: the engine runs and the error queue is full. -/
def runningFullErrors : Engine (List String) :=
  { lc := { testLiveChat with
      ErrorChan := { cap := 10, buf := List.replicate 10 "ERROR" }
      StartChan := { cap := 1, buf := ["a"] }
      liveID := "a"
      observer := some { d := 100000000 }
      options := some { ApiKey := "apiKey", ClientVersion := "clientVersion",
                        Continuation := "continuation", LiveID := "a" }
      running := true }
    loops := 1
    world := List.replicate 11 "FetchLivePage" }

/-- A chat item with the given id. -/
def chatItemOf (id : String) : ChatItem := { ID := id }

/-- The state of the running test engine after a poll cycle that produced 99
items and the continuation `c1`, with no consumer. -/
def nearlyFullChat : Engine (List String) :=
  { runningFullErrors with
    lc := { runningFullErrors.lc with
      ChatChan := { cap := 100, buf := List.replicate 99 (chatItemOf "old") }
      options := some { ApiKey := "apiKey", ClientVersion := "clientVersion",
                        Continuation := "c1", LiveID := "a" } }
    world := List.replicate 11 "FetchLivePage" ++ ["FetchChat continuation"] }

/-- The shared base fields of a message sent at 2021-01-01T00:00:00Z. -/
def newYearBase : MessageRendererBase :=
  { ID := "id", AuthorName := some "authorName", TimestampUsec := "1609459200000000" }

/-- A text message sent at 2021-01-01T00:00:00Z. -/
def newYearAdd : AddChatItemAction :=
  { Item := { LiveChatTextMessageRenderer := some { MessageRendererBase := newYearBase } } }

/-- The badge that a badge entry with a custom thumbnail gives the author. -/
def badgeOfEntry (b : AuthorBadge) : Badge :=
  { Thumbnail :=
      parseThumbnailToImageItem (b.LiveChatAuthorBadgeRenderer.CustomThumbnail.getD [])
        b.LiveChatAuthorBadgeRenderer.Tooltip
    Label := b.LiveChatAuthorBadgeRenderer.Tooltip }

/-- The badge of the last entry with a custom thumbnail, if there is one. -/
def lastCustomBadge (badges : List AuthorBadge) : Option Badge :=
  (badges.reverse.find? AuthorBadge.isCustom).map badgeOfEntry

/-- The emoji part of an emoji reference, in the words of the specification:
the first thumbnail, the first shortcut as alternative text, and as display
text the first shortcut of a custom emoji and the emoji id of any other. -/
def emojiPartSpec (emoji : MessageEmoji) : EmojiItem :=
  EmojiItem.mk
    (ImageItem.mk ((emoji.Image.Thumbnails.head?.map (·.URL)).getD "")
      (emoji.Shortcuts.head?.getD ""))
    (if emoji.IsCustomEmoji then emoji.Shortcuts.head?.getD "" else emoji.EmojiId)
    emoji.IsCustomEmoji

/-- The part a run stands for, in the words of the specification: a text part
for a run with text, else an emoji part for a run with an emoji reference,
else nothing. -/
def messagePartSpec (run : MessageRun) : Option MessageItem :=
  if run.Text ≠ "" then some { Text := run.Text }
  else run.Emoji.map fun emoji => { Text := "", EmojiItem := some (emojiPartSpec emoji) }

/-- The same base fields with another `timestampUsec`. -/
def MessageRendererBase.withTimestampUsec (ts : String) (b : MessageRendererBase) :
    MessageRendererBase :=
  { b with TimestampUsec := ts }

/-- The same action with another `timestampUsec` in every renderer it
populates. -/
def withTimestampUsec (ts : String) (data : Action) : Action :=
  { data with
    AddChatItemAction := data.AddChatItemAction.map fun a =>
      { a with
        Item :=
          { a.Item with
            LiveChatTextMessageRenderer := a.Item.LiveChatTextMessageRenderer.map fun r =>
              { r with MessageRendererBase := r.MessageRendererBase.withTimestampUsec ts }
            LiveChatPaidMessageRenderer := a.Item.LiveChatPaidMessageRenderer.map fun r =>
              { r with
                LiveChatTextMessageRenderer :=
                  { r.LiveChatTextMessageRenderer with
                    MessageRendererBase :=
                      r.LiveChatTextMessageRenderer.MessageRendererBase.withTimestampUsec ts } }
            LiveChatPaidStickerRenderer := a.Item.LiveChatPaidStickerRenderer.map fun r =>
              { r with MessageRendererBase := r.MessageRendererBase.withTimestampUsec ts }
            LiveChatMembershipItemRenderer := a.Item.LiveChatMembershipItemRenderer.map fun r =>
              { r with MessageRendererBase := r.MessageRendererBase.withTimestampUsec ts } } } }

/-- An item with its timestamp put to the epoch. -/
def eraseTimestamp (item : ChatItem) : ChatItem := { item with Timestamp := ⟨0, 0⟩ }

/-- Whether every classifiable action of a list has a `timestampUsec` that
`strconv.ParseInt` accepts. -/
def allTimestampsParse (actions : List Action) : Prop :=
  ∀ action ∈ actions, ∀ a base, action.AddChatItemAction = some a →
    selectRenderer a.Item = some base → parseInt64 base.TimestampUsec ≠ none

/-- A text renderer of which the payload gives no `timestampUsec`. -/
def undatedText : LiveChatTextMessageRenderer :=
  { MessageRendererBase := { ID := "id", AuthorName := some "authorName" }
    Message := [{ Text := "Hello, World!" }] }

/-- A text message of which the payload gives no `timestampUsec`. -/
def undatedAdd : AddChatItemAction :=
  { Item := { LiveChatTextMessageRenderer := some undatedText } }

/-- A response with the one action `undatedAdd` and an invalidation
continuation. -/
def undatedResponse : GetLiveChatResponse :=
  { Continuations :=
      [{ InvalidationContinuationData := some { Continuation := "test-continuation:01" } }]
    Actions := [{ AddChatItemAction := some undatedAdd }] }

/-- The text renderer of `textAndStickerAdd`. -/
def helloText : LiveChatTextMessageRenderer :=
  { MessageRendererBase :=
      { ID := "text-id", AuthorName := some "textAuthor", TimestampUsec := "1609459200000000",
        AuthorExternalChannelId := "textChannel" }
    Message := [{ Text := "Hello, World!" }] }

/-- An action item that populates both the text renderer `helloText` and the
paid sticker renderer `superSticker`. -/
def textAndStickerAdd : AddChatItemAction :=
  { Item :=
      { LiveChatTextMessageRenderer := some helloText
        LiveChatPaidStickerRenderer := some superSticker } }

/-- An emoji served in two sizes. -/
def twoSizeEmoji : MessageEmoji :=
  { EmojiId := "😀", Shortcuts := [":grinning:"]
    Image := { Thumbnails := [{ URL := "emoji-small.png" }, { URL := "emoji-large.png" }] } }

/-- The text renderer of `twoPhotoAdd`: an author with a photo in two sizes
who sends `twoSizeEmoji`. -/
def twoPhotoText : LiveChatTextMessageRenderer :=
  { MessageRendererBase :=
      { ID := "id", AuthorName := some "authorName",
        AuthorPhoto := [{ URL := "photo-small.jpg" }, { URL := "photo-large.jpg" }],
        AuthorExternalChannelId := "UCchannel" }
    Message := [{ Emoji := some twoSizeEmoji }] }

/-- An action item whose only renderer is `twoPhotoText`. -/
def twoPhotoAdd : AddChatItemAction :=
  { Item := { LiveChatTextMessageRenderer := some twoPhotoText } }

/-- A badge list with two custom badges, the second one in two sizes, and
two icon badges. -/
def twoTierBadges : List AuthorBadge :=
  [ { LiveChatAuthorBadgeRenderer :=
        { CustomThumbnail := some [{ URL := "new-member.png" }], Tooltip := "New member" } },
    { LiveChatAuthorBadgeRenderer := { Icon := some "MODERATOR", Tooltip := "Moderator" } },
    { LiveChatAuthorBadgeRenderer :=
        { CustomThumbnail := some [{ URL := "half-year-16.png" }, { URL := "half-year-32.png" }],
          Tooltip := "Member (6 months)" } },
    { LiveChatAuthorBadgeRenderer := { Icon := some "VERIFIED", Tooltip := "Verified" } } ]

/-- The shared base fields of a message whose author holds `twoTierBadges`. -/
def twoTierBase : MessageRendererBase :=
  { ID := "id", AuthorName := some "authorName", AuthorBadges := twoTierBadges }

/-- The text renderer of `twoTierAdd`. -/
def twoTierText : LiveChatTextMessageRenderer := { MessageRendererBase := twoTierBase }

/-- A text message of an author holding `twoTierBadges`. -/
def twoTierAdd : AddChatItemAction :=
  { Item := { LiveChatTextMessageRenderer := some twoTierText } }

/-- Claim C1: `NewLiveChat` returns no engine and an error when the three
fields of the identifier are all empty, and an engine (holding the
identifier) with no error when exactly one of them is non-empty, whichever
field it is and whatever `intervalMs` is. -/
theorem NewLiveChat_identifier_validation (id : YoutubeId) (intervalMs : Int) :
    (id.ChannelID = "" ∧ id.LiveID = "" ∧ id.Handle = "" →
      NewLiveChat id intervalMs = (none, some "Required channelId or liveId or handle.")) ∧
    ((id.ChannelID ≠ "" ∧ id.LiveID = "" ∧ id.Handle = "") ∨
     (id.ChannelID = "" ∧ id.LiveID ≠ "" ∧ id.Handle = "") ∨
     (id.ChannelID = "" ∧ id.LiveID = "" ∧ id.Handle ≠ "") →
      ∃ lc : LiveChat, NewLiveChat id intervalMs = (some lc, none) ∧ lc.id = id) := by
  constructor
  · intro h
    simp [NewLiveChat, h]
  · intro h
    have hne : ¬ (id.ChannelID = "" ∧ id.LiveID = "" ∧ id.Handle = "") := by
      rcases h with h | h | h
      · exact fun h2 => h.1 h2.1
      · exact fun h2 => h.2.1 h2.2.1
      · exact fun h2 => h.2.2 h2.2.2
    unfold NewLiveChat
    rw [if_neg hne]
    refine ⟨_, rfl, ?_⟩
    dsimp only
    split_ifs <;> rfl

/-- Claim C1 at the empty identifier, and at a handle with interval `0`. -/
theorem NewLiveChat_identifier_validation_witness :
    NewLiveChat {} 1000 = (none, some "Required channelId or liveId or handle.") ∧
    (∃ lc : LiveChat, NewLiveChat { Handle := "h" } 0 = (some lc, none) ∧
      lc.id = { Handle := "h" }) :=
  ⟨(NewLiveChat_identifier_validation {} 1000).1 ⟨rfl, rfl, rfl⟩,
   (NewLiveChat_identifier_validation { Handle := "h" } 0).2
     (Or.inr (Or.inr ⟨rfl, rfl, by decide⟩))⟩

/-! ## Classification of one action -/

theorem selectRenderer_isSome (item : ActionItem) :
    (selectRenderer item).isSome =
      (item.LiveChatTextMessageRenderer.isSome || item.LiveChatPaidMessageRenderer.isSome
        || item.LiveChatPaidStickerRenderer.isSome
        || item.LiveChatMembershipItemRenderer.isSome) := by
  unfold selectRenderer
  cases item.LiveChatTextMessageRenderer <;> cases item.LiveChatPaidMessageRenderer <;>
    cases item.LiveChatPaidStickerRenderer <;> cases item.LiveChatMembershipItemRenderer <;> rfl

theorem parseActionToChatItem_isSome (now : Time) (data : Action) :
    (parseActionToChatItem now data).isSome =
      match data.AddChatItemAction with
      | none => false
      | some a => (selectRenderer a.Item).isSome := by
  unfold parseActionToChatItem
  cases data.AddChatItemAction with
  | none => rfl
  | some a =>
    dsimp only
    cases selectRenderer a.Item <;> rfl

/-- Whether an action yields an item does not depend on the clock. -/
theorem parseActionToChatItem_isSome_clock (now1 now2 : Time) (data : Action) :
    (parseActionToChatItem now1 data).isSome = (parseActionToChatItem now2 data).isSome := by
  rw [parseActionToChatItem_isSome, parseActionToChatItem_isSome]

/-- Claim C3: an action yields a ChatItem if and only if it carries an
`addChatItemAction` whose item has at least one of the four renderers (text
message, paid message, paid sticker, membership item) populated. An action
without `addChatItemAction`, and one whose item has none of the four (a
viewer-engagement message, say), yields no item; the function has no error
result. -/
theorem parseActionToChatItem_classifies (now : Time) (data : Action) :
    ((∃ item, parseActionToChatItem now data = some item) ↔
      ∃ a, data.AddChatItemAction = some a ∧
        (a.Item.LiveChatTextMessageRenderer ≠ none ∨ a.Item.LiveChatPaidMessageRenderer ≠ none ∨
          a.Item.LiveChatPaidStickerRenderer ≠ none ∨
          a.Item.LiveChatMembershipItemRenderer ≠ none)) ∧
    (data.AddChatItemAction = none → parseActionToChatItem now data = none) ∧
    (∀ a, data.AddChatItemAction = some a →
      a.Item.LiveChatTextMessageRenderer = none → a.Item.LiveChatPaidMessageRenderer = none →
      a.Item.LiveChatPaidStickerRenderer = none → a.Item.LiveChatMembershipItemRenderer = none →
      parseActionToChatItem now data = none) := by
  have key := parseActionToChatItem_isSome now data
  refine ⟨?_, ?_, ?_⟩
  · rw [← Option.isSome_iff_exists, key]
    cases h : data.AddChatItemAction with
    | none => simp
    | some a =>
      simp only [selectRenderer_isSome, Option.some.injEq, exists_eq_left', ne_eq,
        Bool.or_eq_true, Option.isSome_iff_ne_none, or_assoc]
  · intro h
    rw [h] at key
    simpa using key
  · intro a h h1 h2 h3 h4
    rw [h] at key
    simp only [selectRenderer_isSome, h1, h2, h3, h4] at key
    simpa using key

/-- Claim C3 at a ticker action and at a viewer-engagement message. -/
theorem parseActionToChatItem_classifies_witness :
    parseActionToChatItem ⟨0, 0⟩ { AddLiveChatTickerItemAction := true } = none ∧
    parseActionToChatItem ⟨0, 0⟩
      { AddChatItemAction :=
          some { Item := { LiveChatViewerEngagementMessageRenderer := true } } } = none :=
  ⟨(parseActionToChatItem_classifies ⟨0, 0⟩ { AddLiveChatTickerItemAction := true }).2.1 rfl,
   (parseActionToChatItem_classifies ⟨0, 0⟩
      { AddChatItemAction :=
          some { Item := { LiveChatViewerEngagementMessageRenderer := true } } }).2.2
      { Item := { LiveChatViewerEngagementMessageRenderer := true } } rfl rfl rfl rfl rfl⟩

/-! ## The action loop and the continuation -/

/-- The action loop appends, in order, the items of the classifiable actions,
each parsed at the clock reading of its position. -/
theorem parseChatLoop_eq (clock : Nat → Time) (actions : List Action) :
    ∀ (i : Nat) (acc : List ChatItem),
      parseChatLoop clock i actions acc
        = acc ++ (actions.enumFrom i).filterMap
            (fun p => parseActionToChatItem (clock p.1) p.2) := by
  induction actions with
  | nil => intro i acc; simp [parseChatLoop]
  | cons a rest ih =>
    intro i acc
    cases h : parseActionToChatItem (clock i) a with
    | none => simp [parseChatLoop, h, ih, List.enumFrom]
    | some item => simp [parseChatLoop, h, ih, List.enumFrom]

theorem parseChatLoop_const (now : Time) (actions : List Action) :
    ∀ (i : Nat) (acc : List ChatItem),
      parseChatLoop (fun _ => now) i actions acc
        = acc ++ actions.filterMap (parseActionToChatItem now) := by
  induction actions with
  | nil => intro i acc; simp [parseChatLoop]
  | cons a rest ih =>
    intro i acc
    cases h : parseActionToChatItem now a with
    | none => simp [parseChatLoop, h, ih]
    | some item => simp [parseChatLoop, h, ih]

theorem filterMap_enumFrom_length (clock : Nat → Time) (now : Time) (actions : List Action) :
    ∀ i : Nat,
      ((actions.enumFrom i).filterMap (fun p => parseActionToChatItem (clock p.1) p.2)).length
        = (actions.filter (fun a => (parseActionToChatItem now a).isSome)).length := by
  induction actions with
  | nil => intro i; rfl
  | cons a rest ih =>
    intro i
    have hc := parseActionToChatItem_isSome_clock (clock i) now a
    cases h1 : parseActionToChatItem (clock i) a with
    | none =>
      rw [h1] at hc
      simp [List.enumFrom, List.filter_cons, h1, ← hc, ih]
    | some item =>
      rw [h1] at hc
      simp [List.enumFrom, List.filter_cons, h1, ← hc, ih]

/-- Claim C2: the items returned by `ParseChatData` are, in payload order,
the results of `parseActionToChatItem` on the actions with the empty results
deleted (each action parsed at the clock reading of its position; with an
unchanging clock the list is the `filterMap` of the actions). Their number is
the number of classifiable actions, zero for a payload without actions. -/
theorem ParseChatData_items_in_order (clock : Nat → Time) (now : Time)
    (data : GetLiveChatResponse) :
    (ParseChatData clock data).1
        = data.Actions.enum.filterMap (fun p => parseActionToChatItem (clock p.1) p.2) ∧
    (ParseChatData (fun _ => now) data).1
        = data.Actions.filterMap (parseActionToChatItem now) ∧
    (ParseChatData clock data).1.length
        = (data.Actions.filter (fun a => (parseActionToChatItem now a).isSome)).length ∧
    (ParseChatData clock { data with Actions := [] }).1 = [] := by
  refine ⟨?_, ?_, ?_, ?_⟩
  · simp [ParseChatData, parseChatLoop_eq, List.enum]
  · simp [ParseChatData, parseChatLoop_const]
  · simp only [ParseChatData, parseChatLoop_eq, List.nil_append]
    exact filterMap_enumFrom_length clock now data.Actions 0
  · simp [ParseChatData, parseChatLoop]

/-- The continuation of a response is read off the head of its continuations
list. -/
theorem ParseChatData_snd (clock : Nat → Time) (data : GetLiveChatResponse) :
    (ParseChatData clock data).2 =
      match data.Continuations.head? with
      | none => ""
      | some c =>
        match c.InvalidationContinuationData with
        | some inv => inv.Continuation
        | none =>
          match c.TimedContinuationData with
          | some timed => timed.Continuation
          | none => "" := by
  unfold ParseChatData
  cases data.Continuations with
  | nil => rfl
  | cons c rest =>
    cases h1 : c.InvalidationContinuationData <;> cases h2 : c.TimedContinuationData <;>
      simp [h1, h2]

/-- Claim C4: the continuation returned by `ParseChatData` is the empty string
for an empty continuations list; otherwise it is the continuation of the
invalidation shape of the first entry when that shape is present, else the
continuation of its timed shape when that one is present (and empty when
neither is). Two responses whose continuations lists have the same first
entry give the same continuation, whatever their later entries, their
actions and the clock; the result is a plain string, there is no error. -/
theorem ParseChatData_continuation (clock : Nat → Time) (data : GetLiveChatResponse) :
    (data.Continuations = [] → (ParseChatData clock data).2 = "") ∧
    (∀ c rest, data.Continuations = c :: rest →
      (∀ inv, c.InvalidationContinuationData = some inv →
        (ParseChatData clock data).2 = inv.Continuation) ∧
      (c.InvalidationContinuationData = none →
        (∀ timed, c.TimedContinuationData = some timed →
          (ParseChatData clock data).2 = timed.Continuation) ∧
        (c.TimedContinuationData = none → (ParseChatData clock data).2 = ""))) ∧
    (∀ (clock2 : Nat → Time) (data2 : GetLiveChatResponse),
      data2.Continuations.head? = data.Continuations.head? →
      (ParseChatData clock2 data2).2 = (ParseChatData clock data).2) := by
  refine ⟨?_, ?_, ?_⟩
  · intro h
    rw [ParseChatData_snd, h]
    rfl
  · intro c rest h
    rw [ParseChatData_snd, h]
    refine ⟨?_, ?_⟩
    · intro inv hinv
      simp [hinv]
    · intro hnone
      refine ⟨?_, ?_⟩
      · intro timed ht
        simp [hnone, ht]
      · intro ht
        simp [hnone, ht]
  · intro clock2 data2 h
    rw [ParseChatData_snd, ParseChatData_snd, h]

/-- Claim C4 at an empty list, at an invalidation entry followed by a timed
one, and at a timed entry. -/
theorem ParseChatData_continuation_witness :
    (ParseChatData (fun _ => ⟨0, 0⟩) {}).2 = "" ∧
    (ParseChatData (fun _ => ⟨0, 0⟩)
      { Continuations :=
          [ { InvalidationContinuationData := some { Continuation := "test-continuation:01" } },
            { TimedContinuationData := some { Continuation := "later" } } ] }).2
      = "test-continuation:01" ∧
    (ParseChatData (fun _ => ⟨0, 0⟩)
      { Continuations := [ { TimedContinuationData := some { Continuation := "timed" } } ] }).2
      = "timed" :=
  ⟨(ParseChatData_continuation (fun _ => ⟨0, 0⟩) {}).1 rfl,
   ((ParseChatData_continuation (fun _ => ⟨0, 0⟩)
      { Continuations :=
          [ { InvalidationContinuationData := some { Continuation := "test-continuation:01" } },
            { TimedContinuationData := some { Continuation := "later" } } ] }).2.1
      _ _ rfl).1 { Continuation := "test-continuation:01" } rfl,
   (((ParseChatData_continuation (fun _ => ⟨0, 0⟩)
      { Continuations := [ { TimedContinuationData := some { Continuation := "timed" } } ] }).2.1
      _ _ rfl).2 rfl).1 { Continuation := "timed" } rfl⟩

/-! ## Colours -/

theorem hexDigitUpper_toUpper (d : Nat) : (hexDigitUpper d).toUpper = hexDigitUpper d := by
  by_cases h : d < 16
  · interval_cases d <;> decide
  · have : hexDigitUpper d = '0' := by
      unfold hexDigitUpper
      rw [List.getD_eq_default]
      simp [udigits]; omega
    rw [this]; decide

theorem hexFixed_zero (k : Nat) : hexFixed k 0 = List.replicate k '0' := by
  induction k with
  | zero => rfl
  | succ k ih =>
    simp only [hexFixed, Nat.zero_div, Nat.zero_mod, ih]
    rw [List.replicate_succ']
    rfl

/-- The digit loop, padded with zeros on the left to `k + 1` columns, writes
the `k + 1` low digits of a number below `16 ^ (k + 1)`. -/
theorem fmtHexUpperAux_pad (fuel : Nat) : ∀ (u : Nat) (acc : List Char) (k : Nat),
    u < 16 ^ (k + 1) → k ≤ fuel →
    ∃ z, z + (fmtHexUpperAux fuel u acc).length = k + 1 + acc.length ∧
      List.replicate z '0' ++ fmtHexUpperAux fuel u acc = hexFixed (k + 1) u ++ acc := by
  induction fuel with
  | zero =>
    intro u acc k hu hk
    obtain rfl : k = 0 := by omega
    have hu16 : u < 16 := by simpa using hu
    refine ⟨0, by simp [fmtHexUpperAux]; omega, ?_⟩
    simp [fmtHexUpperAux, hexFixed, Nat.mod_eq_of_lt hu16]
  | succ fuel ih =>
    intro u acc k hu hk
    by_cases c : u ≥ 16
    · obtain ⟨k1, rfl⟩ : ∃ k1, k = k1 + 1 := by
        cases k with
        | zero => exfalso; simp at hu; omega
        | succ k1 => exact ⟨k1, rfl⟩
      have hu1 : u / 16 < 16 ^ (k1 + 1) := by
        rw [Nat.div_lt_iff_lt_mul (by norm_num)]
        calc u < 16 ^ (k1 + 1 + 1) := hu
          _ = 16 ^ (k1 + 1) * 16 := by ring
      obtain ⟨z, hz1, hz2⟩ := ih (u / 16) (hexDigitUpper (u % 16) :: acc) k1 hu1 (by omega)
      refine ⟨z, ?_, ?_⟩
      · simp only [fmtHexUpperAux, if_pos c]
        simp only [List.length_cons] at hz1
        omega
      · simp only [fmtHexUpperAux, if_pos c]
        rw [hz2]
        simp [hexFixed]
    · have hu16 : u < 16 := by omega
      refine ⟨k, ?_, ?_⟩
      · simp [fmtHexUpperAux, if_neg c]; omega
      · simp only [fmtHexUpperAux, if_neg c, hexFixed]
        rw [Nat.div_eq_of_lt hu16, hexFixed_zero, Nat.mod_eq_of_lt hu16]
        simp

theorem sprintf08X_of_lt (m : Nat) (h : m < 4294967296) :
    sprintf08X (m : Int) = hexFixed 8 m := by
  have hneg : decide ((m : Int) < 0) = false := by simp
  obtain ⟨z, hz1, hz2⟩ := fmtHexUpperAux_pad 16 m [] 7 (by norm_num; omega) (by norm_num)
  unfold sprintf08X
  simp only [hneg, Int.natAbs_ofNat, Bool.false_eq_true, if_false]
  simp only [List.length_nil, List.append_nil] at hz1 hz2
  have : 8 - (fmtHexUpperAux 16 m []).length = z := by omega
  rw [this, hz2]

theorem hexFixed_eight (m : Nat) :
    hexFixed 8 m =
      [hexDigitUpper (m / 268435456 % 16), hexDigitUpper (m / 16777216 % 16),
       hexDigitUpper (m / 1048576 % 16), hexDigitUpper (m / 65536 % 16),
       hexDigitUpper (m / 4096 % 16), hexDigitUpper (m / 256 % 16),
       hexDigitUpper (m / 16 % 16), hexDigitUpper (m % 16)] := by
  simp [hexFixed, Nat.div_div_eq_div_mul]

/-- Claim C5: for `0 ≤ n < 2^32` the text `%08X` of `n` is eight upper-case
hexadecimal digits `a1 a0 d5 d4 d3 d2 d1 d0` whose value is `n`, and
`convertColorToHex6 n` is `#` followed by the six digits `d5 … d0` (the two
leading digits removed), whose value is `n mod 2^24`. -/
theorem convertColorToHex6_low24 (n : Int) (h0 : 0 ≤ n) (h1 : n < 4294967296) :
    ∃ a1 a0 d5 d4 d3 d2 d1 d0 : Nat,
      (a1 < 16 ∧ a0 < 16 ∧ d5 < 16 ∧ d4 < 16 ∧ d3 < 16 ∧ d2 < 16 ∧ d1 < 16 ∧ d0 < 16) ∧
      sprintf08X n =
        [hexDigitUpper a1, hexDigitUpper a0, hexDigitUpper d5, hexDigitUpper d4,
         hexDigitUpper d3, hexDigitUpper d2, hexDigitUpper d1, hexDigitUpper d0] ∧
      ((a1 : Int) * 268435456 + a0 * 16777216 + d5 * 1048576 + d4 * 65536 + d3 * 4096
          + d2 * 256 + d1 * 16 + d0 = n) ∧
      convertColorToHex6 n =
        String.mk ['#', hexDigitUpper d5, hexDigitUpper d4, hexDigitUpper d3,
          hexDigitUpper d2, hexDigitUpper d1, hexDigitUpper d0] ∧
      ((d5 : Int) * 1048576 + d4 * 65536 + d3 * 4096 + d2 * 256 + d1 * 16 + d0
          = n % 16777216) := by
  obtain ⟨m, rfl⟩ := Int.eq_ofNat_of_zero_le h0
  have hm : m < 4294967296 := by exact_mod_cast h1
  have hs := sprintf08X_of_lt m hm
  rw [hexFixed_eight] at hs
  refine ⟨m / 268435456 % 16, m / 16777216 % 16, m / 1048576 % 16, m / 65536 % 16,
    m / 4096 % 16, m / 256 % 16, m / 16 % 16, m % 16, ?_, hs, ?_, ?_, ?_⟩
  · omega
  · omega
  · unfold convertColorToHex6
    rw [hs]
    simp [hexDigitUpper_toUpper]
    rfl
  · omega

/-- Claim C5 at `0xFFFFCA28`: the digits are `F F F F C A 2 8` and the colour
is `#FFCA28`. -/
theorem convertColorToHex6_low24_witness :
    (0 : Int) ≤ 4294953512 ∧ (4294953512 : Int) < 4294967296 ∧
    convertColorToHex6 4294953512 = "#FFCA28" ∧
    ∃ a1 a0 d5 d4 d3 d2 d1 d0 : Nat,
      (a1 < 16 ∧ a0 < 16 ∧ d5 < 16 ∧ d4 < 16 ∧ d3 < 16 ∧ d2 < 16 ∧ d1 < 16 ∧ d0 < 16) ∧
      sprintf08X 4294953512 =
        [hexDigitUpper a1, hexDigitUpper a0, hexDigitUpper d5, hexDigitUpper d4,
         hexDigitUpper d3, hexDigitUpper d2, hexDigitUpper d1, hexDigitUpper d0] ∧
      ((a1 : Int) * 268435456 + a0 * 16777216 + d5 * 1048576 + d4 * 65536 + d3 * 4096
          + d2 * 256 + d1 * 16 + d0 = 4294953512) ∧
      convertColorToHex6 4294953512 =
        String.mk ['#', hexDigitUpper d5, hexDigitUpper d4, hexDigitUpper d3,
          hexDigitUpper d2, hexDigitUpper d1, hexDigitUpper d0] ∧
      ((d5 : Int) * 1048576 + d4 * 65536 + d3 * 4096 + d2 * 256 + d1 * 16 + d0
          = 4294953512 % 16777216) :=
  ⟨by decide, by decide, by decide,
   convertColorToHex6_low24 4294953512 (by decide) (by decide)⟩

/-! ## Message runs -/

theorem parseMessages_foldl (runs : List MessageRun) :
    ∀ acc, runs.foldl parseMessagesStep acc = acc ++ parseMessages runs := by
  unfold parseMessages
  induction runs with
  | nil => intro acc; simp
  | cons r rs ih =>
    intro acc
    rw [List.foldl_cons, ih, List.foldl_cons, ih (parseMessagesStep [] r)]
    have : parseMessagesStep acc r = acc ++ parseMessagesStep [] r := by
      unfold parseMessagesStep
      split_ifs
      · simp
      · cases r.Emoji <;> simp
    rw [this, List.append_assoc]

/-- The parts of a concatenation of runs are the parts of the pieces. -/
theorem parseMessages_append (xs ys : List MessageRun) :
    parseMessages (xs ++ ys) = parseMessages xs ++ parseMessages ys := by
  unfold parseMessages
  rw [List.foldl_append]
  exact parseMessages_foldl ys _

/-- Claim C6: a run with empty text and an emoji reference, wherever it
stands in the runs, produces one emoji part; its `IsCustomEmoji` is the custom
flag of the emoji, and its `EmojiText` is the first shortcut of the emoji when
the emoji is custom (the empty string when it has no shortcut) and the
`emojiId` otherwise. -/
theorem parseMessages_emoji_text (pre post : List MessageRun) (run : MessageRun)
    (emoji : MessageEmoji) (htext : run.Text = "") (hemoji : run.Emoji = some emoji) :
    ∃ part : EmojiItem,
      parseMessages (pre ++ run :: post)
        = parseMessages pre ++ { Text := "", EmojiItem := some part } :: parseMessages post ∧
      part.IsCustomEmoji = emoji.IsCustomEmoji ∧
      (emoji.IsCustomEmoji = true → part.EmojiText = emoji.Shortcuts.head?.getD "") ∧
      (emoji.IsCustomEmoji = false → part.EmojiText = emoji.EmojiId) := by
  have hrun : parseMessages [run] = [{ Text := "", EmojiItem := some (EmojiItem.mk
      (ImageItem.mk ((emoji.Image.Thumbnails.head?.map (·.URL)).getD "")
        (emoji.Shortcuts.head?.getD ""))
      (if emoji.IsCustomEmoji then emoji.Shortcuts.head?.getD "" else emoji.EmojiId)
      emoji.IsCustomEmoji) }] := by
    simp only [parseMessages, List.foldl_cons, List.foldl_nil, parseMessagesStep, htext, hemoji]
    cases hs : emoji.Shortcuts <;> cases ht : emoji.Image.Thumbnails <;> simp
  refine ⟨EmojiItem.mk
      (ImageItem.mk ((emoji.Image.Thumbnails.head?.map (·.URL)).getD "")
        (emoji.Shortcuts.head?.getD ""))
      (if emoji.IsCustomEmoji then emoji.Shortcuts.head?.getD "" else emoji.EmojiId)
      emoji.IsCustomEmoji, ?_, rfl, ?_, ?_⟩
  · rw [parseMessages_append, ← List.singleton_append, parseMessages_append, hrun]
    rfl
  · intro h; simp [h]
  · intro h; simp [h]

/-- Claim C6 at a custom emoji with shortcut `:customEmoji:` standing between
a text run and a global emoji, and at a global emoji whose id is a skin-toned
glyph. -/
theorem parseMessages_emoji_text_witness :
    (∃ part : EmojiItem,
      parseMessages
          ([{ Text := "Hello" }] ++ { Emoji := some customEmoji } ::
            [{ Emoji := some globalEmoji }])
        = parseMessages [{ Text := "Hello" }] ++
            { Text := "", EmojiItem := some part } ::
              parseMessages [{ Emoji := some globalEmoji }] ∧
      part.IsCustomEmoji = true ∧ part.EmojiText = ":customEmoji:") ∧
    (∃ part : EmojiItem,
      parseMessages ([] ++ { Emoji := some globalEmoji } :: [])
        = parseMessages [] ++ { Text := "", EmojiItem := some part } :: parseMessages [] ∧
      part.IsCustomEmoji = false ∧ part.EmojiText = "👏🏿") := by
  obtain ⟨part, h1, h2, h3, _⟩ :=
    parseMessages_emoji_text [{ Text := "Hello" }] [{ Emoji := some globalEmoji }]
      { Emoji := some customEmoji } customEmoji rfl rfl
  obtain ⟨part2, g1, g2, _, g4⟩ :=
    parseMessages_emoji_text [] [] { Emoji := some globalEmoji } globalEmoji rfl rfl
  exact ⟨⟨part, h1, h2, h3 rfl⟩, ⟨part2, g1, g2, g4 rfl⟩⟩

/-! ## Badges -/

theorem badgeStep_flags (idx : ChatItem) (b : AuthorBadge) :
    (badgeStep idx b).IsMembership = (idx.IsMembership || b.isCustom) ∧
    (badgeStep idx b).IsOwner = (idx.IsOwner || b.hasIcon "OWNER") ∧
    (badgeStep idx b).IsVerified = (idx.IsVerified || b.hasIcon "VERIFIED") ∧
    (badgeStep idx b).IsModerator = (idx.IsModerator || b.hasIcon "MODERATOR") ∧
    (badgeStep idx b).SuperChat = idx.SuperChat := by
  unfold badgeStep AuthorBadge.isCustom AuthorBadge.hasIcon
  cases hc : b.LiveChatAuthorBadgeRenderer.CustomThumbnail with
  | some th => simp [hc]
  | none =>
    cases hi : b.LiveChatAuthorBadgeRenderer.Icon with
    | none => simp [hc, hi]
    | some t =>
      by_cases h1 : t = "OWNER"
      · subst h1; simp [hc, hi]
      · by_cases h2 : t = "VERIFIED"
        · subst h2; simp [hc, hi]
        · by_cases h3 : t = "MODERATOR"
          · subst h3; simp [hc, hi]
          · simp [hc, hi, h1, h2, h3]

theorem foldl_badgeStep_flags (badges : List AuthorBadge) : ∀ idx : ChatItem,
    (badges.foldl badgeStep idx).IsMembership
      = (idx.IsMembership || badges.any AuthorBadge.isCustom) ∧
    (badges.foldl badgeStep idx).IsOwner
      = (idx.IsOwner || badges.any (AuthorBadge.hasIcon "OWNER")) ∧
    (badges.foldl badgeStep idx).IsVerified
      = (idx.IsVerified || badges.any (AuthorBadge.hasIcon "VERIFIED")) ∧
    (badges.foldl badgeStep idx).IsModerator
      = (idx.IsModerator || badges.any (AuthorBadge.hasIcon "MODERATOR")) ∧
    (badges.foldl badgeStep idx).SuperChat = idx.SuperChat := by
  induction badges with
  | nil => intro idx; simp
  | cons b bs ih =>
    intro idx
    obtain ⟨h1, h2, h3, h4, h5⟩ := ih (badgeStep idx b)
    obtain ⟨s1, s2, s3, s4, s5⟩ := badgeStep_flags idx b
    simp only [List.foldl_cons, List.any_cons, h1, h2, h3, h4, h5, s1, s2, s3, s4, s5,
      Bool.or_assoc, and_self]


theorem any_isCustom_iff (badges : List AuthorBadge) :
    badges.any AuthorBadge.isCustom = true ↔
      ∃ b ∈ badges, b.LiveChatAuthorBadgeRenderer.CustomThumbnail ≠ none := by
  simp [List.any_eq_true, AuthorBadge.isCustom, Option.isSome_iff_ne_none]

theorem any_hasIcon_iff (t : String) (badges : List AuthorBadge) :
    badges.any (AuthorBadge.hasIcon t) = true ↔
      ∃ b ∈ badges, b.LiveChatAuthorBadgeRenderer.CustomThumbnail = none ∧
        b.LiveChatAuthorBadgeRenderer.Icon = some t := by
  simp [List.any_eq_true, AuthorBadge.hasIcon]

/-- The item built from a classifiable action: its flags come from the badge
loop started with all four flags false, and its SuperChat from `superChatOf`. -/
theorem parseActionToChatItem_some (now : Time) (data : Action) (a : AddChatItemAction)
    (base : MessageRendererBase) (ha : data.AddChatItemAction = some a)
    (hb : selectRenderer a.Item = some base) :
    ∃ item, parseActionToChatItem now data = some item ∧
      item.IsMembership = base.AuthorBadges.any AuthorBadge.isCustom ∧
      item.IsOwner = base.AuthorBadges.any (AuthorBadge.hasIcon "OWNER") ∧
      item.IsVerified = base.AuthorBadges.any (AuthorBadge.hasIcon "VERIFIED") ∧
      item.IsModerator = base.AuthorBadges.any (AuthorBadge.hasIcon "MODERATOR") ∧
      item.SuperChat = superChatOf a.Item := by
  unfold parseActionToChatItem
  simp only [ha, hb]
  refine ⟨_, rfl, ?_⟩
  generalize hidx : ({
      ID := base.ID
      Author := _
      Message := parseMessages (selectRuns a.Item)
      Timestamp := _
      IsMembership := false
      IsOwner := false
      IsVerified := false
      IsModerator := false } : ChatItem) = idx
  have f1 : idx.IsMembership = false := by rw [← hidx]
  have f2 : idx.IsOwner = false := by rw [← hidx]
  have f3 : idx.IsVerified = false := by rw [← hidx]
  have f4 : idx.IsModerator = false := by rw [← hidx]
  have f5 : idx.SuperChat = none := by rw [← hidx]
  obtain ⟨h1, h2, h3, h4, h5⟩ := foldl_badgeStep_flags base.AuthorBadges idx
  rw [f1] at h1; rw [f2] at h2; rw [f3] at h3; rw [f4] at h4; rw [f5] at h5
  cases hs : superChatOf a.Item with
  | none => simp [h1, h2, h3, h4, h5]
  | some sc => simp [h1, h2, h3, h4]

/-- Claim C7: the four flags of an item are read off the badge list of its
author independently of one another. `IsMembership` holds iff some badge has
a custom thumbnail; `IsOwner`, `IsVerified`, `IsModerator` hold iff some badge
without a custom thumbnail has icon type `OWNER`, `VERIFIED`, `MODERATOR`.
A flag that is true after a list of badges is true after any longer list, in
the badge loop and hence in the items of two actions of which the second has
further badges; a badge with an icon type other than the three leaves the
item as it is. -/
theorem author_badge_flags :
    (∀ (now : Time) (data : Action) (a : AddChatItemAction) (base : MessageRendererBase),
      data.AddChatItemAction = some a → selectRenderer a.Item = some base →
      ∃ item, parseActionToChatItem now data = some item ∧
        (item.IsMembership = true ↔
          ∃ b ∈ base.AuthorBadges, b.LiveChatAuthorBadgeRenderer.CustomThumbnail ≠ none) ∧
        (item.IsOwner = true ↔
          ∃ b ∈ base.AuthorBadges, b.LiveChatAuthorBadgeRenderer.CustomThumbnail = none ∧
            b.LiveChatAuthorBadgeRenderer.Icon = some "OWNER") ∧
        (item.IsVerified = true ↔
          ∃ b ∈ base.AuthorBadges, b.LiveChatAuthorBadgeRenderer.CustomThumbnail = none ∧
            b.LiveChatAuthorBadgeRenderer.Icon = some "VERIFIED") ∧
        (item.IsModerator = true ↔
          ∃ b ∈ base.AuthorBadges, b.LiveChatAuthorBadgeRenderer.CustomThumbnail = none ∧
            b.LiveChatAuthorBadgeRenderer.Icon = some "MODERATOR")) ∧
    (∀ (idx : ChatItem) (badges more : List AuthorBadge),
      ((badges.foldl badgeStep idx).IsMembership = true →
        ((badges ++ more).foldl badgeStep idx).IsMembership = true) ∧
      ((badges.foldl badgeStep idx).IsOwner = true →
        ((badges ++ more).foldl badgeStep idx).IsOwner = true) ∧
      ((badges.foldl badgeStep idx).IsVerified = true →
        ((badges ++ more).foldl badgeStep idx).IsVerified = true) ∧
      ((badges.foldl badgeStep idx).IsModerator = true →
        ((badges ++ more).foldl badgeStep idx).IsModerator = true)) ∧
    (∀ (now1 now2 : Time) (data1 data2 : Action) (a1 a2 : AddChatItemAction)
      (base1 base2 : MessageRendererBase) (more : List AuthorBadge) (item1 item2 : ChatItem),
      data1.AddChatItemAction = some a1 → selectRenderer a1.Item = some base1 →
      data2.AddChatItemAction = some a2 → selectRenderer a2.Item = some base2 →
      base2.AuthorBadges = base1.AuthorBadges ++ more →
      parseActionToChatItem now1 data1 = some item1 →
      parseActionToChatItem now2 data2 = some item2 →
      (item1.IsMembership = true → item2.IsMembership = true) ∧
      (item1.IsOwner = true → item2.IsOwner = true) ∧
      (item1.IsVerified = true → item2.IsVerified = true) ∧
      (item1.IsModerator = true → item2.IsModerator = true)) ∧
    (∀ (idx : ChatItem) (b : AuthorBadge) (t : String),
      b.LiveChatAuthorBadgeRenderer.CustomThumbnail = none →
      b.LiveChatAuthorBadgeRenderer.Icon = some t →
      t ≠ "OWNER" → t ≠ "VERIFIED" → t ≠ "MODERATOR" → badgeStep idx b = idx) := by
  refine ⟨?_, ?_, ?_, ?_⟩
  · intro now data a base ha hb
    obtain ⟨item, h0, h1, h2, h3, h4, _⟩ := parseActionToChatItem_some now data a base ha hb
    refine ⟨item, h0, ?_, ?_, ?_, ?_⟩
    · rw [h1]; exact any_isCustom_iff _
    · rw [h2]; exact any_hasIcon_iff _ _
    · rw [h3]; exact any_hasIcon_iff _ _
    · rw [h4]; exact any_hasIcon_iff _ _
  · intro idx badges more
    rw [List.foldl_append]
    obtain ⟨h1, h2, h3, h4, _⟩ := foldl_badgeStep_flags more (badges.foldl badgeStep idx)
    refine ⟨?_, ?_, ?_, ?_⟩
    · intro h; rw [h1, h]; rfl
    · intro h; rw [h2, h]; rfl
    · intro h; rw [h3, h]; rfl
    · intro h; rw [h4, h]; rfl
  · intro now1 now2 data1 data2 a1 a2 base1 base2 more item1 item2 ha1 hb1 ha2 hb2 hmore hi1 hi2
    obtain ⟨i1, e1, p1, p2, p3, p4, _⟩ := parseActionToChatItem_some now1 data1 a1 base1 ha1 hb1
    obtain ⟨i2, e2, q1, q2, q3, q4, _⟩ := parseActionToChatItem_some now2 data2 a2 base2 ha2 hb2
    rw [hi1] at e1; rw [hi2] at e2
    obtain rfl : item1 = i1 := Option.some.inj e1
    obtain rfl : item2 = i2 := Option.some.inj e2
    rw [p1, p2, p3, p4, q1, q2, q3, q4, hmore]
    simp only [List.any_append, Bool.or_eq_true]
    exact ⟨Or.inl, Or.inl, Or.inl, Or.inl⟩
  · intro idx b t hc hi n1 n2 n3
    simp [badgeStep, hc, hi, n1, n2, n3]

/-- Claim C7 at an author with a custom-thumbnail badge and a `VERIFIED` icon
badge: membership and verified both hold, owner and moderator do not. -/
theorem author_badge_flags_witness :
    ∃ item, parseActionToChatItem ⟨0, 0⟩ { AddChatItemAction := some memberVerifiedAdd }
        = some item ∧
      item.IsMembership = true ∧ item.IsVerified = true ∧ item.IsOwner = false ∧
      item.IsModerator = false := by
  obtain ⟨item, h0, h1, h2, h3, h4⟩ :=
    author_badge_flags.1 ⟨0, 0⟩ { AddChatItemAction := some memberVerifiedAdd }
      memberVerifiedAdd memberVerifiedBase rfl rfl
  have hmem : ∀ b ∈ memberVerifiedBase.AuthorBadges,
      b = memberVerifiedBadges.getD 0 {} ∨ b = memberVerifiedBadges.getD 1 {} := by
    intro b hb
    simpa [memberVerifiedBase, memberVerifiedBadges] using hb
  refine ⟨item, h0, h1.mpr ?_, h3.mpr ?_, ?_, ?_⟩
  · exact ⟨memberVerifiedBadges.getD 0 {}, by decide, by decide⟩
  · exact ⟨memberVerifiedBadges.getD 1 {}, by decide, by decide⟩
  · rw [Bool.eq_false_iff, Ne, h2]
    rintro ⟨b, hb, h⟩
    revert h
    rcases hmem b hb with rfl | rfl <;> decide
  · rw [Bool.eq_false_iff, Ne, h4]
    rintro ⟨b, hb, h⟩
    revert h
    rcases hmem b hb with rfl | rfl <;> decide

/-! ## SuperChat -/

theorem parseThumbnailToImageItem_eq (data : List Thumbnail) (alt : String) :
    parseThumbnailToImageItem data alt =
      ImageItem.mk ((data.getLast?.map (·.URL)).getD "") (if data = [] then "" else alt) := by
  unfold parseThumbnailToImageItem
  cases data with
  | nil => rfl
  | cons t ts =>
    have : (t :: ts).getLast? = (t :: ts)[(t :: ts).length - 1]? := List.getLast?_eq_getElem? _
    simp only [List.length_cons, Nat.succ_ne_zero, if_false, reduceCtorEq, this,
      List.getD_eq_getElem?_getD]
    have hlt : ts.length + 1 - 1 < (t :: ts).length := by simp
    rw [List.getElem?_eq_getElem hlt]
    simp

/-- Claim C8: for an action with exactly one renderer populated, a paid
sticker yields a SuperChat with the purchase amount, the colour of
`backgroundColor` and, as sticker, the last thumbnail of the sticker list (its
URL, empty for an empty list) with the sticker label; a paid message yields a
SuperChat with the purchase amount, the colour of `bodyBackgroundColor` and no
sticker; a text message and a membership item yield an item without
SuperChat. -/
theorem superChat_by_renderer (now : Time) (data : Action) (a : AddChatItemAction)
    (ha : data.AddChatItemAction = some a) :
    (∀ r, a.Item.LiveChatPaidStickerRenderer = some r →
      a.Item.LiveChatTextMessageRenderer = none → a.Item.LiveChatPaidMessageRenderer = none →
      a.Item.LiveChatMembershipItemRenderer = none →
      ∃ item, parseActionToChatItem now data = some item ∧
        item.SuperChat = some (SuperChat.mk r.PurchaseAmountText
          (convertColorToHex6 r.BackgroundColor)
          (some (ImageItem.mk ((r.Sticker.Thumbnails.getLast?.map (·.URL)).getD "")
            (if r.Sticker.Thumbnails = [] then "" else r.Sticker.Label))))) ∧
    (∀ r, a.Item.LiveChatPaidMessageRenderer = some r →
      a.Item.LiveChatTextMessageRenderer = none → a.Item.LiveChatPaidStickerRenderer = none →
      a.Item.LiveChatMembershipItemRenderer = none →
      ∃ item, parseActionToChatItem now data = some item ∧
        item.SuperChat = some (SuperChat.mk r.PurchaseAmountText
          (convertColorToHex6 r.BodyBackgroundColor) none)) ∧
    (∀ r, a.Item.LiveChatTextMessageRenderer = some r →
      a.Item.LiveChatPaidMessageRenderer = none → a.Item.LiveChatPaidStickerRenderer = none →
      a.Item.LiveChatMembershipItemRenderer = none →
      ∃ item, parseActionToChatItem now data = some item ∧ item.SuperChat = none) ∧
    (∀ r, a.Item.LiveChatMembershipItemRenderer = some r →
      a.Item.LiveChatTextMessageRenderer = none → a.Item.LiveChatPaidMessageRenderer = none →
      a.Item.LiveChatPaidStickerRenderer = none →
      ∃ item, parseActionToChatItem now data = some item ∧ item.SuperChat = none) := by
  refine ⟨?_, ?_, ?_, ?_⟩
  · intro r hs ht hp hm
    obtain ⟨item, h0, _, _, _, _, h5⟩ :=
      parseActionToChatItem_some now data a r.MessageRendererBase ha
        (by simp [selectRenderer, hs, ht, hp])
    refine ⟨item, h0, ?_⟩
    rw [h5]
    simp [superChatOf, hs, parseThumbnailToImageItem_eq]
  · intro r hp ht hs hm
    obtain ⟨item, h0, _, _, _, _, h5⟩ :=
      parseActionToChatItem_some now data a r.LiveChatTextMessageRenderer.MessageRendererBase ha
        (by simp [selectRenderer, hp, ht])
    refine ⟨item, h0, ?_⟩
    rw [h5]
    simp [superChatOf, hs, hp]
  · intro r ht hp hs hm
    obtain ⟨item, h0, _, _, _, _, h5⟩ :=
      parseActionToChatItem_some now data a r.MessageRendererBase ha
        (by simp [selectRenderer, ht])
    refine ⟨item, h0, ?_⟩
    rw [h5]
    simp [superChatOf, hs, hp]
  · intro r hm ht hp hs
    obtain ⟨item, h0, _, _, _, _, h5⟩ :=
      parseActionToChatItem_some now data a r.MessageRendererBase ha
        (by simp [selectRenderer, ht, hp, hs, hm])
    refine ⟨item, h0, ?_⟩
    rw [h5]
    simp [superChatOf, hs, hp]


/-- Claim C8 at a paid sticker of ￥90 with background `0xFFFFCA28` and two
thumbnails. -/
theorem superChat_by_renderer_witness :
    ∃ item,
      parseActionToChatItem ⟨0, 0⟩ { AddChatItemAction := some superStickerAdd } = some item ∧
      item.SuperChat
        = some (SuperChat.mk "￥90" "#FFCA28" (some (ImageItem.mk "large" "sticker"))) :=
  (superChat_by_renderer ⟨0, 0⟩ { AddChatItemAction := some superStickerAdd }
    superStickerAdd rfl).1 superSticker rfl rfl rfl rfl

/-! ## The pattern search -/

theorem matchLit_append (s rest : List Char) : matchLit s (s ++ rest) = some rest := by
  induction s with
  | nil => cases rest <;> rfl
  | cons c cs ih => simp [matchLit, ih]

theorem matchLit_some (s : List Char) : ∀ (input rest : List Char),
    matchLit s input = some rest → input = s ++ rest := by
  induction s with
  | nil => intro input rest h; simpa [matchLit] using h
  | cons c cs ih =>
    intro input rest h
    cases input with
    | nil => simp [matchLit] at h
    | cons d ds =>
      by_cases hcd : c = d
      · subst hcd
        simp only [matchLit, if_true] at h
        rw [ih ds rest h]; rfl
      · simp [matchLit, hcd] at h

theorem matchStar_some {α : Type} (p : Char → Bool) (k : List Char → Option α) (x : α) :
    ∀ input, matchStar p k input = some x →
      ∃ rest, k rest = some x ∧ rest.length ≤ input.length := by
  intro input
  induction input with
  | nil => intro h; exact ⟨[], by simpa [matchStar] using h, le_refl _⟩
  | cons c cs ih =>
    intro h
    unfold matchStar at h
    by_cases hp : p c = true
    · rw [if_pos hp] at h
      cases hm : matchStar p k cs with
      | some r =>
        rw [hm] at h
        obtain ⟨rest, h1, h2⟩ := ih (by rw [hm]; exact h)
        exact ⟨rest, h1, by simp; omega⟩
      | none =>
        rw [hm] at h
        exact ⟨c :: cs, h, le_refl _⟩
    · rw [if_neg hp] at h
      exact ⟨c :: cs, h, le_refl _⟩

theorem matchPlusLazy_some {α : Type} (p : Char → Bool) (k : List Char → Option α) (x : α) :
    ∀ input, matchPlusLazy p k input = some x →
      ∃ rest, k rest = some x ∧ rest.length < input.length := by
  intro input
  induction input with
  | nil => intro h; simp [matchPlusLazy] at h
  | cons c cs ih =>
    intro h
    unfold matchPlusLazy at h
    by_cases hp : p c = true
    · rw [if_pos hp] at h
      cases hk : k cs with
      | some r =>
        rw [hk] at h
        exact ⟨cs, by rw [hk]; exact h, by simp⟩
      | none =>
        rw [hk] at h
        obtain ⟨rest, h1, h2⟩ := ih h
        exact ⟨rest, h1, by simp; omega⟩
    · rw [if_neg hp] at h
      exact absurd h (by simp)

theorem Regex.run_some {α : Type} (r : Regex) :
    ∀ (caps : List (List Char)) (input : List Char)
      (k : List (List Char) → List Char → Option α) (x : α),
      r.run caps input k = some x →
      ∃ caps1 rest, k caps1 rest = some x ∧ rest.length ≤ input.length ∧
        (r.consumes = true → rest.length < input.length) ∧
        caps1.length = caps.length + r.numCaps ∧
        (r.capsConsume = true → (∀ g ∈ caps, g ≠ []) → ∀ g ∈ caps1, g ≠ []) := by
  induction r with
  | lit s =>
    intro caps input k x h
    simp only [Regex.run] at h
    cases hm : matchLit s input with
    | none => rw [hm] at h; exact absurd h (by simp)
    | some rest =>
      rw [hm] at h
      have := matchLit_some s input rest hm
      refine ⟨caps, rest, h, by simp [this], ?_, rfl, fun _ hc => hc⟩
      intro hc
      cases s with
      | nil => simp [Regex.consumes] at hc
      | cons c cs => simp [this]; omega
  | cls p =>
    intro caps input k x h
    cases input with
    | nil => simp [Regex.run] at h
    | cons c cs =>
      simp only [Regex.run] at h
      by_cases hp : p c = true
      · rw [if_pos hp] at h
        exact ⟨caps, cs, h, by simp, fun _ => by simp, rfl, fun _ hc => hc⟩
      · rw [if_neg hp] at h; exact absurd h (by simp)
  | star p =>
    intro caps input k x h
    simp only [Regex.run] at h
    obtain ⟨rest, h1, h2⟩ := matchStar_some p (k caps) x input h
    exact ⟨caps, rest, h1, h2, fun hc => by simp [Regex.consumes] at hc, rfl, fun _ hc => hc⟩
  | plusLazy p =>
    intro caps input k x h
    simp only [Regex.run] at h
    obtain ⟨rest, h1, h2⟩ := matchPlusLazy_some p (k caps) x input h
    exact ⟨caps, rest, h1, le_of_lt h2, fun _ => h2, rfl, fun _ hc => hc⟩
  | cap r ih =>
    intro caps input k x h
    simp only [Regex.run] at h
    obtain ⟨caps1, rest, h1, h2, h3, h4, h5⟩ := ih caps input _ x h
    refine ⟨_, rest, h1, h2, h3, ?_, ?_⟩
    · simp [Regex.numCaps, h4]; omega
    · intro hc hcaps g hg
      simp only [Regex.capsConsume, Bool.and_eq_true] at hc
      rcases List.mem_append.mp hg with hg | hg
      · exact h5 hc.1 hcaps g hg
      · have hlt := h3 hc.2
        simp only [List.mem_singleton] at hg
        subst hg
        intro hnil
        have := congrArg List.length hnil
        simp at this
        omega
  | seq r s ihr ihs =>
    intro caps input k x h
    simp only [Regex.run] at h
    obtain ⟨caps1, mid, h1, h2, h3, h4, h5⟩ := ihr caps input _ x h
    obtain ⟨caps2, rest, g1, g2, g3, g4, g5⟩ := ihs caps1 mid k x h1
    refine ⟨caps2, rest, g1, le_trans g2 h2, ?_, ?_, ?_⟩
    · intro hc
      simp only [Regex.consumes, Bool.or_eq_true] at hc
      rcases hc with hc | hc
      · exact lt_of_le_of_lt g2 (h3 hc)
      · exact lt_of_lt_of_le (g3 hc) h2
    · simp [Regex.numCaps, g4, h4]; omega
    · intro hc hcaps
      simp only [Regex.capsConsume, Bool.and_eq_true] at hc
      exact g5 hc.2 (h5 hc.1 hcaps)

theorem Regex.find_some (re : Regex) : ∀ (input start : List Char) (caps : List (List Char))
    (rest : List Char), re.find input = some (start, caps, rest) →
    caps.length = re.numCaps ∧ (re.capsConsume = true → ∀ g ∈ caps, g ≠ []) := by
  intro input
  induction input with
  | nil =>
    intro start caps rest h
    simp only [Regex.find] at h
    cases hr : re.run [] [] (fun caps rest => some (caps, rest)) with
    | none => rw [hr] at h; exact absurd h (by simp)
    | some x =>
      rw [hr] at h
      obtain ⟨c1, r1, h1, _, _, h4, h5⟩ := Regex.run_some re [] [] _ x hr
      simp only [Option.some.injEq] at h1 h
      subst h1
      simp only [Prod.mk.injEq] at h
      obtain ⟨_, rfl, rfl⟩ := h
      exact ⟨by simpa using h4, fun hc => h5 hc (by simp)⟩
  | cons c cs ih =>
    intro start caps rest h
    simp only [Regex.find] at h
    cases hr : re.run [] (c :: cs) (fun caps rest => some (caps, rest)) with
    | none => rw [hr] at h; exact ih start caps rest h
    | some x =>
      rw [hr] at h
      obtain ⟨c1, r1, h1, _, _, h4, h5⟩ := Regex.run_some re [] (c :: cs) _ x hr
      simp only [Option.some.injEq] at h1 h
      subst h1
      simp only [Prod.mk.injEq] at h
      obtain ⟨_, rfl, rfl⟩ := h
      exact ⟨by simpa using h4, fun hc => h5 hc (by simp)⟩

/-- A pattern with one group that takes at least one character: no match, or
the match and a non-empty group. -/
theorem FindStringSubmatch_one_group (re : Regex) (h1 : re.numCaps = 1)
    (h2 : re.capsConsume = true) (s : String) :
    FindStringSubmatch re s = [] ∨
      ∃ w g, FindStringSubmatch re s = [w, g] ∧ g ≠ "" := by
  unfold FindStringSubmatch
  cases hf : re.find s.toList with
  | none => left; rfl
  | some x =>
    obtain ⟨start, caps, rest⟩ := x
    obtain ⟨hl, hne⟩ := Regex.find_some re _ _ _ _ hf
    rw [h1] at hl
    match caps, hl with
    | [g], _ =>
      right
      refine ⟨_, String.mk g, rfl, ?_⟩
      intro hg
      have : g = [] := by
        have := congrArg String.data hg
        simpa using this
      exact hne h2 g (by simp) this

theorem matchStar_isSome {α : Type} (p : Char → Bool) (k : List Char → Option α) :
    ∀ input, (matchStar p k input).isSome = true ↔
      ∃ m rest, input = m ++ rest ∧ (∀ c ∈ m, p c = true) ∧ (k rest).isSome = true := by
  intro input
  induction input with
  | nil =>
    simp only [matchStar]
    constructor
    · intro h; exact ⟨[], [], rfl, by simp, h⟩
    · rintro ⟨m, rest, h1, _, h3⟩
      obtain ⟨rfl, rfl⟩ : m = [] ∧ rest = [] := by simpa using h1.symm
      exact h3
  | cons c cs ih =>
    unfold matchStar
    by_cases hp : p c = true
    · rw [if_pos hp]
      cases hm : matchStar p k cs with
      | some r =>
        have := ih.mp (by rw [hm]; rfl)
        obtain ⟨m, rest, h1, h2, h3⟩ := this
        simp only [Option.isSome_some, true_iff]
        refine ⟨c :: m, rest, by simp [h1], ?_, h3⟩
        intro d hd
        rcases List.mem_cons.mp hd with rfl | hd
        · exact hp
        · exact h2 d hd
      | none =>
        have hno := ih.not.mp (by rw [hm]; simp)
        constructor
        · intro h; exact ⟨[], c :: cs, rfl, by simp, h⟩
        · rintro ⟨m, rest, h1, h2, h3⟩
          cases m with
          | nil => simp only [List.nil_append] at h1; rw [h1]; exact h3
          | cons d ds =>
            exfalso
            simp only [List.cons_append, List.cons.injEq] at h1
            exact hno ⟨ds, rest, h1.2, fun e he => h2 e (List.mem_cons_of_mem _ he), h3⟩
    · rw [if_neg hp]
      constructor
      · intro h; exact ⟨[], c :: cs, rfl, by simp, h⟩
      · rintro ⟨m, rest, h1, h2, h3⟩
        cases m with
        | nil => simp only [List.nil_append] at h1; rw [h1]; exact h3
        | cons d ds =>
          exfalso
          simp only [List.cons_append, List.cons.injEq] at h1
          exact hp (h1.1 ▸ h2 d (List.mem_cons_self _ _))

theorem matchPlusLazy_isSome {α : Type} (p : Char → Bool) (k : List Char → Option α) :
    ∀ input, (matchPlusLazy p k input).isSome = true ↔
      ∃ m rest, input = m ++ rest ∧ (m ≠ [] ∧ ∀ c ∈ m, p c = true) ∧
        (k rest).isSome = true := by
  intro input
  induction input with
  | nil =>
    simp only [matchPlusLazy]
    constructor
    · intro h; simp at h
    · rintro ⟨m, rest, h1, ⟨h2, _⟩, _⟩
      exfalso
      apply h2
      have := h1.symm
      simp at this
      exact this.1
  | cons c cs ih =>
    unfold matchPlusLazy
    by_cases hp : p c = true
    · rw [if_pos hp]
      cases hk : k cs with
      | some r =>
        simp only [Option.isSome_some, true_iff]
        exact ⟨[c], cs, rfl, ⟨by simp, by simpa using hp⟩, by rw [hk]; rfl⟩
      | none =>
        simp only
        rw [ih]
        constructor
        · rintro ⟨m, rest, h1, ⟨_, h2⟩, h3⟩
          refine ⟨c :: m, rest, by simp [h1], ⟨by simp, ?_⟩, h3⟩
          intro d hd
          rcases List.mem_cons.mp hd with rfl | hd
          · exact hp
          · exact h2 d hd
        · rintro ⟨m, rest, h1, ⟨h2, h2b⟩, h3⟩
          cases m with
          | nil => exact absurd rfl h2
          | cons d ds =>
            simp only [List.cons_append, List.cons.injEq] at h1
            cases ds with
            | nil =>
              exfalso
              simp only [List.nil_append] at h1
              rw [← h1.2, hk] at h3
              simp at h3
            | cons e es =>
              exact ⟨e :: es, rest, h1.2,
                ⟨by simp, fun x hx => h2b x (List.mem_cons_of_mem _ hx)⟩, h3⟩
    · rw [if_neg hp]
      constructor
      · intro h; simp at h
      · rintro ⟨m, rest, h1, ⟨h2, h2b⟩, _⟩
        cases m with
        | nil => exact absurd rfl h2
        | cons d ds =>
          exfalso
          simp only [List.cons_append, List.cons.injEq] at h1
          exact hp (h1.1 ▸ h2b d (List.mem_cons_self _ _))

/-- The search succeeds exactly when some prefix of the input is matched by
the pattern and the continuation accepts what is left, for a continuation
whose success does not depend on the captures. -/
theorem Regex.run_isSome {α : Type} (r : Regex) :
    ∀ (caps : List (List Char)) (input : List Char)
      (k : List (List Char) → List Char → Option α),
      (∀ c1 c2 rest, (k c1 rest).isSome = (k c2 rest).isSome) →
      ((r.run caps input k).isSome = true ↔
        ∃ m rest, input = m ++ rest ∧ r.Matches m ∧ (k caps rest).isSome = true) := by
  induction r with
  | lit s =>
    intro caps input k _
    simp only [Regex.run, Regex.Matches]
    constructor
    · intro h
      cases hm : matchLit s input with
      | none => rw [hm] at h; simp at h
      | some rest =>
        rw [hm] at h
        exact ⟨s, rest, matchLit_some s input rest hm, rfl, h⟩
    · rintro ⟨m, rest, h1, rfl, h3⟩
      rw [h1, matchLit_append]
      exact h3
  | cls p =>
    intro caps input k _
    simp only [Regex.Matches]
    cases input with
    | nil =>
      simp only [Regex.run]
      constructor
      · intro h; simp at h
      · rintro ⟨m, rest, h1, ⟨c, rfl, _⟩, _⟩
        simp at h1
    | cons c cs =>
      simp only [Regex.run]
      by_cases hp : p c = true
      · rw [if_pos hp]
        constructor
        · intro h; exact ⟨[c], cs, rfl, ⟨c, rfl, hp⟩, h⟩
        · rintro ⟨m, rest, h1, ⟨d, rfl, _⟩, h3⟩
          simp only [List.singleton_append, List.cons.injEq] at h1
          rw [h1.2]; exact h3
      · rw [if_neg hp]
        constructor
        · intro h; simp at h
        · rintro ⟨m, rest, h1, ⟨d, rfl, hd⟩, _⟩
          simp only [List.singleton_append, List.cons.injEq] at h1
          exact absurd (h1.1 ▸ hd) hp
  | star p =>
    intro caps input k _
    simp only [Regex.run, Regex.Matches]
    exact matchStar_isSome p (k caps) input
  | plusLazy p =>
    intro caps input k _
    simp only [Regex.run, Regex.Matches]
    exact matchPlusLazy_isSome p (k caps) input
  | cap r ih =>
    intro caps input k hk
    simp only [Regex.run, Regex.Matches]
    rw [ih caps input _ (fun c1 c2 rest => hk _ _ rest)]
    constructor
    · rintro ⟨m, rest, h1, h2, h3⟩
      exact ⟨m, rest, h1, h2, by rw [hk caps] ; exact h3⟩
    · rintro ⟨m, rest, h1, h2, h3⟩
      exact ⟨m, rest, h1, h2, by rw [hk _ caps] ; exact h3⟩
  | seq r s ihr ihs =>
    intro caps input k hk
    simp only [Regex.run, Regex.Matches]
    have hins : ∀ c1 c2 rest, (s.run c1 rest k).isSome = (s.run c2 rest k).isSome := by
      intro c1 c2 rest
      rw [Bool.eq_iff_iff, ihs c1 rest k hk, ihs c2 rest k hk]
      constructor
      · rintro ⟨m, r2, h1, h2, h3⟩; exact ⟨m, r2, h1, h2, by rw [hk c2 c1]; exact h3⟩
      · rintro ⟨m, r2, h1, h2, h3⟩; exact ⟨m, r2, h1, h2, by rw [hk c1 c2]; exact h3⟩
    rw [ihr caps input _ hins]
    constructor
    · rintro ⟨m1, mid, h1, h2, h3⟩
      obtain ⟨m2, rest, g1, g2, g3⟩ := (ihs caps mid k hk).mp h3
      exact ⟨m1 ++ m2, rest, by rw [h1, g1, List.append_assoc], ⟨m1, m2, rfl, h2, g2⟩, g3⟩
    · rintro ⟨m, rest, h1, ⟨m1, m2, rfl, h2, h3⟩, h4⟩
      refine ⟨m1, m2 ++ rest, by rw [h1, List.append_assoc], h2, ?_⟩
      exact (ihs caps (m2 ++ rest) k hk).mpr ⟨m2, rest, rfl, h3, h4⟩

/-- The leftmost-match search finds a match exactly when the input contains a
text that the pattern matches. -/
theorem Regex.find_isSome (re : Regex) : ∀ input : List Char,
    (re.find input).isSome = true ↔
      ∃ pre m post, input = pre ++ m ++ post ∧ re.Matches m := by
  have hrun : ∀ input : List Char,
      (re.run [] input (fun caps rest => some (caps, rest))).isSome = true ↔
        ∃ m rest, input = m ++ rest ∧ re.Matches m := by
    intro input
    rw [Regex.run_isSome re [] input (fun caps rest => some (caps, rest)) (fun _ _ _ => rfl)]
    simp
  intro input
  induction input with
  | nil =>
    simp only [Regex.find]
    cases hr : re.run [] [] (fun caps rest => some (caps, rest)) with
    | none =>
      have := (hrun []).not.mp (by rw [hr]; simp)
      simp only [Option.isSome_none, Bool.false_eq_true, false_iff]
      rintro ⟨pre, m, post, h1, h2⟩
      have h1 := h1.symm
      simp only [List.append_eq_nil] at h1
      obtain ⟨⟨rfl, rfl⟩, rfl⟩ := h1
      exact this ⟨[], [], rfl, h2⟩
    | some x =>
      obtain ⟨m, rest, h1, h2⟩ := (hrun []).mp (by rw [hr]; rfl)
      simp only [Option.isSome_some, true_iff]
      exact ⟨[], m, rest, by simpa using h1, h2⟩
  | cons c cs ih =>
    simp only [Regex.find]
    cases hr : re.run [] (c :: cs) (fun caps rest => some (caps, rest)) with
    | none =>
      have hno := (hrun (c :: cs)).not.mp (by rw [hr]; simp)
      simp only
      rw [ih]
      constructor
      · rintro ⟨pre, m, post, h1, h2⟩
        exact ⟨c :: pre, m, post, by simp [h1], h2⟩
      · rintro ⟨pre, m, post, h1, h2⟩
        cases pre with
        | nil =>
          exfalso
          exact hno ⟨m, post, by simpa using h1, h2⟩
        | cons d ds =>
          simp only [List.cons_append, List.cons.injEq] at h1
          exact ⟨ds, m, post, h1.2, h2⟩
    | some x =>
      obtain ⟨m, rest, h1, h2⟩ := (hrun (c :: cs)).mp (by rw [hr]; rfl)
      simp only [Option.isSome_some, true_iff]
      exact ⟨[], m, rest, by simpa using h1, h2⟩

/-- The reading of `MatchString`: the page contains a text that the pattern
matches. -/
theorem MatchString_iff (re : Regex) (s : String) :
    MatchString re s = true ↔
      ∃ pre m post, s.toList = pre ++ m ++ post ∧ re.Matches m :=
  Regex.find_isSome re s.toList

/-- The reading of a non-empty `FindStringSubmatch`: the page contains a text
that the pattern matches. -/
theorem FindStringSubmatch_ne_nil_iff (re : Regex) (s : String) :
    FindStringSubmatch re s ≠ [] ↔
      ∃ pre m post, s.toList = pre ++ m ++ post ∧ re.Matches m := by
  rw [← Regex.find_isSome re s.toList]
  unfold FindStringSubmatch
  cases re.find s.toList with
  | none => simp
  | some x => simp

/-- A page that contains the text `"isReplay": true` has a replay marker. -/
theorem MatchString_isReplay_literal (pre post : List Char) :
    MatchString regexIsReplay (String.mk (pre ++ "\"isReplay\": true".toList ++ post)) = true := by
  rw [MatchString_iff]
  refine ⟨pre, "\"isReplay\": true".toList, post, rfl, ?_⟩
  exact ⟨['"'], _, rfl, ⟨'"', rfl, rfl⟩, "isReplay".toList, _, rfl, rfl,
    ['"'], _, rfl, ⟨'"', rfl, rfl⟩, ":".toList, _, rfl, rfl,
    [' '], "true".toList, rfl, fun c hc => by rw [List.mem_singleton.mp hc]; rfl, rfl⟩

/-! ## The watch page -/

theorem getD_one_pair (w g : String) : [w, g].getD 1 "" = g := rfl

/-- Claim C9: on a page where the canonical pattern finds a watch link and
the replay pattern finds an `isReplay: true` marker, `GetOptionsFromLivePage`
fails with the error `<id> is finished live`, where `<id>` is the (non-empty)
broadcast id extracted from the link, whatever the page holds besides: the
API key, the client version and the continuation are not looked for. -/
theorem GetOptionsFromLivePage_replay (data : String)
    (hcanon : FindStringSubmatch regexCanonical data ≠ [])
    (hreplay : MatchString regexIsReplay data = true) :
    ∃ w id, FindStringSubmatch regexCanonical data = [w, id] ∧ id ≠ "" ∧
      GetOptionsFromLivePage data = ({ LiveID := id }, some (id ++ " is finished live")) := by
  rcases FindStringSubmatch_one_group regexCanonical rfl rfl data with h | ⟨w, id, h, hne⟩
  · exact absurd h hcanon
  · refine ⟨w, id, h, hne, ?_⟩
    unfold GetOptionsFromLivePage
    simp only [h, hreplay, getD_one_pair]
    rfl

/-- Claim C9 at a page with the link and the marker and none of the three
embedded values. -/
theorem GetOptionsFromLivePage_replay_witness :
    ∃ w id, FindStringSubmatch regexCanonical replayPage = [w, id] ∧ id ≠ "" ∧
      GetOptionsFromLivePage replayPage = ({ LiveID := id }, some (id ++ " is finished live")) :=
  GetOptionsFromLivePage_replay replayPage (by decide) (by decide)

/-- Claim C10: the outcome of `GetOptionsFromLivePage` is that of the first
failing check in the order canonical id, replay marker, API key, client
version, continuation. Without the canonical link the error is
`Live Stream was not found`, whatever else the page holds; with the link, a
replay marker gives the finished-live error; without a marker, a missing API
key, then a missing client version, then a missing continuation give their
errors; with all four values found and no marker the result has no error and
holds exactly the four extracted values, each non-empty. There is no error
if and only if all four values are found and there is no replay marker. Each
pattern finds nothing or a match with one non-empty group. -/
theorem GetOptionsFromLivePage_check_order (data : String) :
    (FindStringSubmatch regexCanonical data = [] →
      GetOptionsFromLivePage data = ({}, some "Live Stream was not found")) ∧
    (∀ w id, FindStringSubmatch regexCanonical data = [w, id] →
      (MatchString regexIsReplay data = true →
        GetOptionsFromLivePage data = ({ LiveID := id }, some (id ++ " is finished live"))) ∧
      (MatchString regexIsReplay data = false →
        (FindStringSubmatch regexAPIKey data = [] →
          GetOptionsFromLivePage data = ({ LiveID := id }, some "API Key was not found")) ∧
        (∀ w1 key, FindStringSubmatch regexAPIKey data = [w1, key] →
          (FindStringSubmatch regexClientVer data = [] →
            GetOptionsFromLivePage data
              = ({ LiveID := id, ApiKey := key }, some "Client Version was not found")) ∧
          (∀ w2 ver, FindStringSubmatch regexClientVer data = [w2, ver] →
            (FindStringSubmatch regexContinuation data = [] →
              GetOptionsFromLivePage data
                = ({ LiveID := id, ApiKey := key, ClientVersion := ver },
                    some "Continuation was not found")) ∧
            (∀ w3 cont, FindStringSubmatch regexContinuation data = [w3, cont] →
              GetOptionsFromLivePage data
                = ({ LiveID := id, ApiKey := key, ClientVersion := ver, Continuation := cont },
                    none) ∧
              id ≠ "" ∧ key ≠ "" ∧ ver ≠ "" ∧ cont ≠ ""))))) ∧
    ((GetOptionsFromLivePage data).2 = none ↔
      FindStringSubmatch regexCanonical data ≠ [] ∧ MatchString regexIsReplay data = false ∧
        FindStringSubmatch regexAPIKey data ≠ [] ∧ FindStringSubmatch regexClientVer data ≠ [] ∧
        FindStringSubmatch regexContinuation data ≠ []) ∧
    ((FindStringSubmatch regexCanonical data = [] ∨
        ∃ w g, FindStringSubmatch regexCanonical data = [w, g] ∧ g ≠ "") ∧
      (FindStringSubmatch regexAPIKey data = [] ∨
        ∃ w g, FindStringSubmatch regexAPIKey data = [w, g] ∧ g ≠ "") ∧
      (FindStringSubmatch regexClientVer data = [] ∨
        ∃ w g, FindStringSubmatch regexClientVer data = [w, g] ∧ g ≠ "") ∧
      (FindStringSubmatch regexContinuation data = [] ∨
        ∃ w g, FindStringSubmatch regexContinuation data = [w, g] ∧ g ≠ "")) := by
  have c1 := FindStringSubmatch_one_group regexCanonical rfl rfl data
  have c2 := FindStringSubmatch_one_group regexAPIKey rfl rfl data
  have c3 := FindStringSubmatch_one_group regexClientVer rfl rfl data
  have c4 := FindStringSubmatch_one_group regexContinuation rfl rfl data
  refine ⟨?_, ?_, ?_, ⟨c1, c2, c3, c4⟩⟩
  · intro h
    simp [GetOptionsFromLivePage, h]
  · intro w id h
    have hid : id ≠ "" := by
      rcases c1 with h1 | ⟨_, _, h1, hne⟩
      · rw [h] at h1; exact absurd h1 (by simp)
      · rw [h] at h1; simp only [List.cons.injEq, and_true] at h1; rw [h1.2]; exact hne
    refine ⟨?_, ?_⟩
    · intro hr
      simp only [GetOptionsFromLivePage, h, hr, getD_one_pair]
      rfl
    · intro hr
      refine ⟨?_, ?_⟩
      · intro hk
        simp only [GetOptionsFromLivePage, h, hr, hk, getD_one_pair]
        rfl
      · intro w1 key hk
        have hkey : key ≠ "" := by
          rcases c2 with h1 | ⟨_, _, h1, hne⟩
          · rw [hk] at h1; exact absurd h1 (by simp)
          · rw [hk] at h1; simp only [List.cons.injEq, and_true] at h1; rw [h1.2]; exact hne
        refine ⟨?_, ?_⟩
        · intro hv
          simp only [GetOptionsFromLivePage, h, hr, hk, hv, getD_one_pair]
          rfl
        · intro w2 ver hv
          have hver : ver ≠ "" := by
            rcases c3 with h1 | ⟨_, _, h1, hne⟩
            · rw [hv] at h1; exact absurd h1 (by simp)
            · rw [hv] at h1; simp only [List.cons.injEq, and_true] at h1; rw [h1.2]; exact hne
          refine ⟨?_, ?_⟩
          · intro hc
            simp only [GetOptionsFromLivePage, h, hr, hk, hv, hc, getD_one_pair]
            rfl
          · intro w3 cont hc
            have hcont : cont ≠ "" := by
              rcases c4 with h1 | ⟨_, _, h1, hne⟩
              · rw [hc] at h1; exact absurd h1 (by simp)
              · rw [hc] at h1; simp only [List.cons.injEq, and_true] at h1; rw [h1.2]
                exact hne
            refine ⟨?_, hid, hkey, hver, hcont⟩
            simp only [GetOptionsFromLivePage, h, hr, hk, hv, hc, getD_one_pair]
            rfl
  · rcases c1 with h1 | ⟨_, _, h1, _⟩
    · simp [GetOptionsFromLivePage, h1]
    · cases hr : MatchString regexIsReplay data with
      | true => simp [GetOptionsFromLivePage, h1, hr]
      | false =>
        rcases c2 with h2 | ⟨_, _, h2, _⟩
        · simp [GetOptionsFromLivePage, h1, hr, h2]
        · rcases c3 with h3 | ⟨_, _, h3, _⟩
          · simp [GetOptionsFromLivePage, h1, hr, h2, h3]
          · rcases c4 with h4 | ⟨_, _, h4, _⟩
            · simp [GetOptionsFromLivePage, h1, hr, h2, h3, h4]
            · simp [GetOptionsFromLivePage, h1, hr, h2, h3, h4]

/-- Claim C10 at a page with the link and the three embedded values. -/
theorem GetOptionsFromLivePage_check_order_witness :
    GetOptionsFromLivePage livePage
      = ({ LiveID := "liveId", ApiKey := "apiKey", ClientVersion := "2.2021",
           Continuation := "token" }, none) :=
  (((((GetOptionsFromLivePage_check_order livePage).2.1 _ "liveId" rfl).2
    (by decide)).2 _ "apiKey" rfl).2 _ "2.2021" rfl).2 _ "token" rfl
    |>.1

/-! ## The watch URL -/

/-- The reading of `HasPrefix h "@"`: the text is `@` followed by something. -/
theorem HasPrefix_at_iff (h : String) :
    HasPrefix h "@" = true ↔ ∃ rest : String, h = "@" ++ rest := by
  unfold HasPrefix
  constructor
  · intro hp
    have : ∃ t, h.toList = '@' :: t := by
      cases hl : h.toList with
      | nil => rw [hl] at hp; simp [List.isPrefixOf] at hp
      | cons c cs =>
        rw [hl] at hp
        have hc : c = '@' := by
          by_contra hne
          have : ("@".toList.isPrefixOf (c :: cs)) = false := by
            simp [List.isPrefixOf]
            intro h1; exact absurd h1.symm hne
          rw [this] at hp
          exact absurd hp (by simp)
        exact ⟨cs, by rw [hc]⟩
    obtain ⟨t, ht⟩ := this
    refine ⟨String.mk t, ?_⟩
    apply String.ext
    simpa using ht
  · rintro ⟨rest, rfl⟩
    have : ("@" ++ rest).toList = '@' :: rest.toList := by
      simp [String.toList]
    rw [this]
    simp [List.isPrefixOf]

/-- Claim C11: for an identifier with exactly one populated field,
`generateLiveUrl` returns `base/channel/<id>/live` for a channel reference,
`base/watch?v=<id>` for a broadcast reference and `base/<h>/live` for a
handle, where `<h>` is the handle itself when it starts with `@` and `@`
followed by the handle otherwise. A non-empty handle `x` that does not start
with `@` and the handle `@x` give the same URL, `base/@x/live`. -/
theorem generateLiveUrl_shapes (base : String) (id : YoutubeId) :
    (id.ChannelID ≠ "" → id.LiveID = "" → id.Handle = "" →
      generateLiveUrl base id = base ++ "/channel/" ++ id.ChannelID ++ "/live") ∧
    (id.ChannelID = "" → id.LiveID ≠ "" → id.Handle = "" →
      generateLiveUrl base id = base ++ "/watch?v=" ++ id.LiveID) ∧
    (id.ChannelID = "" → id.LiveID = "" → id.Handle ≠ "" →
      (HasPrefix id.Handle "@" = true →
        generateLiveUrl base id = base ++ "/" ++ id.Handle ++ "/live") ∧
      (HasPrefix id.Handle "@" = false →
        generateLiveUrl base id = base ++ "/" ++ ("@" ++ id.Handle) ++ "/live")) ∧
    (∀ x : String, x ≠ "" → HasPrefix x "@" = false →
      generateLiveUrl base { Handle := x } = generateLiveUrl base { Handle := "@" ++ x } ∧
      generateLiveUrl base { Handle := x } = base ++ "/" ++ ("@" ++ x) ++ "/live") := by
  refine ⟨?_, ?_, ?_, ?_⟩
  · intro h1 _ _
    simp [generateLiveUrl, h1]
  · intro h1 h2 _
    simp [generateLiveUrl, h1, h2]
  · intro h1 h2 h3
    refine ⟨?_, ?_⟩
    · intro hp
      simp [generateLiveUrl, h1, h2, h3, hp]
    · intro hp
      simp [generateLiveUrl, h1, h2, h3, hp]
  · intro x hx hp
    have hat : HasPrefix ("@" ++ x) "@" = true := (HasPrefix_at_iff _).mpr ⟨x, rfl⟩
    have hne : "@" ++ x ≠ "" := by
      intro h
      have := congrArg String.length h
      simp only [String.length_append] at this
      have h1 : "@".length = 1 := rfl
      have h0 : "".length = 0 := rfl
      omega
    have e1 : generateLiveUrl base { Handle := x } = base ++ "/" ++ ("@" ++ x) ++ "/live" := by
      simp [generateLiveUrl, hx, hp]
    have e2 : generateLiveUrl base { Handle := "@" ++ x }
        = base ++ "/" ++ ("@" ++ x) ++ "/live" := by
      simp only [generateLiveUrl, hat]
      simp [hne]
    exact ⟨by rw [e1, e2], e1⟩

/-- Claim C11 at the identifiers of the tests: a channel id, a broadcast id,
the handle `@handle` and the handle `handle`. -/
theorem generateLiveUrl_shapes_witness :
    generateLiveUrl "https://www.youtube.com" { ChannelID := "channelId" }
      = "https://www.youtube.com/channel/channelId/live" ∧
    generateLiveUrl "https://www.youtube.com" { LiveID := "liveId" }
      = "https://www.youtube.com/watch?v=liveId" ∧
    generateLiveUrl "https://www.youtube.com" { Handle := "@handle" }
      = "https://www.youtube.com/@handle/live" ∧
    generateLiveUrl "https://www.youtube.com" { Handle := "handle" }
      = generateLiveUrl "https://www.youtube.com" { Handle := "@" ++ "handle" } :=
  ⟨(generateLiveUrl_shapes "https://www.youtube.com" { ChannelID := "channelId" }).1
      (by decide) rfl rfl,
   (generateLiveUrl_shapes "https://www.youtube.com" { LiveID := "liveId" }).2.1
      rfl (by decide) rfl,
   ((generateLiveUrl_shapes "https://www.youtube.com" { Handle := "@handle" }).2.2.1
      rfl rfl (by decide)).1 (by decide),
   ((generateLiveUrl_shapes "https://www.youtube.com" {}).2.2.2
      "handle" (by decide) (by decide)).1⟩

/-! ## Channels -/

theorem trySend_cap {α : Type} (ch : Chan α) (v : α) : (trySend ch v).cap = ch.cap := by
  unfold trySend; split_ifs <;> rfl

theorem trySend_closed {α : Type} (ch : Chan α) (v : α) :
    (trySend ch v).closed = ch.closed := by
  unfold trySend; split_ifs <;> rfl

theorem trySend_of_room {α : Type} (ch : Chan α) (v : α) (h : ch.buf.length < ch.cap) :
    (trySend ch v).buf = ch.buf ++ [v] := by
  unfold trySend; rw [if_pos h]

theorem trySend_of_full {α : Type} (ch : Chan α) (v : α) (h : ch.cap ≤ ch.buf.length) :
    trySend ch v = ch := by
  unfold trySend; rw [if_neg (by omega)]

theorem trySend_length_le {α : Type} (ch : Chan α) (v : α) (h : ch.buf.length ≤ ch.cap) :
    (trySend ch v).buf.length ≤ ch.cap := by
  unfold trySend
  split_ifs with hlt
  · simp; omega
  · exact h

theorem recv_length_le {α : Type} (ch : Chan α) (n : Nat) (h : ch.buf.length ≤ n) :
    (recv ch).buf.length ≤ n := by
  unfold recv
  simp only [List.length_tail]
  omega

/-- The item loop queues the longest prefix of the items that fits in the
chat queue and changes nothing else. -/
theorem sendItems_eq (items : List ChatItem) : ∀ lc : LiveChat,
    sendItems lc items =
      { lc with ChatChan := { lc.ChatChan with
          buf := lc.ChatChan.buf ++ items.take (lc.ChatChan.cap - lc.ChatChan.buf.length) } } := by
  induction items with
  | nil => intro lc; simp [sendItems]
  | cons i rest ih =>
    intro lc
    have hstep : sendItems lc (i :: rest)
        = sendItems { lc with ChatChan := trySend lc.ChatChan i } rest := rfl
    rw [hstep, ih]
    by_cases hroom : lc.ChatChan.buf.length < lc.ChatChan.cap
    · have hk : lc.ChatChan.cap - lc.ChatChan.buf.length
          = (lc.ChatChan.cap - (lc.ChatChan.buf.length + 1)) + 1 := by omega
      simp only [trySend, if_pos hroom, List.length_append, List.length_singleton]
      rw [hk, List.take_succ_cons]
      simp
    · have hk : lc.ChatChan.cap - lc.ChatChan.buf.length = 0 := by omega
      simp only [trySend, if_neg hroom, hk, List.take_zero]

/-! ## The invariant of the engine -/

theorem NewLiveChat_inv (id : YoutubeId) (intervalMs : Int) (lc : LiveChat)
    (h : NewLiveChat id intervalMs = (some lc, none)) : lc.Inv := by
  unfold NewLiveChat at h
  by_cases hall : id.ChannelID = "" ∧ id.LiveID = "" ∧ id.Handle = ""
  · rw [if_pos hall] at h
    simp at h
  · rw [if_neg hall] at h
    simp only [Prod.mk.injEq, Option.some.injEq, and_true] at h
    rw [← h]
    split_ifs <;> simp [LiveChat.Inv, makeChan]

theorem emitError_inv (lc : LiveChat) (e : String) (h : lc.Inv) : (emitError lc e).Inv := by
  obtain ⟨⟨c1, c2, c3, c4⟩, ⟨l1, l2, l3, l4⟩, hr⟩ := h
  refine ⟨⟨c1, ?_, c3, c4⟩, ⟨l1, ?_, l3, l4⟩, hr⟩
  · simp only [emitError, trySend_cap]; exact c2
  · have := trySend_length_le lc.ErrorChan e (by rw [c2]; exact l2)
    rw [c2] at this
    exact this

/-! ## The equations of Start, Stop and the poll cycle -/

theorem Start_running {σ : Type} (hook : LivePageHook σ) (s : Engine σ)
    (hrun : s.lc.running = true) : Start hook s = some (false, s) := by
  unfold Start
  rw [if_pos hrun]

theorem Start_err {σ : Type} (hook : LivePageHook σ) (s : Engine σ) (opts : FetchOptions)
    (e : String) (w : σ) (hrun : s.lc.running = false)
    (hhook : hook s.lc.id s.world = ((opts, some e), w)) :
    Start hook s = some (false, { s with lc := emitError s.lc e, world := w }) := by
  unfold Start
  simp [hrun, hhook]

theorem Start_ok {σ : Type} (hook : LivePageHook σ) (s : Engine σ) (opts : FetchOptions)
    (w : σ) (hrun : s.lc.running = false)
    (hhook : hook s.lc.id s.world = ((opts, none), w)) (hpos : 0 < s.lc.interval) :
    Start hook s = some (true,
      { lc := { s.lc with
          liveID := opts.LiveID
          options := some opts
          running := true
          stopChan := makeChan Unit 0
          observer := some { d := s.lc.interval }
          StartChan := trySend s.lc.StartChan opts.LiveID }
        loops := s.loops + 1
        world := w }) := by
  unfold Start
  simp [hrun, hhook, not_le.mpr hpos]

theorem Start_panic {σ : Type} (hook : LivePageHook σ) (s : Engine σ) (opts : FetchOptions)
    (w : σ) (hrun : s.lc.running = false)
    (hhook : hook s.lc.id s.world = ((opts, none), w)) (hneg : s.lc.interval ≤ 0) :
    Start hook s = none := by
  unfold Start
  simp [hrun, hhook, hneg]

theorem Stop_idle {σ : Type} (reason : String) (s : Engine σ) (hrun : s.lc.running = false) :
    Stop reason s = some s := by
  unfold Stop
  simp [hrun]

theorem Stop_running {σ : Type} (reason : String) (s : Engine σ) (hrun : s.lc.running = true)
    (hopen : s.lc.stopChan.closed = false) :
    Stop reason s = some { s with lc := { s.lc with
      running := false
      observer := s.lc.observer.map (fun ticker => { ticker with stopped := true })
      stopChan := { s.lc.stopChan with closed := true }
      EndChan := trySend s.lc.EndChan reason } } := by
  unfold Stop
  cases hobs : s.lc.observer <;> simp [hrun, hopen, hobs]

theorem Stop_panic {σ : Type} (reason : String) (s : Engine σ) (hrun : s.lc.running = true)
    (hclosed : s.lc.stopChan.closed = true) : Stop reason s = none := by
  unfold Stop
  cases hobs : s.lc.observer <;> simp [hrun, hclosed, hobs]

theorem execute_err {σ : Type} (hook : ChatHook σ) (s : Engine σ) (o : FetchOptions)
    (items : List ChatItem) (c e : String) (w : σ) (hopt : s.lc.options = some o)
    (hhook : hook o s.world = ((items, c, some e), w)) :
    execute hook s = some { s with lc := emitError s.lc e, world := w } := by
  unfold execute
  simp [hopt, hhook]

theorem execute_ok {σ : Type} (hook : ChatHook σ) (s : Engine σ) (o : FetchOptions)
    (items : List ChatItem) (c : String) (w : σ) (hopt : s.lc.options = some o)
    (hhook : hook o s.world = ((items, c, none), w)) :
    execute hook s = some { s with
      lc := { s.lc with
        ChatChan := { s.lc.ChatChan with
          buf := s.lc.ChatChan.buf ++ items.take (s.lc.ChatChan.cap - s.lc.ChatChan.buf.length) }
        options := some { o with Continuation := c } }
      world := w } := by
  unfold execute
  simp [hopt, hhook, sendItems_eq]

theorem execute_no_options {σ : Type} (hook : ChatHook σ) (s : Engine σ)
    (hopt : s.lc.options = none) :
    execute hook s
      = Stop "Not found options" { s with lc := emitError s.lc "Not found options" } := by
  unfold execute
  simp [hopt]

/-! ## The invariant is kept -/

theorem Start_inv {σ : Type} (hook : LivePageHook σ) (s : Engine σ) (b : Bool) (s1 : Engine σ)
    (hinv : s.lc.Inv) (h : Start hook s = some (b, s1)) : s1.lc.Inv := by
  cases hrun : s.lc.running with
  | true =>
    rw [Start_running hook s hrun] at h
    simp only [Option.some.injEq, Prod.mk.injEq] at h
    rw [← h.2]; exact hinv
  | false =>
    rcases hres : hook s.lc.id s.world with ⟨⟨opts, err⟩, w⟩
    cases err with
    | some e =>
      rw [Start_err hook s opts e w hrun hres] at h
      simp only [Option.some.injEq, Prod.mk.injEq] at h
      rw [← h.2]
      exact emitError_inv _ _ hinv
    | none =>
      by_cases hpos : 0 < s.lc.interval
      · rw [Start_ok hook s opts w hrun hres hpos] at h
        simp only [Option.some.injEq, Prod.mk.injEq] at h
        rw [← h.2]
        obtain ⟨⟨c1, c2, c3, c4⟩, ⟨l1, l2, l3, l4⟩, _⟩ := hinv
        refine ⟨⟨c1, c2, ?_, c4⟩, ⟨l1, l2, ?_, l4⟩, fun _ => rfl⟩
        · simp only [trySend_cap]; exact c3
        · have := trySend_length_le s.lc.StartChan opts.LiveID (by rw [c3]; exact l3)
          rw [c3] at this
          exact this
      · rw [Start_panic hook s opts w hrun hres (not_lt.mp hpos)] at h
        exact absurd h (by simp)

theorem Stop_inv {σ : Type} (reason : String) (s s1 : Engine σ)
    (hinv : s.lc.Inv) (h : Stop reason s = some s1) : s1.lc.Inv := by
  cases hrun : s.lc.running with
  | false =>
    rw [Stop_idle reason s hrun] at h
    simp only [Option.some.injEq] at h
    rw [← h]; exact hinv
  | true =>
    obtain ⟨⟨c1, c2, c3, c4⟩, ⟨l1, l2, l3, l4⟩, hopen⟩ := hinv
    rw [Stop_running reason s hrun (hopen hrun)] at h
    simp only [Option.some.injEq] at h
    rw [← h]
    refine ⟨⟨c1, c2, c3, ?_⟩, ⟨l1, l2, l3, ?_⟩, fun hr => by simp at hr⟩
    · simp only [trySend_cap]; exact c4
    · have := trySend_length_le s.lc.EndChan reason (by rw [c4]; exact l4)
      rw [c4] at this
      exact this

theorem execute_inv {σ : Type} (hook : ChatHook σ) (s s1 : Engine σ)
    (hinv : s.lc.Inv) (h : execute hook s = some s1) : s1.lc.Inv := by
  cases hopt : s.lc.options with
  | none =>
    rw [execute_no_options hook s hopt] at h
    exact Stop_inv _ _ _ (emitError_inv _ _ hinv) h
  | some o =>
    rcases hres : hook o s.world with ⟨⟨items, c, err⟩, w⟩
    cases err with
    | some e =>
      rw [execute_err hook s o items c e w hopt hres] at h
      simp only [Option.some.injEq] at h
      rw [← h]
      exact emitError_inv _ _ hinv
    | none =>
      rw [execute_ok hook s o items c w hopt hres] at h
      simp only [Option.some.injEq] at h
      rw [← h]
      obtain ⟨⟨c1, c2, c3, c4⟩, ⟨l1, l2, l3, l4⟩, hr⟩ := hinv
      refine ⟨⟨c1, c2, c3, c4⟩, ⟨?_, l2, l3, l4⟩, hr⟩
      simp only [List.length_append, List.length_take]
      omega

/-- Every state of an engine satisfies the invariant. -/
theorem Reachable.inv {σ : Type} {s : Engine σ} (h : Reachable s) : s.lc.Inv := by
  induction h with
  | init id ms lc world hnew => exact NewLiveChat_inv id ms lc hnew
  | start hook s b s1 _ hs ih => exact Start_inv hook s b s1 ih hs
  | stop reason s s1 _ hs ih => exact Stop_inv reason s s1 ih hs
  | tick hook s s1 _ _ hs ih => exact execute_inv hook s s1 ih hs
  | recvChat s _ ih =>
    obtain ⟨⟨c1, c2, c3, c4⟩, ⟨l1, l2, l3, l4⟩, hr⟩ := ih
    exact ⟨⟨c1, c2, c3, c4⟩, ⟨recv_length_le _ _ l1, l2, l3, l4⟩, hr⟩
  | recvError s _ ih =>
    obtain ⟨⟨c1, c2, c3, c4⟩, ⟨l1, l2, l3, l4⟩, hr⟩ := ih
    exact ⟨⟨c1, c2, c3, c4⟩, ⟨l1, recv_length_le _ _ l2, l3, l4⟩, hr⟩
  | recvStart s _ ih =>
    obtain ⟨⟨c1, c2, c3, c4⟩, ⟨l1, l2, l3, l4⟩, hr⟩ := ih
    exact ⟨⟨c1, c2, c3, c4⟩, ⟨l1, l2, recv_length_le _ _ l3, l4⟩, hr⟩
  | recvEnd s _ ih =>
    obtain ⟨⟨c1, c2, c3, c4⟩, ⟨l1, l2, l3, l4⟩, hr⟩ := ih
    exact ⟨⟨c1, c2, c3, c4⟩, ⟨l1, l2, l3, recv_length_le _ _ l4⟩, hr⟩

/-! ## The fixture states are states of the test engine -/

theorem testEngine_reachable : Reachable testEngine :=
  Reachable.init { ChannelID := "channelId" } 100 testLiveChat [] (by decide)

theorem afterFailedStarts_step (n : Nat) :
    Start (locatorErr "ERROR") (afterFailedStarts n) = some (false, afterFailedStarts (n + 1)) := by
  rw [Start_err (locatorErr "ERROR") (afterFailedStarts n) {} "ERROR"
    (List.replicate n "FetchLivePage" ++ ["FetchLivePage"]) rfl rfl]
  by_cases hn : n < 10
  · have h1 : min n 10 = n := by omega
    have h2 : min (n + 1) 10 = n + 1 := by omega
    simp only [afterFailedStarts, emitError, trySend, h1, h2, List.length_replicate, if_pos hn]
    rw [List.replicate_succ' n "ERROR", List.replicate_succ' n "FetchLivePage"]
  · have h1 : min n 10 = 10 := by omega
    have h2 : min (n + 1) 10 = 10 := by omega
    simp only [afterFailedStarts, emitError, trySend, h1, h2, List.length_replicate,
      lt_irrefl, if_false]
    rw [List.replicate_succ' n "FetchLivePage"]

theorem afterFailedStarts_reachable (n : Nat) : Reachable (afterFailedStarts n) := by
  induction n with
  | zero => exact testEngine_reachable
  | succ n ih => exact Reachable.start _ _ _ _ ih (afterFailedStarts_step n)

theorem stoppedEngine_reachable : Reachable stoppedEngine :=
  Reachable.stop "first" _ _
    (Reachable.start (locatorOk "a") testEngine true _ testEngine_reachable rfl)
    (by decide)

theorem runningFullErrors_reachable : Reachable runningFullErrors :=
  Reachable.start (locatorOk "a") (afterFailedStarts 10) true _
    (afterFailedStarts_reachable 10) (by decide)

theorem nearlyFullChat_reachable : Reachable nearlyFullChat := by
  refine Reachable.tick (fetchOk (List.replicate 99 (chatItemOf "old")) "c1")
    runningFullErrors _ runningFullErrors_reachable (by decide) ?_
  rw [execute_ok (fetchOk (List.replicate 99 (chatItemOf "old")) "c1") runningFullErrors
    { ApiKey := "apiKey", ClientVersion := "clientVersion", Continuation := "continuation",
      LiveID := "a" }
    (List.replicate 99 (chatItemOf "old")) "c1"
    (List.replicate 11 "FetchLivePage" ++ ["FetchChat continuation"]) rfl rfl]
  simp [nearlyFullChat, runningFullErrors, testLiveChat, makeChan]

/-! ## Start -/

/-- Claim C12: on a running engine `Start` returns `false` and leaves the
whole state as it is: the record (stored parameters, broadcast id, running
flag, the four queues), the number of launched workers, and the world of the
hooks, so the session locator is not called. -/
theorem Start_running_noop {σ : Type} (hook : LivePageHook σ) (s : Engine σ)
    (hrun : s.lc.running = true) : Start hook s = some (false, s) :=
  Start_running hook s hrun

/-- Claim C12 at the running test engine, with a locator that would log its
call. -/
theorem Start_running_noop_witness :
    runningFullErrors.lc.running = true ∧
    Start (locatorOk "b") runningFullErrors = some (false, runningFullErrors) :=
  ⟨rfl, Start_running_noop (locatorOk "b") runningFullErrors rfl⟩

/-- Claim C13 fails where the error queue is full: after ten failed starts
with no consumer the engine is idle and holds ten errors, and the error of an
eleventh failed start is not queued. -/
theorem Start_error_dropped_when_full :
    Reachable (afterFailedStarts 10) ∧ (afterFailedStarts 10).lc.running = false ∧
    ∃ s1, Start (locatorErr "LATE") (afterFailedStarts 10) = some (false, s1) ∧
      s1.lc.ErrorChan = (afterFailedStarts 10).lc.ErrorChan ∧
      "LATE" ∉ s1.lc.ErrorChan.buf :=
  ⟨afterFailedStarts_reachable 10, rfl, _, rfl, rfl, by decide⟩

/-- Claim C13, amended: on an idle engine whose session locator returns an
error `e`, `Start` returns `false`; the engine stays idle, the stored
parameters, the broadcast id, the start, end and chat queues and the number
of workers are unchanged; `e` is appended to the error queue when that queue
holds fewer than ten errors, and is dropped when it holds ten. -/
theorem Start_locator_error {σ : Type} (hook : LivePageHook σ) (s : Engine σ)
    (opts : FetchOptions) (e : String) (w : σ) (hreach : Reachable s)
    (hrun : s.lc.running = false) (hhook : hook s.lc.id s.world = ((opts, some e), w)) :
    ∃ s1, Start hook s = some (false, s1) ∧
      s1.lc.running = false ∧ s1.lc.options = s.lc.options ∧ s1.lc.liveID = s.lc.liveID ∧
      s1.lc.StartChan = s.lc.StartChan ∧ s1.lc.EndChan = s.lc.EndChan ∧
      s1.lc.ChatChan = s.lc.ChatChan ∧ s1.loops = s.loops ∧ s1.world = w ∧
      (s.lc.ErrorChan.buf.length < 10 → s1.lc.ErrorChan.buf = s.lc.ErrorChan.buf ++ [e]) ∧
      (s.lc.ErrorChan.buf.length = 10 → s1.lc.ErrorChan = s.lc.ErrorChan) := by
  obtain ⟨⟨_, c2, _, _⟩, _, _⟩ := hreach.inv
  refine ⟨_, Start_err hook s opts e w hrun hhook, hrun, rfl, rfl, rfl, rfl, rfl, rfl, rfl,
    ?_, ?_⟩
  · intro hlt
    exact trySend_of_room _ _ (by rw [c2]; exact hlt)
  · intro hfull
    exact trySend_of_full _ _ (by rw [c2, hfull])

/-- Claim C13, amended, at the freshly constructed test engine. -/
theorem Start_locator_error_witness :
    ∃ s1, Start (locatorErr "ERROR") testEngine = some (false, s1) ∧
      s1.lc.running = false ∧ s1.lc.options = none ∧ s1.lc.StartChan.buf = [] ∧
      s1.loops = 0 ∧ s1.lc.ErrorChan.buf = ["ERROR"] := by
  obtain ⟨s1, h0, h1, h2, _, h4, _, _, h7, _, h9, _⟩ :=
    Start_locator_error (locatorErr "ERROR") testEngine {} "ERROR" ["FetchLivePage"]
      testEngine_reachable rfl rfl
  exact ⟨s1, h0, h1, h2, by rw [h4]; rfl, h7, h9 (by decide)⟩

/-- Claim C14 fails where an earlier start event is still pending: after
`Start` for broadcast `a` and `Stop` with no consumer, a `Start` whose locator
returns broadcast `b` succeeds and the start queue still holds `a` alone. -/
theorem Start_event_dropped_when_pending :
    Reachable stoppedEngine ∧ stoppedEngine.lc.running = false ∧
    ∃ s1, Start (locatorOk "b") stoppedEngine = some (true, s1) ∧
      s1.lc.liveID = "b" ∧ s1.lc.StartChan.buf = ["a"] ∧ "b" ∉ s1.lc.StartChan.buf :=
  ⟨stoppedEngine_reachable, rfl, _, rfl, rfl, rfl, by decide⟩

/-- Claim C14, amended: on an idle engine with a positive polling interval, a
`Start` whose session locator returns parameters `p` returns `true`, makes the
engine running, stores exactly `p` and its broadcast id, and launches one
worker; the broadcast id is queued on the start queue when that queue is
empty, and dropped when an earlier start event is still pending. The error,
end and chat queues are unchanged. -/
theorem Start_locator_ok {σ : Type} (hook : LivePageHook σ) (s : Engine σ)
    (p : FetchOptions) (w : σ) (hreach : Reachable s) (hrun : s.lc.running = false)
    (hhook : hook s.lc.id s.world = ((p, none), w)) (hpos : 0 < s.lc.interval) :
    ∃ s1, Start hook s = some (true, s1) ∧
      s1.lc.running = true ∧ s1.lc.options = some p ∧ s1.lc.liveID = p.LiveID ∧
      s1.loops = s.loops + 1 ∧ s1.world = w ∧
      s1.lc.ErrorChan = s.lc.ErrorChan ∧ s1.lc.EndChan = s.lc.EndChan ∧
      s1.lc.ChatChan = s.lc.ChatChan ∧
      (s.lc.StartChan.buf = [] → s1.lc.StartChan.buf = [p.LiveID]) ∧
      (s.lc.StartChan.buf ≠ [] → s1.lc.StartChan = s.lc.StartChan) := by
  obtain ⟨⟨_, _, c3, _⟩, ⟨_, _, l3, _⟩, _⟩ := hreach.inv
  refine ⟨_, Start_ok hook s p w hrun hhook hpos, rfl, rfl, rfl, rfl, rfl, rfl, rfl, rfl,
    ?_, ?_⟩
  · intro hempty
    have := trySend_of_room s.lc.StartChan p.LiveID (by rw [c3, hempty]; decide)
    rw [this, hempty]; rfl
  · intro hne
    refine trySend_of_full _ _ ?_
    rw [c3]
    cases hb : s.lc.StartChan.buf with
    | nil => exact absurd hb hne
    | cons x xs => simp

/-- Claim C14, amended, at the freshly constructed test engine. -/
theorem Start_locator_ok_witness :
    ∃ s1, Start (locatorOk "liveId") testEngine = some (true, s1) ∧
      s1.lc.running = true ∧ s1.lc.liveID = "liveId" ∧ s1.loops = 1 ∧
      s1.lc.StartChan.buf = ["liveId"] := by
  obtain ⟨s1, h0, h1, _, h3, h4, _, _, _, _, h9, _⟩ :=
    Start_locator_ok (locatorOk "liveId") testEngine
      { ApiKey := "apiKey", ClientVersion := "clientVersion", Continuation := "continuation",
        LiveID := "liveId" } ["FetchLivePage"] testEngine_reachable rfl rfl (by decide)
  exact ⟨s1, h0, h1, h3, h4, h9 rfl⟩

/-- An engine constructed with a negative interval: `Start` panics in
`time.NewTicker` once the session locator has returned parameters. -/
theorem Start_panics_negative_interval :
    ∃ lc, NewLiveChat { ChannelID := "channelId" } (-1) = (some lc, none) ∧
      lc.interval = -1000000 ∧
      Start (locatorOk "a") { lc := lc, world := [] } = none :=
  ⟨_, rfl, by decide, by decide⟩

/-- A successful `Start`: the engine was idle, the locator returned
parameters, and the new state runs with an open stop channel and the end
queue it had. -/
theorem Start_true {σ : Type} (hook : LivePageHook σ) (s s1 : Engine σ)
    (h : Start hook s = some (true, s1)) :
    s1.lc.running = true ∧ s1.lc.stopChan.closed = false ∧ s1.lc.EndChan = s.lc.EndChan := by
  cases hrun : s.lc.running with
  | true =>
    rw [Start_running hook s hrun] at h
    simp at h
  | false =>
    rcases hres : hook s.lc.id s.world with ⟨⟨opts, err⟩, w⟩
    cases err with
    | some e =>
      rw [Start_err hook s opts e w hrun hres] at h
      simp at h
    | none =>
      by_cases hpos : 0 < s.lc.interval
      · rw [Start_ok hook s opts w hrun hres hpos] at h
        simp only [Option.some.injEq, Prod.mk.injEq, true_and] at h
        rw [← h]
        exact ⟨rfl, rfl, rfl⟩
      · rw [Start_panic hook s opts w hrun hres (not_lt.mp hpos)] at h
        simp at h

/-! ## Stop -/

/-- Claim C15: on an idle engine `Stop` leaves the whole state as it is, so no
end event is queued; on a running engine `Stop(r1)` makes the engine idle, and
a following `Stop(r2)` leaves the state, pending events included, as
`Stop(r1)` left it. -/
theorem Stop_idempotent {σ : Type} (s : Engine σ) (r1 r2 : String) (hreach : Reachable s) :
    (s.lc.running = false → Stop r1 s = some s) ∧
    (s.lc.running = true →
      ∃ s1, Stop r1 s = some s1 ∧ s1.lc.running = false ∧ Stop r2 s1 = some s1) := by
  refine ⟨Stop_idle r1 s, ?_⟩
  intro hrun
  obtain ⟨_, _, hopen⟩ := hreach.inv
  exact ⟨_, Stop_running r1 s hrun (hopen hrun), rfl, Stop_idle r2 _ rfl⟩

/-- Claim C15 at the stopped and at the running test engine. -/
theorem Stop_idempotent_witness :
    Stop "again" stoppedEngine = some stoppedEngine ∧
    ∃ s1, Stop "first" runningFullErrors = some s1 ∧ s1.lc.running = false ∧
      Stop "second" s1 = some s1 :=
  ⟨(Stop_idempotent stoppedEngine "again" "again" stoppedEngine_reachable).1 rfl,
   (Stop_idempotent runningFullErrors "first" "second" runningFullErrors_reachable).2 rfl⟩

/-- Claim C16 fails where an earlier end event is still pending: after
`Start`, `Stop("first")` with no consumer, a second `Start` succeeds and the
`Stop("second")` that follows leaves the end queue holding `first` alone. -/
theorem Stop_event_dropped_when_pending :
    Reachable stoppedEngine ∧
    ∃ s1 s2, Start (locatorOk "b") stoppedEngine = some (true, s1) ∧
      Stop "second" s1 = some s2 ∧ s2.lc.EndChan.buf = ["first"] ∧
      "second" ∉ s2.lc.EndChan.buf :=
  ⟨stoppedEngine_reachable, _, _, rfl, rfl, rfl, by decide⟩

/-- Claim C16, amended: when `Start` succeeds on an engine, the `Stop(reason)`
that follows makes the engine idle; it queues `reason` on the end queue, which
then holds that one event, when the end queue was empty, and drops it when an
earlier end event is still pending. -/
theorem Stop_after_Start {σ : Type} (hook : LivePageHook σ) (s s1 : Engine σ)
    (reason : String) (hreach : Reachable s) (hstart : Start hook s = some (true, s1)) :
    ∃ s2, Stop reason s1 = some s2 ∧ s2.lc.running = false ∧
      (s.lc.EndChan.buf = [] → s2.lc.EndChan.buf = [reason]) ∧
      (s.lc.EndChan.buf ≠ [] → s2.lc.EndChan = s.lc.EndChan) := by
  obtain ⟨⟨_, _, _, c4⟩, _, _⟩ := hreach.inv
  obtain ⟨hrun, hopen, hend⟩ := Start_true hook s s1 hstart
  refine ⟨_, Stop_running reason s1 hrun hopen, rfl, ?_, ?_⟩
  · intro hempty
    show (trySend s1.lc.EndChan reason).buf = [reason]
    rw [hend, trySend_of_room _ _ (by rw [c4, hempty]; decide), hempty]
    rfl
  · intro hne
    show trySend s1.lc.EndChan reason = s.lc.EndChan
    rw [hend]
    refine trySend_of_full _ _ ?_
    rw [c4]
    cases hb : s.lc.EndChan.buf with
    | nil => exact absurd hb hne
    | cons x xs => simp

/-- Claim C16, amended, at the freshly constructed test engine. -/
theorem Stop_after_Start_witness :
    ∃ s1 s2, Start (locatorOk "liveId") testEngine = some (true, s1) ∧
      Stop "STOP" s1 = some s2 ∧ s2.lc.running = false ∧ s2.lc.EndChan.buf = ["STOP"] := by
  obtain ⟨s2, h0, h1, h2, _⟩ :=
    Stop_after_Start (locatorOk "liveId") testEngine _ "STOP" testEngine_reachable rfl
  exact ⟨_, s2, rfl, h0, h1, h2 rfl⟩

/-! ## The poll cycle -/

/-- Claim C17 fails where the error queue is full: after ten failed starts
and a successful one with no consumer the engine runs and holds ten errors,
and the error of a failed fetch is not queued. -/
theorem execute_error_dropped_when_full :
    Reachable runningFullErrors ∧ runningFullErrors.lc.running = true ∧
    ∃ s1, execute (fetchErr "LATE") runningFullErrors = some s1 ∧
      s1.lc.ErrorChan = runningFullErrors.lc.ErrorChan ∧ "LATE" ∉ s1.lc.ErrorChan.buf :=
  ⟨runningFullErrors_reachable, rfl, _, rfl, rfl, by decide⟩

/-- Claim C17, amended: on a running engine with stored parameters `o`, a poll
cycle whose fetch returns an error `e` leaves the stored parameters, the
continuation token among them, the broadcast id, the running flag, the chat,
start and end queues and the number of workers unchanged; `e` is appended to
the error queue when that queue holds fewer than ten errors, and is dropped
when it holds ten. The next cycle calls the fetcher with `o` again. -/
theorem execute_fetch_error {σ : Type} (hook hook2 : ChatHook σ) (s : Engine σ)
    (o : FetchOptions) (items : List ChatItem) (c e : String) (w : σ)
    (hreach : Reachable s) (hrun : s.lc.running = true) (hopt : s.lc.options = some o)
    (hhook : hook o s.world = ((items, c, some e), w)) :
    ∃ s1, execute hook s = some s1 ∧
      s1.lc.options = some o ∧ s1.lc.running = true ∧ s1.lc.liveID = s.lc.liveID ∧
      s1.lc.ChatChan = s.lc.ChatChan ∧ s1.lc.StartChan = s.lc.StartChan ∧
      s1.lc.EndChan = s.lc.EndChan ∧ s1.loops = s.loops ∧ s1.world = w ∧
      (s.lc.ErrorChan.buf.length < 10 → s1.lc.ErrorChan.buf = s.lc.ErrorChan.buf ++ [e]) ∧
      (s.lc.ErrorChan.buf.length = 10 → s1.lc.ErrorChan = s.lc.ErrorChan) ∧
      (∀ (items2 : List ChatItem) (c2 : String) (w2 : σ),
        hook2 o w = ((items2, c2, none), w2) →
        ∃ s2, execute hook2 s1 = some s2 ∧
          s2.lc.options = some { o with Continuation := c2 } ∧ s2.world = w2) := by
  obtain ⟨⟨_, c2, _, _⟩, _, _⟩ := hreach.inv
  refine ⟨_, execute_err hook s o items c e w hopt hhook, hopt, hrun, rfl, rfl, rfl, rfl, rfl,
    rfl, ?_, ?_, ?_⟩
  · intro hlt
    exact trySend_of_room _ _ (by rw [c2]; exact hlt)
  · intro hfull
    exact trySend_of_full _ _ (by rw [c2, hfull])
  · intro items2 c2 w2 h2
    exact ⟨_, execute_ok hook2 _ o items2 c2 w2 hopt h2, rfl, rfl⟩

/-- Claim C17, amended, at the running test engine with one pending error
removed by a consumer. -/
theorem execute_fetch_error_witness :
    ∃ s1,
      execute (fetchErr "LATE")
        { runningFullErrors with
          lc := { runningFullErrors.lc with ErrorChan := recv runningFullErrors.lc.ErrorChan } }
        = some s1 ∧
      s1.lc.options = runningFullErrors.lc.options ∧ s1.lc.running = true ∧
      s1.lc.ChatChan.buf = [] ∧
      s1.lc.ErrorChan.buf = List.replicate 9 "ERROR" ++ ["LATE"] := by
  obtain ⟨s1, h0, h1, h2, _, h4, _, _, _, _, h9, _⟩ :=
    execute_fetch_error (fetchErr "LATE") (fetchErr "LATE")
      { runningFullErrors with
        lc := { runningFullErrors.lc with ErrorChan := recv runningFullErrors.lc.ErrorChan } }
      { ApiKey := "apiKey", ClientVersion := "clientVersion", Continuation := "continuation",
        LiveID := "a" } [] "" "LATE"
      (List.replicate 11 "FetchLivePage" ++ ["FetchChat continuation"])
      (Reachable.recvError _ runningFullErrors_reachable) rfl rfl rfl
  exact ⟨s1, h0, h1, h2, by rw [h4]; rfl, h9 (by decide)⟩

/-- Claim C18: on a running engine with stored parameters `o`, a poll cycle
whose fetch succeeds with continuation `c` stores `o` with its continuation
replaced by `c`, whatever `c` is: the broadcast id, the API key and the client
version of the stored parameters are those of `o`. The engine stays running,
the error, start and end queues, the broadcast id of the engine and the
number of workers are unchanged. -/
theorem execute_fetch_ok {σ : Type} (hook : ChatHook σ) (s : Engine σ) (o : FetchOptions)
    (items : List ChatItem) (c : String) (w : σ)
    (hrun : s.lc.running = true) (hopt : s.lc.options = some o)
    (hhook : hook o s.world = ((items, c, none), w)) :
    ∃ s1 o1, execute hook s = some s1 ∧ s1.lc.options = some o1 ∧
      o1.Continuation = c ∧ o1.LiveID = o.LiveID ∧ o1.ApiKey = o.ApiKey ∧
      o1.ClientVersion = o.ClientVersion ∧
      s1.lc.running = true ∧ s1.lc.liveID = s.lc.liveID ∧
      s1.lc.ErrorChan = s.lc.ErrorChan ∧ s1.lc.StartChan = s.lc.StartChan ∧
      s1.lc.EndChan = s.lc.EndChan ∧ s1.loops = s.loops ∧ s1.world = w :=
  ⟨_, { o with Continuation := c }, execute_ok hook s o items c w hopt hhook, rfl, rfl, rfl,
    rfl, rfl, hrun, rfl, rfl, rfl, rfl, rfl, rfl⟩

/-- Claim C18 at the running test engine, with the empty continuation. -/
theorem execute_fetch_ok_witness :
    ∃ s1 o1, execute (fetchOk [] "") runningFullErrors = some s1 ∧
      s1.lc.options = some o1 ∧ o1.Continuation = "" ∧ o1.LiveID = "a" ∧
      o1.ApiKey = "apiKey" ∧ o1.ClientVersion = "clientVersion" ∧ s1.lc.running = true := by
  obtain ⟨s1, o1, h0, h1, h2, h3, h4, h5, h6, _⟩ :=
    execute_fetch_ok (fetchOk [] "") runningFullErrors
      { ApiKey := "apiKey", ClientVersion := "clientVersion", Continuation := "continuation",
        LiveID := "a" } [] ""
      (List.replicate 11 "FetchLivePage" ++ ["FetchChat continuation"]) rfl rfl rfl
  exact ⟨s1, o1, h0, h1, h2, h3, h4, h5, h6⟩

/-- Claim C19: in every state of an engine the chat, error, start and end
queues have capacities 100, 10, 1, 1 and hold at most that many pending
events. A send to a queue appends the event when there is room and drops it
when the queue is full. A successful poll cycle producing `items` appends to
the chat queue, in order, the longest prefix of `items` that fits in the
remaining capacity, drops the rest, completes, and stores the new
continuation. -/
theorem queues_bounded_drop_when_full {σ : Type} :
    (∀ s : Engine σ, Reachable s →
      (s.lc.ChatChan.cap = 100 ∧ s.lc.ErrorChan.cap = 10 ∧ s.lc.StartChan.cap = 1 ∧
        s.lc.EndChan.cap = 1) ∧
      (s.lc.ChatChan.buf.length ≤ 100 ∧ s.lc.ErrorChan.buf.length ≤ 10 ∧
        s.lc.StartChan.buf.length ≤ 1 ∧ s.lc.EndChan.buf.length ≤ 1)) ∧
    (∀ (α : Type) (ch : Chan α) (v : α),
      (ch.buf.length < ch.cap → (trySend ch v).buf = ch.buf ++ [v]) ∧
      (ch.cap ≤ ch.buf.length → trySend ch v = ch)) ∧
    (∀ (hook : ChatHook σ) (s : Engine σ) (o : FetchOptions) (items : List ChatItem)
      (c : String) (w : σ),
      Reachable s → s.lc.options = some o → hook o s.world = ((items, c, none), w) →
      ∃ s1, execute hook s = some s1 ∧
        s1.lc.ChatChan.buf
          = s.lc.ChatChan.buf ++ items.take (100 - s.lc.ChatChan.buf.length) ∧
        s1.lc.ChatChan.buf.length = min 100 (s.lc.ChatChan.buf.length + items.length) ∧
        s1.lc.options = some { o with Continuation := c }) := by
  refine ⟨?_, ?_, ?_⟩
  · intro s hs
    exact ⟨hs.inv.1, hs.inv.2.1⟩
  · intro α ch v
    exact ⟨trySend_of_room ch v, trySend_of_full ch v⟩
  · intro hook s o items c w hs hopt hhook
    obtain ⟨⟨c1, _, _, _⟩, ⟨l1, _, _, _⟩, _⟩ := hs.inv
    refine ⟨_, execute_ok hook s o items c w hopt hhook, ?_, ?_, rfl⟩
    · simp only [c1]
    · simp only [c1, List.length_append, List.length_take]
      omega

/-- Claim C19 at the running test engine after a consumer-less cycle that
produced 99 items: of three further items the first is queued and the other
two are dropped. -/
theorem queues_bounded_drop_when_full_witness :
    ∃ s1,
      execute (fetchOk [chatItemOf "x", chatItemOf "y", chatItemOf "z"] "c2") nearlyFullChat
        = some s1 ∧
      s1.lc.ChatChan.buf = List.replicate 99 (chatItemOf "old") ++ [chatItemOf "x"] ∧
      s1.lc.ChatChan.buf.length = 100 ∧
      s1.lc.options = some { ApiKey := "apiKey", ClientVersion := "clientVersion",
                              Continuation := "c2", LiveID := "a" } := by
  obtain ⟨s1, h0, h1, h2, h3⟩ :=
    (queues_bounded_drop_when_full (σ := List String)).2.2
      (fetchOk [chatItemOf "x", chatItemOf "y", chatItemOf "z"] "c2") nearlyFullChat
      { ApiKey := "apiKey", ClientVersion := "clientVersion", Continuation := "c1",
        LiveID := "a" }
      [chatItemOf "x", chatItemOf "y", chatItemOf "z"] "c2"
      (nearlyFullChat.world ++ ["FetchChat c1"]) nearlyFullChat_reachable rfl rfl
  refine ⟨s1, h0, ?_, ?_, h3⟩
  · rw [h1]; simp [nearlyFullChat]
  · rw [h2]; simp [nearlyFullChat]

/-! ## Timestamps -/

theorem digitChar_spec (d : Nat) (h : d < 10) :
    (Char.ofNat (48 + d)).isDigit = true ∧ (Char.ofNat (48 + d)).toNat - 48 = d ∧
      Char.ofNat (48 + d) ≠ '+' ∧ Char.ofNat (48 + d) ≠ '-' := by
  interval_cases d <;> decide

/-- The digits written for a number are decimal digits, and reading them
gives the number back. -/
theorem decimalDigits_spec (fuel : Nat) : ∀ n : Nat, n < 10 ^ (fuel + 1) →
    (∃ c cs, decimalDigits fuel n = c :: cs ∧ c ≠ '+' ∧ c ≠ '-') ∧
    (decimalDigits fuel n).foldl
      (fun acc c => acc.bind fun n =>
        if c.isDigit then some (n * 10 + (c.toNat - 48)) else none) (some 0) = some n := by
  induction fuel with
  | zero =>
    intro n hn
    have hn10 : n < 10 := by simpa using hn
    obtain ⟨h1, h2, h3, h4⟩ := digitChar_spec n hn10
    simp only [decimalDigits, Nat.mod_eq_of_lt hn10]
    exact ⟨⟨_, _, rfl, h3, h4⟩, by simp [h1, h2]⟩
  | succ fuel ih =>
    intro n hn
    by_cases hlt : n < 10
    · obtain ⟨h1, h2, h3, h4⟩ := digitChar_spec n hlt
      simp only [decimalDigits, if_pos hlt]
      exact ⟨⟨_, _, rfl, h3, h4⟩, by simp [h1, h2]⟩
    · have hdiv : n / 10 < 10 ^ (fuel + 1) := by
        rw [Nat.div_lt_iff_lt_mul (by norm_num)]
        calc n < 10 ^ (fuel + 1 + 1) := hn
          _ = 10 ^ (fuel + 1) * 10 := by ring
      obtain ⟨⟨c, cs, hc, hp, hm⟩, hfold⟩ := ih (n / 10) hdiv
      obtain ⟨h1, h2, _, _⟩ := digitChar_spec (n % 10) (Nat.mod_lt _ (by norm_num))
      simp only [decimalDigits, if_neg hlt]
      refine ⟨⟨c, cs ++ [Char.ofNat (48 + n % 10)], by rw [hc]; rfl, hp, hm⟩, ?_⟩
      rw [List.foldl_append, hfold]
      show (if (Char.ofNat (48 + n % 10)).isDigit = true
          then some (n / 10 * 10 + ((Char.ofNat (48 + n % 10)).toNat - 48)) else none) = some n
      rw [if_pos h1, h2]
      congr 1
      omega

/-- The decimal representation of a 64-bit integer is parsed to that
integer. -/
theorem parseInt64_decimalRepr (t : Int) (hlo : -9223372036854775808 ≤ t)
    (hhi : t < 9223372036854775808) : parseInt64 (decimalRepr t) = some t := by
  obtain ⟨m, hm⟩ : ∃ m : Nat, t.natAbs = m := ⟨_, rfl⟩
  have hcase : (0 ≤ t ∧ t = (m : Int)) ∨ (t < 0 ∧ t = -(m : Int)) := by
    rcases Int.natAbs_eq t with h | h
    · left; rw [hm] at h; exact ⟨by rw [h]; exact Int.ofNat_nonneg m, h⟩
    · by_cases h0 : 0 ≤ t
      · left
        rw [hm] at h
        have : (m : Int) = 0 := by omega
        exact ⟨h0, by omega⟩
      · right; rw [hm] at h; exact ⟨by omega, h⟩
  have hmle : m ≤ 9223372036854775808 := by
    rcases hcase with ⟨_, h⟩ | ⟨_, h⟩ <;> omega
  have hn : m < 10 ^ (19 + 1) := by
    calc m ≤ 9223372036854775808 := hmle
      _ < 10 ^ (19 + 1) := by norm_num
  obtain ⟨⟨c, cs, hc, hp, hmi⟩, hfold⟩ := decimalDigits_spec 19 m hn
  have hparse : parseUintDigits (decimalDigits 19 m) = some m := by
    unfold parseUintDigits
    rw [if_neg (by rw [hc]; simp)]
    exact hfold
  have h63 : (2 : Nat) ^ 63 = 9223372036854775808 := by norm_num
  unfold decimalRepr parseInt64
  rw [hm]
  rcases hcase with ⟨h0, h⟩ | ⟨h0, h⟩
  · have hnot : ¬ t < 0 := by omega
    have hlt : ¬ (m ≥ 9223372036854775808) := by omega
    rw [if_neg hnot]
    show (match decimalDigits 19 m with
      | [] => none
      | c :: cs =>
        let neg : Bool := c = '-'
        let ds := if c = '+' ∨ c = '-' then cs else c :: cs
        match parseUintDigits ds with
        | none => none
        | some un =>
          if ¬ neg ∧ un ≥ 2 ^ 63 then none
          else if neg ∧ un > 2 ^ 63 then none
          else some (if neg then -(un : Int) else (un : Int))) = some t
    rw [hc]
    simp only [hp, hmi, or_self, if_false, ← hc, hparse, h63, decide_False,
      Bool.false_eq_true, false_and, not_false_eq_true, true_and, hlt]
    rw [h]
  · have hle : ¬ (m > 9223372036854775808) := by omega
    rw [if_pos h0]
    show (match '-' :: decimalDigits 19 m with
      | [] => none
      | c :: cs =>
        let neg : Bool := c = '-'
        let ds := if c = '+' ∨ c = '-' then cs else c :: cs
        match parseUintDigits ds with
        | none => none
        | some un =>
          if ¬ neg ∧ un ≥ 2 ^ 63 then none
          else if neg ∧ un > 2 ^ 63 then none
          else some (if neg then -(un : Int) else (un : Int))) = some t
    simp only [or_true, if_true, hparse, h63, decide_True, not_true_eq_false, false_and,
      if_false, true_and, hle]
    rw [h]

/-- An integer that `parseInt64` returns is a 64-bit integer. -/
theorem parseInt64_range (s : String) (t : Int) (h : parseInt64 s = some t) :
    -9223372036854775808 ≤ t ∧ t < 9223372036854775808 := by
  have h63 : (2 : Nat) ^ 63 = 9223372036854775808 := by norm_num
  unfold parseInt64 at h
  cases hl : s.toList with
  | nil => rw [hl] at h; simp at h
  | cons c cs =>
    rw [hl] at h
    simp only at h
    cases hp : parseUintDigits (if c = '+' ∨ c = '-' then cs else c :: cs) with
    | none => rw [hp] at h; simp at h
    | some un =>
      rw [hp] at h
      simp only [h63] at h
      by_cases hneg : c = '-'
      · simp only [hneg, decide_True, not_true_eq_false, false_and, if_false, true_and,
          if_true] at h
        by_cases hgt : un > 9223372036854775808
        · rw [if_pos hgt] at h; simp at h
        · rw [if_neg hgt] at h
          simp only [Option.some.injEq] at h
          omega
      · simp only [hneg, decide_False, Bool.false_eq_true, not_false_eq_true, true_and,
          false_and, if_false] at h
        by_cases hge : un ≥ 9223372036854775808
        · rw [if_pos hge] at h; simp at h
        · rw [if_neg hge] at h
          simp only [Option.some.injEq] at h
          omega

/-- The instant of `time.Unix(sec, nsec)` for a nanosecond count of
magnitude below one second, and the range of its nanosecond part. -/
theorem timeUnix_spec (sec nsec : Int) (hlo : -1000000000 < nsec) (hhi : nsec < 1000000000) :
    (timeUnix sec nsec).sec * 1000000000 + (timeUnix sec nsec).nsec
        = sec * 1000000000 + nsec ∧
    0 ≤ (timeUnix sec nsec).nsec ∧ (timeUnix sec nsec).nsec < 1000000000 ∧
    (0 ≤ nsec → timeUnix sec nsec = ⟨sec, nsec⟩) := by
  unfold timeUnix
  by_cases hneg : nsec < 0
  · have hq : Int.tdiv nsec 1000000000 = 0 := by
      have : nsec = -(-nsec) := by omega
      rw [this, Int.neg_tdiv, Int.tdiv_eq_zero_of_lt (by omega) (by omega)]
      rfl
    simp only [hneg, true_or, if_true, hq, add_zero, zero_mul, sub_zero]
    refine ⟨by omega, by omega, by omega, fun h => by omega⟩
  · have hcond : ¬ (nsec < 0 ∨ nsec ≥ 1000000000) := by omega
    rw [if_neg hcond]
    exact ⟨rfl, not_lt.mp hneg, hhi, fun _ => rfl⟩

/-- Go's truncated quotient and remainder by a million. -/
theorem tdiv_tmod_million (t : Int) :
    Int.tmod t 1000000 + 1000000 * Int.tdiv t 1000000 = t ∧
    -1000000 < Int.tmod t 1000000 ∧ Int.tmod t 1000000 < 1000000 ∧
    (0 ≤ t → Int.tdiv t 1000000 = t / 1000000 ∧ Int.tmod t 1000000 = t % 1000000) := by
  have hid := Int.tmod_add_tdiv t 1000000
  by_cases ht : 0 ≤ t
  · have hq : Int.tdiv t 1000000 = t / 1000000 := Int.tdiv_eq_ediv ht (by norm_num)
    have hr : Int.tmod t 1000000 = t % 1000000 := Int.tmod_eq_emod ht (by norm_num)
    refine ⟨hid, ?_, ?_, fun _ => ⟨hq, hr⟩⟩ <;> rw [hr] <;> omega
  · have hq : Int.tdiv t 1000000 = -((-t) / 1000000) := by
      have : t = -(-t) := by omega
      rw [this, Int.neg_tdiv, Int.tdiv_eq_ediv (by omega) (by norm_num)]
      simp
    refine ⟨hid, ?_, ?_, fun h => absurd h ht⟩ <;> omega

theorem foldl_badgeStep_timestamp (badges : List AuthorBadge) : ∀ idx : ChatItem,
    (badges.foldl badgeStep idx).Timestamp = idx.Timestamp := by
  induction badges with
  | nil => intro idx; rfl
  | cons b bs ih =>
    intro idx
    rw [List.foldl_cons, ih]
    unfold badgeStep
    cases hc : b.LiveChatAuthorBadgeRenderer.CustomThumbnail with
    | some th => simp [hc]
    | none =>
      cases hi : b.LiveChatAuthorBadgeRenderer.Icon with
      | none => simp [hc, hi]
      | some t =>
        simp only [hc, hi]
        split_ifs <;> rfl

/-- The timestamp of the item built from a classifiable action. -/
theorem parseActionToChatItem_timestamp (now : Time) (data : Action) (a : AddChatItemAction)
    (base : MessageRendererBase) (ha : data.AddChatItemAction = some a)
    (hb : selectRenderer a.Item = some base) :
    ∃ item, parseActionToChatItem now data = some item ∧
      item.Timestamp =
        match parseInt64 base.TimestampUsec with
        | some ts => timeUnix (Int.tdiv ts 1000000) (Int.tmod ts 1000000 * 1000)
        | none => now := by
  unfold parseActionToChatItem
  simp only [ha, hb]
  refine ⟨_, rfl, ?_⟩
  cases hs : superChatOf a.Item with
  | none =>
    simp only [foldl_badgeStep_timestamp]
  | some sc =>
    simp only [foldl_badgeStep_timestamp]

/-- Claim C20: when `timestampUsec` is parsed to the 64-bit integer `t` (as
the decimal representation of every 64-bit integer is), the timestamp of the
item is `time.Unix(t / 1000000, (t % 1000000) * 1000)` with Go's truncated
quotient and remainder, which is the instant `t` microseconds after the
epoch, with a nanosecond part in `[0, 10^9)`; for `t ≥ 0` the seconds are the
floor of `t / 10^6` and the nanoseconds `(t mod 10^6) * 1000`, a multiple of
1000. -/
theorem timestamp_of_usec (now : Time) (data : Action) (a : AddChatItemAction)
    (base : MessageRendererBase) (t : Int) (ha : data.AddChatItemAction = some a)
    (hb : selectRenderer a.Item = some base)
    (ht : parseInt64 base.TimestampUsec = some t) :
    (∃ item, parseActionToChatItem now data = some item ∧
      item.Timestamp = timeUnix (Int.tdiv t 1000000) (Int.tmod t 1000000 * 1000) ∧
      item.Timestamp.sec * 1000000000 + item.Timestamp.nsec = t * 1000 ∧
      0 ≤ item.Timestamp.nsec ∧ item.Timestamp.nsec < 1000000000 ∧
      (0 ≤ t → item.Timestamp.sec = t / 1000000 ∧
        item.Timestamp.nsec = t % 1000000 * 1000 ∧ 1000 ∣ item.Timestamp.nsec)) ∧
    (-9223372036854775808 ≤ t ∧ t < 9223372036854775808) ∧
    (∀ u : Int, -9223372036854775808 ≤ u → u < 9223372036854775808 →
      parseInt64 (decimalRepr u) = some u) := by
  refine ⟨?_, parseInt64_range _ t ht, parseInt64_decimalRepr⟩
  obtain ⟨item, h0, h1⟩ := parseActionToChatItem_timestamp now data a base ha hb
  rw [ht] at h1
  simp only at h1
  obtain ⟨hid, hlo, hhi, hpos⟩ := tdiv_tmod_million t
  obtain ⟨e1, e2, e3, e4⟩ :=
    timeUnix_spec (Int.tdiv t 1000000) (Int.tmod t 1000000 * 1000) (by omega) (by omega)
  refine ⟨item, h0, h1, ?_, ?_, ?_, ?_⟩
  · rw [h1, e1]; omega
  · rw [h1]; exact e2
  · rw [h1]; exact e3
  · intro h0t
    obtain ⟨hq, hr⟩ := hpos h0t
    have hnn : 0 ≤ Int.tmod t 1000000 * 1000 := by rw [hr]; omega
    rw [h1, e4 hnn]
    exact ⟨hq, by rw [hr], by rw [hr]; exact Dvd.intro_left _ rfl⟩

/-- Claim C20 at `1609459200000000`, which is 2021-01-01T00:00:00Z: 1609459200
seconds and no nanoseconds after the epoch. -/
theorem timestamp_of_usec_witness :
    decimalRepr 1609459200000000 = "1609459200000000" ∧
    ∃ item, parseActionToChatItem ⟨0, 0⟩ { AddChatItemAction := some newYearAdd } = some item ∧
      item.Timestamp = ⟨1609459200, 0⟩ := by
  obtain ⟨⟨item, h0, h1, _⟩, _⟩ :=
    timestamp_of_usec ⟨0, 0⟩ { AddChatItemAction := some newYearAdd } newYearAdd newYearBase
      1609459200000000 rfl rfl (by decide)
  exact ⟨by decide, item, h0, by rw [h1]; decide⟩

/-! ## The item of a classifiable action, field by field -/

theorem badgeStep_custom (idx : ChatItem) (b : AuthorBadge) (h : b.isCustom = true) :
    badgeStep idx b =
      { idx with
        Author := { idx.Author with Badge := some (badgeOfEntry b) }
        IsMembership := true } := by
  unfold AuthorBadge.isCustom at h
  unfold badgeStep badgeOfEntry
  cases hc : b.LiveChatAuthorBadgeRenderer.CustomThumbnail with
  | none => rw [hc] at h; simp at h
  | some th => simp [hc]

theorem badgeStep_icon (idx : ChatItem) (b : AuthorBadge) (h : b.isCustom = false) :
    badgeStep idx b =
      { idx with
        IsOwner := idx.IsOwner || b.hasIcon "OWNER"
        IsVerified := idx.IsVerified || b.hasIcon "VERIFIED"
        IsModerator := idx.IsModerator || b.hasIcon "MODERATOR" } := by
  unfold AuthorBadge.isCustom at h
  unfold badgeStep AuthorBadge.hasIcon
  cases hc : b.LiveChatAuthorBadgeRenderer.CustomThumbnail with
  | some th => rw [hc] at h; simp at h
  | none =>
    cases hi : b.LiveChatAuthorBadgeRenderer.Icon with
    | none => simp [hc, hi]
    | some t =>
      by_cases h1 : t = "OWNER"
      · subst h1; simp [hc, hi]
      · by_cases h2 : t = "VERIFIED"
        · subst h2; simp [hc, hi]
        · by_cases h3 : t = "MODERATOR"
          · subst h3; simp [hc, hi]
          · simp [hc, hi, h1, h2, h3]

/-- The badge loop in closed form: the badge of the last entry with a custom
thumbnail (else the badge there was), and each flag set by some entry. -/
theorem foldl_badgeStep_eq (badges : List AuthorBadge) (idx : ChatItem) :
    badges.foldl badgeStep idx =
      { idx with
        Author := { idx.Author with
          Badge := match lastCustomBadge badges with
            | some badge => some badge
            | none => idx.Author.Badge }
        IsMembership := idx.IsMembership || badges.any AuthorBadge.isCustom
        IsOwner := idx.IsOwner || badges.any (AuthorBadge.hasIcon "OWNER")
        IsVerified := idx.IsVerified || badges.any (AuthorBadge.hasIcon "VERIFIED")
        IsModerator := idx.IsModerator || badges.any (AuthorBadge.hasIcon "MODERATOR") } := by
  induction badges using List.reverseRecOn with
  | nil => simp [lastCustomBadge]
  | append_singleton bs b ih =>
    rw [List.foldl_append, ih]
    simp only [List.foldl_cons, List.foldl_nil]
    cases hb : b.isCustom with
    | true =>
      have hnoicon : ∀ t, b.hasIcon t = false := by
        intro t
        unfold AuthorBadge.isCustom at hb
        unfold AuthorBadge.hasIcon
        cases hc : b.LiveChatAuthorBadgeRenderer.CustomThumbnail with
        | none => rw [hc] at hb; simp at hb
        | some th => simp
      rw [badgeStep_custom _ b hb]
      simp [lastCustomBadge, hb, hnoicon, List.any_append]
    | false =>
      rw [badgeStep_icon _ b hb]
      simp [lastCustomBadge, hb, List.any_append, Bool.or_assoc]

/-- The item of a classifiable action in closed form. -/
theorem parseActionToChatItem_eq (now : Time) (data : Action) (a : AddChatItemAction)
    (base : MessageRendererBase) (ha : data.AddChatItemAction = some a)
    (hb : selectRenderer a.Item = some base) :
    parseActionToChatItem now data = some
      (ChatItem.mk base.ID
        (Author.mk (base.AuthorName.getD "")
          (some (parseThumbnailToImageItem base.AuthorPhoto (base.AuthorName.getD "")))
          base.AuthorExternalChannelId (lastCustomBadge base.AuthorBadges))
        (parseMessages (selectRuns a.Item))
        (superChatOf a.Item)
        (base.AuthorBadges.any AuthorBadge.isCustom)
        (base.AuthorBadges.any (AuthorBadge.hasIcon "VERIFIED"))
        (base.AuthorBadges.any (AuthorBadge.hasIcon "OWNER"))
        (base.AuthorBadges.any (AuthorBadge.hasIcon "MODERATOR"))
        ((parseInt64 base.TimestampUsec).elim now
          (fun ts => timeUnix (Int.tdiv ts 1000000) (Int.tmod ts 1000000 * 1000)))) := by
  unfold parseActionToChatItem
  simp only [ha, hb, foldl_badgeStep_eq]
  cases hn : base.AuthorName <;> cases hs : superChatOf a.Item <;>
    cases hl : lastCustomBadge base.AuthorBadges <;>
    cases ht : parseInt64 base.TimestampUsec <;> simp

/-! ## The clock -/

theorem selectRenderer_withTimestampUsec (ts : String) (a : AddChatItemAction) (flag : Bool) :
    ∃ a2, (withTimestampUsec ts (Action.mk (some a) flag)).AddChatItemAction = some a2 ∧
      selectRenderer a2.Item
        = (selectRenderer a.Item).map (MessageRendererBase.withTimestampUsec ts) ∧
      selectRuns a2.Item = selectRuns a.Item ∧ superChatOf a2.Item = superChatOf a.Item := by
  obtain ⟨⟨t, p, m, s, v⟩, cid⟩ := a
  refine ⟨_, rfl, ?_, ?_, ?_⟩
  · cases t <;> cases p <;> cases s <;> cases m <;> rfl
  · cases t <;> cases p <;> cases m <;> rfl
  · cases s <;> cases p <;> rfl

/-- Claim C21: a classifiable action whose `timestampUsec` is not accepted by
`strconv.ParseInt` (the empty string is not) still yields an item, whose
timestamp is the clock reading of the call; the same action with any other
`timestampUsec`, at any clock reading, yields an item that differs from it in
the timestamp at most: id, author, message parts, flags and SuperChat are the
same. -/
theorem timestamp_fallback_to_clock (now : Time) (data : Action) (a : AddChatItemAction)
    (base : MessageRendererBase) (ha : data.AddChatItemAction = some a)
    (hb : selectRenderer a.Item = some base)
    (hts : parseInt64 base.TimestampUsec = none) :
    parseInt64 "" = none ∧
    ∃ item, parseActionToChatItem now data = some item ∧ item.Timestamp = now ∧
      ∀ (now2 : Time) (ts2 : String),
        ∃ item2, parseActionToChatItem now2 (withTimestampUsec ts2 data) = some item2 ∧
          item = { item2 with Timestamp := now } := by
  refine ⟨rfl, _, parseActionToChatItem_eq now data a base ha hb, ?_, ?_⟩
  · simp [hts]
  · intro now2 ts2
    obtain ⟨a2, h1, h2, h3, h4⟩ :=
      selectRenderer_withTimestampUsec ts2 a data.AddLiveChatTickerItemAction
    have hdata : data = Action.mk (some a) data.AddLiveChatTickerItemAction := by
      cases data; simp only [Action.mk.injEq, and_true]; exact ha
    rw [← hdata] at h1
    rw [hb] at h2
    refine ⟨_, parseActionToChatItem_eq now2 _ a2 _ h1 h2, ?_⟩
    simp [hts, h3, h4, MessageRendererBase.withTimestampUsec]

/-- Claim C21 at a text message without `timestampUsec`, read at second 42. -/
theorem timestamp_fallback_to_clock_witness :
    ∃ item, parseActionToChatItem ⟨42, 0⟩ { AddChatItemAction := some undatedAdd } = some item ∧
      item.Timestamp = ⟨42, 0⟩ ∧
      ∃ item2,
        parseActionToChatItem ⟨7, 0⟩
          (withTimestampUsec "1609459200000000" { AddChatItemAction := some undatedAdd })
          = some item2 ∧
        item = { item2 with Timestamp := ⟨42, 0⟩ } := by
  obtain ⟨_, item, h0, h1, h2⟩ :=
    timestamp_fallback_to_clock ⟨42, 0⟩ { AddChatItemAction := some undatedAdd } undatedAdd
      undatedText.MessageRendererBase rfl rfl (by decide)
  exact ⟨item, h0, h1, h2 ⟨7, 0⟩ "1609459200000000"⟩

/-- Two clock readings give the same item up to its timestamp, and the same
item when the action has a `timestampUsec` that is parsed. -/
theorem parseActionToChatItem_two_clocks (now1 now2 : Time) (data : Action) :
    (parseActionToChatItem now1 data).map eraseTimestamp
      = (parseActionToChatItem now2 data).map eraseTimestamp ∧
    ((∀ a base, data.AddChatItemAction = some a → selectRenderer a.Item = some base →
        parseInt64 base.TimestampUsec ≠ none) →
      parseActionToChatItem now1 data = parseActionToChatItem now2 data) := by
  cases ha : data.AddChatItemAction with
  | none =>
    have h : ∀ now, parseActionToChatItem now data = none := by
      intro now; unfold parseActionToChatItem; rw [ha]
    rw [h now1, h now2]
    exact ⟨rfl, fun _ => rfl⟩
  | some a =>
    cases hb : selectRenderer a.Item with
    | none =>
      have h : ∀ now, parseActionToChatItem now data = none := by
        intro now; unfold parseActionToChatItem; simp only [ha, hb]
      rw [h now1, h now2]
      exact ⟨rfl, fun _ => rfl⟩
    | some base =>
      rw [parseActionToChatItem_eq now1 data a base ha hb,
        parseActionToChatItem_eq now2 data a base ha hb]
      refine ⟨rfl, ?_⟩
      intro hp
      cases ht : parseInt64 base.TimestampUsec with
      | none => exact absurd ht (hp a base rfl hb)
      | some t => rfl

/-- Claim C22 fails at a response with an action that has no `timestampUsec`:
read at two different clock readings it gives two different item lists. -/
theorem ParseChatData_depends_on_clock :
    (ParseChatData (fun _ => ⟨1, 0⟩) undatedResponse).1
      ≠ (ParseChatData (fun _ => ⟨2, 0⟩) undatedResponse).1 ∧
    (ParseChatData (fun _ => ⟨1, 0⟩) undatedResponse).1.map (·.Timestamp) = [⟨1, 0⟩] ∧
    (ParseChatData (fun _ => ⟨2, 0⟩) undatedResponse).1.map (·.Timestamp) = [⟨2, 0⟩] := by
  decide

/-- Claim C22, amended: two invocations of `ParseChatData` on a response, at
any clock readings, return the same continuation and item lists that agree in
everything but the timestamps; when every classifiable action has a
`timestampUsec` that is parsed the two results are identical. -/
theorem ParseChatData_pure_up_to_clock (clock1 clock2 : Nat → Time)
    (data : GetLiveChatResponse) :
    (ParseChatData clock1 data).2 = (ParseChatData clock2 data).2 ∧
    (ParseChatData clock1 data).1.map eraseTimestamp
      = (ParseChatData clock2 data).1.map eraseTimestamp ∧
    (ParseChatData clock1 data).1.length = (ParseChatData clock2 data).1.length ∧
    (allTimestampsParse data.Actions →
      ParseChatData clock1 data = ParseChatData clock2 data) := by
  have hitems : ∀ clock, (ParseChatData clock data).1
      = (data.Actions.enumFrom 0).filterMap
          (fun p => parseActionToChatItem (clock p.1) p.2) := by
    intro clock
    simp [ParseChatData, parseChatLoop_eq]
  have hsnd : (ParseChatData clock1 data).2 = (ParseChatData clock2 data).2 := by
    rw [ParseChatData_snd, ParseChatData_snd]
  have herase : (ParseChatData clock1 data).1.map eraseTimestamp
      = (ParseChatData clock2 data).1.map eraseTimestamp := by
    rw [hitems, hitems, List.map_filterMap, List.map_filterMap]
    apply List.filterMap_congr
    intro p _
    exact (parseActionToChatItem_two_clocks (clock1 p.1) (clock2 p.1) p.2).1
  refine ⟨hsnd, herase, ?_, ?_⟩
  · have := congrArg List.length herase
    simpa using this
  · intro hall
    have h1 : (ParseChatData clock1 data).1 = (ParseChatData clock2 data).1 := by
      rw [hitems, hitems]
      apply List.filterMap_congr
      intro p hp
      have hmem : p.2 ∈ data.Actions := by
        have := List.mem_enumFrom hp
        rw [this.2.2]
        exact List.getElem_mem _
      exact (parseActionToChatItem_two_clocks (clock1 p.1) (clock2 p.1) p.2).2
        (fun a base ha hb => hall p.2 hmem a base ha hb)
    exact Prod.ext h1 hsnd

/-- Claim C22, amended, at a response whose one action has a parsed
`timestampUsec`. -/
theorem ParseChatData_pure_up_to_clock_witness :
    ParseChatData (fun _ => ⟨1, 0⟩) { Actions := [{ AddChatItemAction := some newYearAdd }] }
      = ParseChatData (fun _ => ⟨2, 0⟩)
          { Actions := [{ AddChatItemAction := some newYearAdd }] } :=
  (ParseChatData_pure_up_to_clock (fun _ => ⟨1, 0⟩) (fun _ => ⟨2, 0⟩)
    { Actions := [{ AddChatItemAction := some newYearAdd }] }).2.2.2 (by
      intro action hmem a base ha hb
      simp only [List.mem_singleton] at hmem
      subst hmem
      simp only [Option.some.injEq] at ha
      subst ha
      have : base = newYearBase := by
        have h : selectRenderer newYearAdd.Item = some newYearBase := rfl
        rw [h] at hb
        exact (Option.some.inj hb).symm
      rw [this]
      decide)

/-! ## Message parts -/

theorem parseActionToChatItem_message (now : Time) (data : Action) (a : AddChatItemAction)
    (base : MessageRendererBase) (ha : data.AddChatItemAction = some a)
    (hb : selectRenderer a.Item = some base) :
    (parseActionToChatItem now data).map (·.Message)
      = some (parseMessages (selectRuns a.Item)) := by
  rw [parseActionToChatItem_eq now data a base ha hb]
  rfl

/-- Claim C23: for an action with exactly one renderer populated, the message
parts of the item are `parseMessages` of the `message` runs for a text
message, of the same `message` field for a paid message, of the
`headerSubtext` runs for a membership event, and the empty list for a paid
sticker. -/
theorem message_runs_by_renderer (now : Time) (data : Action) (a : AddChatItemAction)
    (ha : data.AddChatItemAction = some a) :
    (∀ r, a.Item.LiveChatTextMessageRenderer = some r →
      a.Item.LiveChatPaidMessageRenderer = none →
      a.Item.LiveChatMembershipItemRenderer = none →
      a.Item.LiveChatPaidStickerRenderer = none →
      (parseActionToChatItem now data).map (·.Message) = some (parseMessages r.Message)) ∧
    (∀ r, a.Item.LiveChatTextMessageRenderer = none →
      a.Item.LiveChatPaidMessageRenderer = some r →
      a.Item.LiveChatMembershipItemRenderer = none →
      a.Item.LiveChatPaidStickerRenderer = none →
      (parseActionToChatItem now data).map (·.Message)
        = some (parseMessages r.LiveChatTextMessageRenderer.Message)) ∧
    (∀ r, a.Item.LiveChatTextMessageRenderer = none →
      a.Item.LiveChatPaidMessageRenderer = none →
      a.Item.LiveChatMembershipItemRenderer = some r →
      a.Item.LiveChatPaidStickerRenderer = none →
      (parseActionToChatItem now data).map (·.Message)
        = some (parseMessages r.HeaderSubtext)) ∧
    (∀ r, a.Item.LiveChatTextMessageRenderer = none →
      a.Item.LiveChatPaidMessageRenderer = none →
      a.Item.LiveChatMembershipItemRenderer = none →
      a.Item.LiveChatPaidStickerRenderer = some r →
      (parseActionToChatItem now data).map (·.Message) = some []) := by
  refine ⟨?_, ?_, ?_, ?_⟩
  · intro r ht hp hm hs
    have hb : selectRenderer a.Item = some r.MessageRendererBase := by
      simp [selectRenderer, ht]
    rw [parseActionToChatItem_message now data a _ ha hb]
    simp [selectRuns, ht]
  · intro r ht hp hm hs
    have hb : selectRenderer a.Item
        = some r.LiveChatTextMessageRenderer.MessageRendererBase := by
      simp [selectRenderer, ht, hp]
    rw [parseActionToChatItem_message now data a _ ha hb]
    simp [selectRuns, ht, hp, hm]
  · intro r ht hp hm hs
    have hb : selectRenderer a.Item = some r.MessageRendererBase := by
      simp [selectRenderer, ht, hp, hm, hs]
    rw [parseActionToChatItem_message now data a _ ha hb]
    simp [selectRuns, ht, hm]
  · intro r ht hp hm hs
    have hb : selectRenderer a.Item = some r.MessageRendererBase := by
      simp [selectRenderer, ht, hp, hs]
    rw [parseActionToChatItem_message now data a _ ha hb]
    simp [selectRuns, ht, hp, hm, parseMessages]

/-- Claim C23 at a paid sticker and at a text message. -/
theorem message_runs_by_renderer_witness :
    (parseActionToChatItem ⟨0, 0⟩ { AddChatItemAction := some superStickerAdd }).map (·.Message)
      = some [] ∧
    (parseActionToChatItem ⟨0, 0⟩ { AddChatItemAction := some undatedAdd }).map (·.Message)
      = some (parseMessages undatedText.Message) :=
  ⟨(message_runs_by_renderer ⟨0, 0⟩ { AddChatItemAction := some superStickerAdd }
      superStickerAdd rfl).2.2.2 superSticker rfl rfl rfl rfl,
   (message_runs_by_renderer ⟨0, 0⟩ { AddChatItemAction := some undatedAdd }
      undatedAdd rfl).1 undatedText rfl rfl rfl rfl⟩

theorem parseMessages_singleton (run : MessageRun) :
    parseMessages [run] = (messagePartSpec run).toList := by
  simp only [parseMessages, List.foldl_cons, List.foldl_nil, parseMessagesStep, messagePartSpec,
    emojiPartSpec]
  by_cases ht : run.Text = ""
  · cases he : run.Emoji with
    | none => simp [ht]
    | some emoji =>
      cases hs : emoji.Shortcuts <;> cases hth : emoji.Image.Thumbnails <;>
        simp [ht, hs, hth]
  · simp [ht]

theorem parseMessages_eq_filterMap (runs : List MessageRun) :
    parseMessages runs = runs.filterMap messagePartSpec := by
  induction runs with
  | nil => rfl
  | cons r rs ih =>
    rw [← List.singleton_append, parseMessages_append, ih, parseMessages_singleton]
    cases h : messagePartSpec r <;> simp [List.filterMap_cons, h]

theorem filterMap_getElem?_of_isSome {α β : Type} (f : α → Option β) (l : List α)
    (h : ∀ x ∈ l, f x ≠ none) :
    (l.filterMap f).length = l.length ∧ ∀ i : Nat, (l.filterMap f)[i]? = l[i]?.bind f := by
  induction l with
  | nil => simp
  | cons x xs ih =>
    have hx := h x (List.mem_cons_self _ _)
    have ih2 := ih (fun y hy => h y (List.mem_cons_of_mem _ hy))
    cases hfx : f x with
    | none => exact absurd hfx hx
    | some y =>
      rw [List.filterMap_cons_some hfx]
      refine ⟨by simp [ih2.1], ?_⟩
      intro i
      cases i with
      | zero => simp [hfx]
      | succ j => simpa using ih2.2 j

/-- Claim C24: `parseMessages` keeps the order of the runs and makes of each
run at most one part of one variant: a text part, without emoji, for a run
with non-empty text; an emoji part, with empty text, for a run with empty text
and an emoji reference; nothing for a run with neither. When every run has
text or an emoji reference, the output is as long as the input and its i-th
part is the part of the i-th run. -/
theorem parseMessages_in_order (runs : List MessageRun) :
    parseMessages runs = runs.filterMap messagePartSpec ∧
    (∀ run : MessageRun, run.Text ≠ "" →
      messagePartSpec run = some { Text := run.Text, EmojiItem := none }) ∧
    (∀ (run : MessageRun) (emoji : MessageEmoji), run.Text = "" → run.Emoji = some emoji →
      ∃ part : EmojiItem,
        messagePartSpec run = some { Text := "", EmojiItem := some part }) ∧
    (∀ run : MessageRun, run.Text = "" → run.Emoji = none → messagePartSpec run = none) ∧
    (∀ part ∈ parseMessages runs,
      (part.Text ≠ "" ∧ part.EmojiItem = none) ∨ (part.Text = "" ∧ part.EmojiItem ≠ none)) ∧
    ((∀ run ∈ runs, run.Text ≠ "" ∨ run.Emoji ≠ none) →
      (parseMessages runs).length = runs.length ∧
      ∀ i : Nat, (parseMessages runs)[i]? = runs[i]?.bind messagePartSpec) := by
  have h1 : ∀ run : MessageRun, run.Text ≠ "" →
      messagePartSpec run = some { Text := run.Text, EmojiItem := none } := by
    intro run ht
    simp [messagePartSpec, ht]
  have h2 : ∀ (run : MessageRun) (emoji : MessageEmoji), run.Text = "" →
      run.Emoji = some emoji →
      ∃ part : EmojiItem,
        messagePartSpec run = some { Text := "", EmojiItem := some part } := by
    intro run emoji ht he
    exact ⟨emojiPartSpec emoji, by simp [messagePartSpec, ht, he]⟩
  have h3 : ∀ run : MessageRun, run.Text = "" → run.Emoji = none →
      messagePartSpec run = none := by
    intro run ht he
    simp [messagePartSpec, ht, he]
  refine ⟨parseMessages_eq_filterMap runs, h1, h2, h3, ?_, ?_⟩
  · intro part hpart
    rw [parseMessages_eq_filterMap, List.mem_filterMap] at hpart
    obtain ⟨run, _, hrun⟩ := hpart
    by_cases ht : run.Text = ""
    · cases he : run.Emoji with
      | none => rw [h3 run ht he] at hrun; exact absurd hrun (by simp)
      | some emoji =>
        obtain ⟨p, hp⟩ := h2 run emoji ht he
        rw [hp] at hrun
        have := Option.some.inj hrun
        subst this
        exact Or.inr ⟨rfl, by simp⟩
    · rw [h1 run ht] at hrun
      have := Option.some.inj hrun
      subst this
      exact Or.inl ⟨ht, rfl⟩
  · intro hall
    rw [parseMessages_eq_filterMap]
    apply filterMap_getElem?_of_isSome
    intro run hrun
    rcases hall run hrun with ht | he
    · rw [h1 run ht]; simp
    · by_cases ht : run.Text = ""
      · cases hem : run.Emoji with
        | none => exact absurd hem he
        | some emoji =>
          obtain ⟨p, hp⟩ := h2 run emoji ht hem
          rw [hp]; simp
      · rw [h1 run ht]; simp

/-- Claim C24 at a text run followed by two emoji runs. -/
theorem parseMessages_in_order_witness :
    (parseMessages
        [{ Text := "Hello" }, { Emoji := some customEmoji }, { Emoji := some globalEmoji }]).length
      = 3 ∧
    (parseMessages
        [{ Text := "Hello" }, { Emoji := some customEmoji }, { Emoji := some globalEmoji }])[1]?
      = messagePartSpec { Emoji := some customEmoji } := by
  have h := (parseMessages_in_order
    [{ Text := "Hello" }, { Emoji := some customEmoji }, { Emoji := some globalEmoji }]).2.2.2.2.2
    (by decide)
  exact ⟨h.1, h.2 1⟩

/-! ## Thumbnails and badges -/

/-- Claim C25: the author thumbnail of an item is the last entry of the
author photo list, with the author name as alt text, the thumbnail of an emoji
part is the first entry of the thumbnail list of the emoji, and the channel id
of the author is copied as it is. -/
theorem thumbnail_last_for_author_first_for_emoji :
    (∀ (now : Time) (data : Action) (a : AddChatItemAction) (base : MessageRendererBase),
      data.AddChatItemAction = some a → selectRenderer a.Item = some base →
      (parseActionToChatItem now data).map (·.Author.ChannelID)
        = some base.AuthorExternalChannelId ∧
      ∀ (init : List Thumbnail) (last : Thumbnail), base.AuthorPhoto = init ++ [last] →
        (parseActionToChatItem now data).map (·.Author.Thumbnail)
          = some (some { URL := last.URL, Alt := base.AuthorName.getD "" })) ∧
    (∀ (pre post : List MessageRun) (run : MessageRun) (emoji : MessageEmoji)
      (first : Thumbnail) (rest : List Thumbnail),
      run.Text = "" → run.Emoji = some emoji → emoji.Image.Thumbnails = first :: rest →
      ∃ part : EmojiItem,
        parseMessages (pre ++ run :: post)
          = parseMessages pre ++ { Text := "", EmojiItem := some part } :: parseMessages post ∧
        part.ImageItem.URL = first.URL) := by
  constructor
  · intro now data a base ha hb
    rw [parseActionToChatItem_eq now data a base ha hb]
    refine ⟨rfl, ?_⟩
    intro init last hphoto
    rw [parseThumbnailToImageItem_eq, hphoto]
    simp
  · intro pre post run emoji first rest ht he hth
    refine ⟨emojiPartSpec emoji, ?_, ?_⟩
    · rw [parseMessages_append, ← List.singleton_append, parseMessages_append,
        parseMessages_singleton]
      simp [messagePartSpec, ht, he]
    · simp [emojiPartSpec, hth]

/-- Claim C25 at an author with a photo in two sizes who sends an emoji served
in two sizes. -/
theorem thumbnail_last_for_author_first_for_emoji_witness :
    (parseActionToChatItem ⟨0, 0⟩ { AddChatItemAction := some twoPhotoAdd }).map
        (·.Author.Thumbnail)
      = some (some { URL := "photo-large.jpg", Alt := "authorName" }) ∧
    (∃ part : EmojiItem,
      parseMessages ([] ++ { Emoji := some twoSizeEmoji } :: [])
        = parseMessages [] ++ { Text := "", EmojiItem := some part } :: parseMessages [] ∧
      part.ImageItem.URL = "emoji-small.png") :=
  ⟨(thumbnail_last_for_author_first_for_emoji.1 ⟨0, 0⟩ { AddChatItemAction := some twoPhotoAdd }
      twoPhotoAdd twoPhotoText.MessageRendererBase rfl rfl).2
        [{ URL := "photo-small.jpg" }] { URL := "photo-large.jpg" } rfl,
   thumbnail_last_for_author_first_for_emoji.2 [] [] { Emoji := some twoSizeEmoji }
      twoSizeEmoji { URL := "emoji-small.png" } [{ URL := "emoji-large.png" }] rfl rfl rfl⟩

theorem lastCustomBadge_isSome (badges : List AuthorBadge) :
    (lastCustomBadge badges).isSome = badges.any AuthorBadge.isCustom := by
  unfold lastCustomBadge
  rw [Bool.eq_iff_iff]
  simp [List.any_eq_true]

theorem lastCustomBadge_split (pre post : List AuthorBadge) (b : AuthorBadge)
    (hb : b.isCustom = true) (hpost : ∀ c ∈ post, c.isCustom = false) :
    lastCustomBadge (pre ++ b :: post) = some (badgeOfEntry b) := by
  unfold lastCustomBadge
  rw [List.reverse_append, List.reverse_cons, List.append_assoc, List.find?_append]
  have h1 : List.find? AuthorBadge.isCustom post.reverse = none := by
    rw [List.find?_eq_none]
    intro c hc
    rw [hpost c (List.mem_reverse.mp hc)]
    simp
  rw [h1]
  simp [List.find?_cons, hb]

theorem lastCustomBadge_filter (badges : List AuthorBadge) :
    lastCustomBadge (badges.filter AuthorBadge.isCustom) = lastCustomBadge badges := by
  unfold lastCustomBadge
  rw [← List.filter_reverse]
  congr 1
  induction badges.reverse with
  | nil => rfl
  | cons x xs ih =>
    cases hx : x.isCustom
    · rw [List.filter_cons_of_neg (by simp [hx]), List.find?_cons_of_neg _ (by simp [hx])]
      exact ih
    · rw [List.filter_cons_of_pos hx, List.find?_cons_of_pos _ hx, List.find?_cons_of_pos _ hx]

/-- Claim C26: the item of a classifiable action has an author badge exactly
when it is flagged as a membership, which is exactly when some badge of the
author has a custom thumbnail. The badge is made of the last badge with a
custom thumbnail: its label is the tooltip of that badge and its thumbnail the
last entry of the custom thumbnail list of that badge. A badge without custom
thumbnail leaves the author, the author badge included, and the membership
flag as they are, so the author badge is that of the list without such
badges. -/
theorem author_badge_of_last_custom (now : Time) (data : Action) (a : AddChatItemAction)
    (base : MessageRendererBase) (ha : data.AddChatItemAction = some a)
    (hb : selectRenderer a.Item = some base) :
    ∃ item, parseActionToChatItem now data = some item ∧
      (item.Author.Badge ≠ none ↔ item.IsMembership = true) ∧
      (item.IsMembership = true ↔
        ∃ b ∈ base.AuthorBadges, b.LiveChatAuthorBadgeRenderer.CustomThumbnail ≠ none) ∧
      (∀ (pre post : List AuthorBadge) (b : AuthorBadge) (thumbs : List Thumbnail),
        base.AuthorBadges = pre ++ b :: post →
        b.LiveChatAuthorBadgeRenderer.CustomThumbnail = some thumbs →
        (∀ c ∈ post, c.LiveChatAuthorBadgeRenderer.CustomThumbnail = none) →
        item.Author.Badge = some
          { Thumbnail :=
              { URL := (thumbs.getLast?.map (·.URL)).getD ""
                Alt := if thumbs = [] then "" else b.LiveChatAuthorBadgeRenderer.Tooltip }
            Label := b.LiveChatAuthorBadgeRenderer.Tooltip }) ∧
      (∀ (idx : ChatItem) (b : AuthorBadge),
        b.LiveChatAuthorBadgeRenderer.CustomThumbnail = none →
        (badgeStep idx b).Author = idx.Author ∧
          (badgeStep idx b).IsMembership = idx.IsMembership) ∧
      item.Author.Badge = lastCustomBadge (base.AuthorBadges.filter AuthorBadge.isCustom) := by
  refine ⟨_, parseActionToChatItem_eq now data a base ha hb, ?_, ?_, ?_, ?_, ?_⟩
  · show lastCustomBadge base.AuthorBadges ≠ none ↔
      base.AuthorBadges.any AuthorBadge.isCustom = true
    rw [← lastCustomBadge_isSome, Option.isSome_iff_ne_none]
  · exact any_isCustom_iff base.AuthorBadges
  · intro pre post b thumbs hsplit hthumbs hpost
    show lastCustomBadge base.AuthorBadges = _
    rw [hsplit, lastCustomBadge_split pre post b (by simp [AuthorBadge.isCustom, hthumbs])
      (fun c hc => by simp [AuthorBadge.isCustom, hpost c hc])]
    simp [badgeOfEntry, hthumbs, parseThumbnailToImageItem_eq]
  · intro idx b hnone
    rw [badgeStep_icon idx b (by simp [AuthorBadge.isCustom, hnone])]
    exact ⟨rfl, rfl⟩
  · exact (lastCustomBadge_filter base.AuthorBadges).symm

/-- Claim C26 at an author with two custom badges and two icon badges: the
author badge is made of the second custom badge and of the last of its two
thumbnails. -/
theorem author_badge_of_last_custom_witness :
    ∃ item, parseActionToChatItem ⟨0, 0⟩ { AddChatItemAction := some twoTierAdd } = some item ∧
      item.IsMembership = true ∧
      item.Author.Badge = some
        { Thumbnail := { URL := "half-year-32.png", Alt := "Member (6 months)" }
          Label := "Member (6 months)" } := by
  obtain ⟨item, h0, _, h2, h3, _, _⟩ :=
    author_badge_of_last_custom ⟨0, 0⟩ { AddChatItemAction := some twoTierAdd } twoTierAdd
      twoTierBase rfl rfl
  refine ⟨item, h0, h2.mpr ⟨_, List.mem_cons_self _ _, by decide⟩, ?_⟩
  exact h3 (twoTierBadges.take 2) (twoTierBadges.drop 3)
    { LiveChatAuthorBadgeRenderer :=
        { CustomThumbnail := some [{ URL := "half-year-16.png" }, { URL := "half-year-32.png" }],
          Tooltip := "Member (6 months)" } }
    [{ URL := "half-year-16.png" }, { URL := "half-year-32.png" }] rfl rfl (by decide)

/-! ## Priorities of the three selections -/

/-- Claim C30: the shared base fields are those of the first populated one of
text message, paid message, paid sticker, membership event; the message runs
those of the first populated one of text message, membership event, paid
message; the SuperChat that of the first populated one of paid sticker, paid
message. So the item of an action that populates the text message and the paid
sticker renderer has the id, author, timestamp and message parts of the text
message and the SuperChat amount, colour and sticker of the paid sticker. -/
theorem selection_priorities_differ (item : ActionItem) :
    (∀ r, item.LiveChatTextMessageRenderer = some r →
      selectRenderer item = some r.MessageRendererBase ∧ selectRuns item = r.Message) ∧
    (∀ r, item.LiveChatTextMessageRenderer = none →
      item.LiveChatPaidMessageRenderer = some r →
      selectRenderer item = some r.LiveChatTextMessageRenderer.MessageRendererBase) ∧
    (∀ r, item.LiveChatTextMessageRenderer = none →
      item.LiveChatPaidMessageRenderer = none →
      item.LiveChatPaidStickerRenderer = some r →
      selectRenderer item = some r.MessageRendererBase) ∧
    (∀ r, item.LiveChatTextMessageRenderer = none →
      item.LiveChatPaidMessageRenderer = none →
      item.LiveChatPaidStickerRenderer = none →
      item.LiveChatMembershipItemRenderer = some r →
      selectRenderer item = some r.MessageRendererBase) ∧
    (∀ r, item.LiveChatTextMessageRenderer = none →
      item.LiveChatMembershipItemRenderer = some r →
      selectRuns item = r.HeaderSubtext) ∧
    (∀ r, item.LiveChatTextMessageRenderer = none →
      item.LiveChatMembershipItemRenderer = none →
      item.LiveChatPaidMessageRenderer = some r →
      selectRuns item = r.LiveChatTextMessageRenderer.Message) ∧
    (item.LiveChatTextMessageRenderer = none →
      item.LiveChatMembershipItemRenderer = none →
      item.LiveChatPaidMessageRenderer = none → selectRuns item = []) ∧
    (∀ r, item.LiveChatPaidStickerRenderer = some r →
      superChatOf item = some
        { Amount := r.PurchaseAmountText
          Color := convertColorToHex6 r.BackgroundColor
          Sticker := some (parseThumbnailToImageItem r.Sticker.Thumbnails r.Sticker.Label) }) ∧
    (∀ r, item.LiveChatPaidStickerRenderer = none →
      item.LiveChatPaidMessageRenderer = some r →
      superChatOf item = some
        { Amount := r.PurchaseAmountText
          Color := convertColorToHex6 r.BodyBackgroundColor
          Sticker := none }) ∧
    (item.LiveChatPaidStickerRenderer = none →
      item.LiveChatPaidMessageRenderer = none → superChatOf item = none) ∧
    (∀ (now : Time) (data : Action) (a : AddChatItemAction) (t : LiveChatTextMessageRenderer)
      (s : LiveChatPaidStickerRenderer),
      data.AddChatItemAction = some a → a.Item = item →
      item.LiveChatTextMessageRenderer = some t →
      item.LiveChatPaidStickerRenderer = some s →
      ∃ out, parseActionToChatItem now data = some out ∧
        out.ID = t.MessageRendererBase.ID ∧
        out.Author.Name = t.MessageRendererBase.AuthorName.getD "" ∧
        out.Author.ChannelID = t.MessageRendererBase.AuthorExternalChannelId ∧
        out.Author.Thumbnail = some (parseThumbnailToImageItem t.MessageRendererBase.AuthorPhoto
          (t.MessageRendererBase.AuthorName.getD "")) ∧
        out.Timestamp = (parseInt64 t.MessageRendererBase.TimestampUsec).elim now
          (fun ts => timeUnix (Int.tdiv ts 1000000) (Int.tmod ts 1000000 * 1000)) ∧
        out.Message = parseMessages t.Message ∧
        out.SuperChat = some
          { Amount := s.PurchaseAmountText
            Color := convertColorToHex6 s.BackgroundColor
            Sticker := some (parseThumbnailToImageItem s.Sticker.Thumbnails s.Sticker.Label) })
    := by
  have hT : ∀ r, item.LiveChatTextMessageRenderer = some r →
      selectRenderer item = some r.MessageRendererBase ∧ selectRuns item = r.Message := by
    intro r h; simp [selectRenderer, selectRuns, h]
  have hS : ∀ r, item.LiveChatPaidStickerRenderer = some r →
      superChatOf item = some
        { Amount := r.PurchaseAmountText
          Color := convertColorToHex6 r.BackgroundColor
          Sticker := some (parseThumbnailToImageItem r.Sticker.Thumbnails r.Sticker.Label) } := by
    intro r h; simp [superChatOf, h]
  refine ⟨hT, ?_, ?_, ?_, ?_, ?_, ?_, hS, ?_, ?_, ?_⟩
  · intro r h1 h2; simp [selectRenderer, h1, h2]
  · intro r h1 h2 h3; simp [selectRenderer, h1, h2, h3]
  · intro r h1 h2 h3 h4; simp [selectRenderer, h1, h2, h3, h4]
  · intro r h1 h2; simp [selectRuns, h1, h2]
  · intro r h1 h2 h3; simp [selectRuns, h1, h2, h3]
  · intro h1 h2 h3; simp [selectRuns, h1, h2, h3]
  · intro r h1 h2; simp [superChatOf, h1, h2]
  · intro h1 h2; simp [superChatOf, h1, h2]
  · intro now data a t s ha hitem ht hs
    subst hitem
    refine ⟨_, parseActionToChatItem_eq now data a _ ha (hT t ht).1, rfl, rfl, rfl, rfl, rfl,
      ?_, ?_⟩
    · show parseMessages (selectRuns a.Item) = _
      rw [(hT t ht).2]
    · exact hS s hs

/-- Claim C30 at an action that populates a text message and a paid
sticker. -/
theorem selection_priorities_differ_witness :
    ∃ out, parseActionToChatItem ⟨0, 0⟩ { AddChatItemAction := some textAndStickerAdd }
        = some out ∧
      out.ID = "text-id" ∧ out.Author.Name = "textAuthor" ∧
      out.Author.ChannelID = "textChannel" ∧
      out.Timestamp = ⟨1609459200, 0⟩ ∧
      out.Message = [{ Text := "Hello, World!" }] ∧
      out.SuperChat = some
        { Amount := "￥90", Color := "#FFCA28",
          Sticker := some { URL := "large", Alt := "sticker" } } := by
  obtain ⟨out, h0, h1, h2, h3, _, h5, h6, h7⟩ :=
    (selection_priorities_differ textAndStickerAdd.Item).2.2.2.2.2.2.2.2.2.2 ⟨0, 0⟩
      { AddChatItemAction := some textAndStickerAdd } textAndStickerAdd helloText superSticker
      rfl rfl rfl rfl
  refine ⟨out, h0, h1, h2, h3, ?_, ?_, ?_⟩
  · rw [h5]; decide
  · rw [h6]; decide
  · rw [h7]; decide

/-! ## What the constructor stores -/

theorem NewLiveChat_some (id : YoutubeId) (intervalMs : Int) (lc : LiveChat)
    (h : NewLiveChat id intervalMs = (some lc, none)) :
    ¬ (id.ChannelID = "" ∧ id.LiveID = "" ∧ id.Handle = "") ∧ lc.id = id ∧
    lc.options = none ∧ lc.running = false ∧
    lc.interval = (if wrapInt64 (intervalMs * Millisecond) = 0 then 1000 * Millisecond
      else wrapInt64 (intervalMs * Millisecond)) := by
  unfold NewLiveChat at h
  by_cases hall : id.ChannelID = "" ∧ id.LiveID = "" ∧ id.Handle = ""
  · rw [if_pos hall] at h
    simp at h
  · rw [if_neg hall] at h
    simp only [Prod.mk.injEq, Option.some.injEq, and_true] at h
    rw [← h]
    refine ⟨hall, ?_, ?_, ?_, ?_⟩ <;> split_ifs <;> rfl

theorem wrapInt64_of_fits (x : Int) (hlo : -9223372036854775808 ≤ x)
    (hhi : x ≤ 9223372036854775807) : wrapInt64 x = x := by
  unfold wrapInt64
  have h63 : (2 : Int) ^ 63 = 9223372036854775808 := by norm_num
  have h64 : (2 : Int) ^ 64 = 18446744073709551616 := by norm_num
  rw [h63, h64]
  omega

theorem Start_fields {σ : Type} (hook : LivePageHook σ) (s : Engine σ) (b : Bool)
    (s1 : Engine σ) (h : Start hook s = some (b, s1)) :
    s1.lc.id = s.lc.id ∧
    ((s1.lc.options = s.lc.options ∧ s1.lc.running = s.lc.running ∧ s1.loops = s.loops) ∨
      s1.lc.options ≠ none) := by
  cases hrun : s.lc.running with
  | true =>
    rw [Start_running hook s hrun] at h
    simp only [Option.some.injEq, Prod.mk.injEq] at h
    rw [← h.2]
    exact ⟨rfl, Or.inl ⟨rfl, hrun, rfl⟩⟩
  | false =>
    rcases hres : hook s.lc.id s.world with ⟨⟨opts, err⟩, w⟩
    cases err with
    | some e =>
      rw [Start_err hook s opts e w hrun hres] at h
      simp only [Option.some.injEq, Prod.mk.injEq] at h
      rw [← h.2]
      exact ⟨rfl, Or.inl ⟨rfl, hrun, rfl⟩⟩
    | none =>
      by_cases hpos : 0 < s.lc.interval
      · rw [Start_ok hook s opts w hrun hres hpos] at h
        simp only [Option.some.injEq, Prod.mk.injEq] at h
        rw [← h.2]
        exact ⟨rfl, Or.inr (by simp)⟩
      · rw [Start_panic hook s opts w hrun hres (by omega)] at h
        simp at h

theorem Stop_fields {σ : Type} (reason : String) (s s1 : Engine σ)
    (h : Stop reason s = some s1) :
    s1.lc.id = s.lc.id ∧ s1.lc.options = s.lc.options ∧ s1.loops = s.loops ∧
    (s1.lc.running = true → s.lc.running = true) := by
  cases hrun : s.lc.running with
  | false =>
    rw [Stop_idle reason s hrun] at h
    simp only [Option.some.injEq] at h
    rw [← h]
    exact ⟨rfl, rfl, rfl, fun hr => by rw [hrun] at hr; exact hr⟩
  | true =>
    cases hclosed : s.lc.stopChan.closed with
    | true =>
      rw [Stop_panic reason s hrun hclosed] at h
      simp at h
    | false =>
      rw [Stop_running reason s hrun hclosed] at h
      simp only [Option.some.injEq] at h
      rw [← h]
      exact ⟨rfl, rfl, rfl, fun _ => rfl⟩

theorem execute_fields {σ : Type} (hook : ChatHook σ) (s s1 : Engine σ)
    (h : execute hook s = some s1) :
    s1.lc.id = s.lc.id ∧ s1.loops = s.loops ∧ (s1.lc.running = true → s.lc.running = true) ∧
    (s.lc.options ≠ none → s1.lc.options ≠ none) := by
  cases hopt : s.lc.options with
  | none =>
    rw [execute_no_options hook s hopt] at h
    obtain ⟨h1, _, h3, h4⟩ := Stop_fields _ _ _ h
    exact ⟨h1, h3, h4, fun hne => absurd rfl hne⟩
  | some o =>
    rcases hres : hook o s.world with ⟨⟨items, c, err⟩, w⟩
    cases err with
    | some e =>
      rw [execute_err hook s o items c e w hopt hres] at h
      simp only [Option.some.injEq] at h
      rw [← h]
      exact ⟨rfl, rfl, fun hr => hr, fun _ => by simp [emitError, hopt]⟩
    | none =>
      rw [execute_ok hook s o items c w hopt hres] at h
      simp only [Option.some.injEq] at h
      rw [← h]
      exact ⟨rfl, rfl, fun hr => hr, fun _ => by simp⟩

/-- A state of an engine holds an identifier with a populated field, and has
session parameters when it runs or has launched a worker. -/
theorem Reachable.session {σ : Type} {s : Engine σ} (h : Reachable s) :
    (s.lc.id.ChannelID ≠ "" ∨ s.lc.id.LiveID ≠ "" ∨ s.lc.id.Handle ≠ "") ∧
    (s.lc.running = true → s.lc.options ≠ none) ∧ (0 < s.loops → s.lc.options ≠ none) := by
  induction h with
  | init id ms lc world hnew =>
    obtain ⟨hne, hid, _, hrun, _⟩ := NewLiveChat_some id ms lc hnew
    refine ⟨?_, ?_, ?_⟩
    · show lc.id.ChannelID ≠ "" ∨ lc.id.LiveID ≠ "" ∨ lc.id.Handle ≠ ""
      rw [hid]
      by_cases h1 : id.ChannelID = ""
      · by_cases h2 : id.LiveID = ""
        · exact Or.inr (Or.inr (fun h3 => hne ⟨h1, h2, h3⟩))
        · exact Or.inr (Or.inl h2)
      · exact Or.inl h1
    · intro hr
      have : lc.running = true := hr
      rw [hrun] at this
      exact absurd this (by simp)
    · intro hl
      exact absurd hl (by simp)
  | start hook s b s1 _ hs ih =>
    obtain ⟨hid, hrest⟩ := Start_fields hook s b s1 hs
    rw [hid]
    refine ⟨ih.1, ?_, ?_⟩
    · rcases hrest with ⟨h1, h2, _⟩ | h
      · rw [h1, h2]; exact ih.2.1
      · exact fun _ => h
    · rcases hrest with ⟨h1, _, h3⟩ | h
      · rw [h1, h3]; exact ih.2.2
      · exact fun _ => h
  | stop reason s s1 _ hs ih =>
    obtain ⟨hid, hopt, hloops, hrun⟩ := Stop_fields reason s s1 hs
    rw [hid, hopt, hloops]
    exact ⟨ih.1, fun hr => ih.2.1 (hrun hr), ih.2.2⟩
  | tick hook s s1 _ hpos hs ih =>
    obtain ⟨hid, hloops, hrun, hopt⟩ := execute_fields hook s s1 hs
    rw [hid, hloops]
    exact ⟨ih.1, fun _ => hopt (ih.2.2 hpos), fun _ => hopt (ih.2.2 hpos)⟩
  | recvChat s _ ih => exact ih
  | recvError s _ ih => exact ih
  | recvStart s _ ih => exact ih
  | recvEnd s _ ih => exact ih

/-- Claim C28 fails at `intervalMs = 2 ^ 58`, a 64-bit value that is not 0:
its product with 1,000,000 is a multiple of `2 ^ 64`, so the 64-bit duration
is 0 and the engine gets the default interval of 1000 ms. -/
theorem NewLiveChat_interval_wraps :
    ∃ lc, NewLiveChat { ChannelID := "channelId" } 288230376151711744 = (some lc, none) ∧
      lc.interval = 1000000000 ∧
      wrapInt64 (288230376151711744 * Millisecond) = 0 ∧
      (288230376151711744 : Int) ≠ 0 ∧ (288230376151711744 : Int) < 2 ^ 63 :=
  ⟨_, rfl, by decide, by decide, by decide, by decide⟩

theorem wrapInt64_million_eq_zero (ms : Int) :
    wrapInt64 (ms * 1000000) = 0 ↔ (288230376151711744 : Int) ∣ ms := by
  unfold wrapInt64
  have h63 : (2 : Int) ^ 63 = 9223372036854775808 := by norm_num
  have h64 : (2 : Int) ^ 64 = 18446744073709551616 := by norm_num
  rw [h63, h64]
  omega

/-- Claim C28, amended: the interval of a constructed engine is the 64-bit
product of `intervalMs` and 1,000,000 nanoseconds, unless that product is 0,
where it is the default of 1000 ms; the product is 0 exactly when
`intervalMs` is a multiple of `2 ^ 58`. For `intervalMs` between
-9,223,372,036,854 and 9,223,372,036,854 the product fits in 64 bits: it is 0
exactly when `intervalMs` is 0, and the interval is `intervalMs` milliseconds
for every other value. -/
theorem NewLiveChat_interval (id : YoutubeId) (intervalMs : Int) (lc : LiveChat)
    (h : NewLiveChat id intervalMs = (some lc, none)) :
    lc.interval = (if wrapInt64 (intervalMs * 1000000) = 0 then 1000000000
      else wrapInt64 (intervalMs * 1000000)) ∧
    (wrapInt64 (intervalMs * 1000000) = 0 ↔ (288230376151711744 : Int) ∣ intervalMs) ∧
    (-9223372036854 ≤ intervalMs → intervalMs ≤ 9223372036854 →
      (wrapInt64 (intervalMs * 1000000) = 0 ↔ intervalMs = 0) ∧
      (intervalMs = 0 → lc.interval = 1000000000) ∧
      (intervalMs ≠ 0 → lc.interval = intervalMs * 1000000)) := by
  have hint := (NewLiveChat_some id intervalMs lc h).2.2.2.2
  have hms : Millisecond = 1000000 := rfl
  rw [hms] at hint
  have h1000 : (1000 : Int) * 1000000 = 1000000000 := by norm_num
  rw [h1000] at hint
  refine ⟨hint, wrapInt64_million_eq_zero intervalMs, ?_⟩
  intro hlo hhi
  have hfit : wrapInt64 (intervalMs * 1000000) = intervalMs * 1000000 :=
    wrapInt64_of_fits _ (by omega) (by omega)
  rw [hfit] at hint
  rw [hfit]
  have hzero : intervalMs * 1000000 = 0 ↔ intervalMs = 0 := by omega
  refine ⟨hzero, ?_, ?_⟩
  · intro h0
    rw [hint, if_pos (hzero.mpr h0)]
  · intro hne
    rw [hint, if_neg (fun hz => hne (hzero.mp hz))]

/-- Claim C28, amended, at the intervals 0 and 250. -/
theorem NewLiveChat_interval_witness :
    (∀ lc, NewLiveChat { ChannelID := "channelId" } 0 = (some lc, none) →
      lc.interval = 1000000000) ∧
    (∀ lc, NewLiveChat { ChannelID := "channelId" } 250 = (some lc, none) →
      lc.interval = 250000000) ∧
    (∃ lc, NewLiveChat { ChannelID := "channelId" } 250 = (some lc, none)) :=
  ⟨fun lc h => ((NewLiveChat_interval { ChannelID := "channelId" } 0 lc h).2.2
      (by decide) (by decide)).2.1 rfl,
   fun lc h => ((NewLiveChat_interval { ChannelID := "channelId" } 250 lc h).2.2
      (by decide) (by decide)).2.2 (by decide),
   ⟨_, rfl⟩⟩

/-! ## Session parameters of a started engine -/

/-- Claim C29: in every state of an engine, reached from the constructor by
any calls of `Start` and `Stop` and poll cycles with any hook results, a
running engine has session parameters, and so has an engine that has launched
a worker. A poll cycle of such an engine calls the feed fetcher with them: it
does not publish `Not found options`, does not stop the engine and leaves the
end queue and the stop channel as they are. -/
theorem options_present_when_started {σ : Type} (s : Engine σ) (hreach : Reachable s) :
    (s.lc.running = true → ∃ o, s.lc.options = some o) ∧
    (0 < s.loops → ∃ o, s.lc.options = some o ∧
      ∀ hook : ChatHook σ, ∃ s1, execute hook s = some s1 ∧
        s1.world = (hook o s.world).2 ∧
        s1.lc.running = s.lc.running ∧ s1.lc.EndChan = s.lc.EndChan ∧
        s1.lc.stopChan = s.lc.stopChan ∧
        ((hook o s.world).1.2.2 = none → s1.lc.ErrorChan = s.lc.ErrorChan) ∧
        (∀ e, (hook o s.world).1.2.2 = some e →
          s1.lc.ErrorChan = trySend s.lc.ErrorChan e)) := by
  obtain ⟨_, hrun, hloops⟩ := hreach.session
  constructor
  · intro hr
    exact Option.ne_none_iff_exists'.mp (hrun hr)
  · intro hl
    obtain ⟨o, ho⟩ := Option.ne_none_iff_exists'.mp (hloops hl)
    refine ⟨o, ho, ?_⟩
    intro hook
    rcases hres : hook o s.world with ⟨⟨items, c, err⟩, w⟩
    cases err with
    | some e =>
      refine ⟨_, execute_err hook s o items c e w ho hres, rfl, rfl, rfl, rfl, ?_, ?_⟩
      · intro hnone; simp at hnone
      · intro e2 he2
        simp only [Option.some.injEq] at he2
        subst he2
        rfl
    | none =>
      refine ⟨_, execute_ok hook s o items c w ho hres, rfl, rfl, rfl, rfl, ?_, ?_⟩
      · intro _; rfl
      · intro e2 he2; simp at he2

/-- Claim C29 at the running test engine, whose error queue is full, with a
feed fetcher that fails. -/
theorem options_present_when_started_witness :
    ∃ o, runningFullErrors.lc.options = some o ∧
      ∃ s1, execute (fetchErr "FETCH") runningFullErrors = some s1 ∧
        s1.world = runningFullErrors.world ++ ["FetchChat continuation"] ∧
        s1.lc.running = true ∧ s1.lc.EndChan.buf = [] := by
  obtain ⟨o, ho, h⟩ :=
    (options_present_when_started runningFullErrors runningFullErrors_reachable).2 (by decide)
  obtain ⟨s1, h0, h1, h2, h3, _⟩ := h (fetchErr "FETCH")
  have hopt := Option.some.inj ho
  subst hopt
  exact ⟨_, ho, s1, h0, h1, by rw [h2]; rfl, by rw [h3]; rfl⟩

end YoutubeChat
